import Mathlib

/-! # GitGrade: the repository scoring pipeline

A shallow embedding of the backend of GitGrade (nine heuristic analyzers, the
score aggregation of `analyzer.service.js`, the rating table of `constants.js`
and the template roadmap of `ai.service.js`).

Modelling conventions.

* A JavaScript string is a `List Char` (`Str`).  `jsLength` counts UTF-16 code
  units, as the `length` property does.
* A JavaScript number is a rational (`ℚ`).  The weighted totals, the `reduce`
  sums of sizes and depths and the arithmetic of `analyzeDuplication` and
  `calculateTestToCodeRatio` are computed in doubles: every operation is followed
  by `toDouble`, the rounding to 53 significant bits (nearest, ties to even).
  Sums and differences of small integers and of halves are exact in doubles and
  are written without rounding.  A quotient that is only compared with a literal
  (a ratio of two counts, an average, the ratio of two size sums) is the exact
  quotient of its operands; for counts below `2^32` and sums below `2^50` the
  comparison of the double quotient with the double literal has the same
  outcome.  `NaN`, the infinities and the exponent range of doubles are not
  modelled.  Where the source divides by a length that may be zero the rational
  quotient is `0`, and every such quotient is only compared with `>` or `>=`
  against a positive threshold, or sits behind a guard, exactly as the `NaN` of
  the source.
* `Math.round x` is `⌊x + 1/2⌋`.
* Functions of Node's `path` module follow the POSIX implementation.
* `async` functions are modelled by their results; a rejected promise is an
  `Except.error`.
* The methods that divide, spread a list into `Math.max` or read a field of the
  README have a second, instrumented copy in the namespace `Checked`, where these
  operations are partial.
-/

namespace GitGrade

/-! ## Strings -/

/-- A JavaScript string. -/
abbrev Str := List Char

/-- Number of UTF-16 code units of a string (`s.length`). -/
def jsLength (s : Str) : Nat :=
  (s.map fun c => if c.toNat < 65536 then 1 else 2).sum

/-- Substring test `s.includes(pat)`. -/
def includes : Str → Str → Bool
  | [], pat => pat.isEmpty
  | c :: cs, pat => pat.isPrefixOf (c :: cs) || includes cs pat

/-- Prefix test `s.startsWith(pat)`. -/
def startsWith (s pat : Str) : Bool := pat.isPrefixOf s

/-- Suffix test `s.endsWith(pat)`. -/
def endsWith (s pat : Str) : Bool := pat.isSuffixOf s

/-- Lower-casing of one character by `String.prototype.toLowerCase`: the ASCII
letters, and the two characters outside ASCII whose lower case contains an ASCII
letter (KELVIN SIGN and LATIN CAPITAL LETTER I WITH DOT ABOVE).  Other
characters are kept. -/
def toLowerChar (c : Char) : Str :=
  if c.toNat = 0x212A then ['k']
  else if c.toNat = 0x0130 then ['i', Char.ofNat 0x0307]
  else [c.toLower]

/-- Lower-casing `s.toLowerCase()`. -/
def toLowerCase (s : Str) : Str := s.flatMap toLowerChar

/-- Upper-casing of one character by `String.prototype.toUpperCase`: the ASCII
letters, and the characters outside ASCII whose upper case contains an ASCII
letter.  Other characters are kept. -/
def toUpperChar (c : Char) : Str :=
  if c.toNat = 0x00DF then ['S', 'S']
  else if c.toNat = 0x0131 then ['I']
  else if c.toNat = 0x017F then ['S']
  else if c.toNat = 0x0149 then [Char.ofNat 0x02BC, 'N']
  else if c.toNat = 0x01F0 then ['J', Char.ofNat 0x030C]
  else if c.toNat = 0x1E96 then ['H', Char.ofNat 0x0331]
  else if c.toNat = 0x1E97 then ['T', Char.ofNat 0x0308]
  else if c.toNat = 0x1E98 then ['W', Char.ofNat 0x030A]
  else if c.toNat = 0x1E99 then ['Y', Char.ofNat 0x030A]
  else if c.toNat = 0x1E9A then ['A', Char.ofNat 0x02BE]
  else if c.toNat = 0xFB00 then ['F', 'F']
  else if c.toNat = 0xFB01 then ['F', 'I']
  else if c.toNat = 0xFB02 then ['F', 'L']
  else if c.toNat = 0xFB03 then ['F', 'F', 'I']
  else if c.toNat = 0xFB04 then ['F', 'F', 'L']
  else if c.toNat = 0xFB05 then ['S', 'T']
  else if c.toNat = 0xFB06 then ['S', 'T']
  else [c.toUpper]

/-- Upper-casing `s.toUpperCase()`. -/
def toUpperCase (s : Str) : Str := s.flatMap toUpperChar

/-- Lower-casing as done by a regular expression with the `i` flag (no `u`
flag): only ASCII letters fold onto ASCII letters. -/
def asciiLower (s : Str) : Str := s.map Char.toLower

/-- Line terminators of ECMAScript regular expressions (`.` excludes them, `^`
and `$` with the `m` flag match next to them). -/
def isLineTerminator (c : Char) : Bool :=
  c.toNat = 0x0A || c.toNat = 0x0D || c.toNat = 0x2028 || c.toNat = 0x2029

/-- White space as matched by `\s` and stripped by `trim()`. -/
def isWhiteSpace (c : Char) : Bool :=
  let n := c.toNat
  n = 0x09 || n = 0x0A || n = 0x0B || n = 0x0C || n = 0x0D || n = 0x20 || n = 0xA0 ||
  n = 0x1680 || (0x2000 ≤ n && n ≤ 0x200A) || n = 0x2028 || n = 0x2029 || n = 0x202F ||
  n = 0x205F || n = 0x3000 || n = 0xFEFF

/-- Whitespace stripping `s.trim()`. -/
def trim (s : Str) : Str :=
  ((s.dropWhile isWhiteSpace).reverse.dropWhile isWhiteSpace).reverse

/-- The regular-expression class `\d`. -/
def isDigit (c : Char) : Bool := 48 ≤ c.toNat && c.toNat ≤ 57

/-- The regular-expression class `[a-z]`. -/
def isLowerAZ (c : Char) : Bool := 97 ≤ c.toNat && c.toNat ≤ 122

/-- The regular-expression class `[A-Z]`. -/
def isUpperAZ (c : Char) : Bool := 65 ≤ c.toNat && c.toNat ≤ 90

/-- Elements of a JavaScript `Set` built from a list, in insertion order. -/
def setOf {α : Type} [DecidableEq α] (xs : List α) : List α :=
  xs.foldl (fun acc x => if x ∈ acc then acc else acc ++ [x]) []

/-- The function `Math.round`: the nearest integer, halves rounded up. -/
def mathRound (x : ℚ) : ℚ := ((⌊x + 1 / 2⌋ : ℤ) : ℚ)

/-- The function `Math.max(...xs)` on a list that the source keeps non-empty
(the value on the empty list, `-Infinity` in the source, is `0` here). -/
def mathMax (xs : List ℚ) : ℚ := xs.foldl max (xs.headD 0)

/-! ## IEEE 754 double precision

Where the source multiplies by a decimal weight, or adds numbers that may leave
the range of exact integers, the result is the double nearest to the exact
result (round to nearest, ties to even).  The exponent range of doubles
(overflow, subnormal numbers) is not modelled. -/

/-- The number `⌊log₂ n⌋` for `1 ≤ n ≤ fuel`. -/
def log2Fuel : Nat → Nat → Nat
  | 0, _ => 0
  | fuel + 1, n => if n < 2 then 0 else log2Fuel fuel (n / 2) + 1

/-- The binary exponent of a non-zero rational: the `e` with
`2^e ≤ |x| < 2^(e+1)`. -/
def binaryExponent (x : ℚ) : ℤ :=
  let a : ℤ := (log2Fuel x.num.natAbs x.num.natAbs : ℤ) - (log2Fuel x.den x.den : ℤ)
  if (2 : ℚ) ^ a ≤ |x| then a else a - 1

/-- Rounding to the nearest integer, a tie to the even one. -/
def roundHalfEven (t : ℚ) : ℤ :=
  if t - ⌊t⌋ < 1 / 2 then ⌊t⌋
  else if t - ⌊t⌋ > 1 / 2 then ⌊t⌋ + 1
  else if ⌊t⌋ % 2 = 0 then ⌊t⌋ else ⌊t⌋ + 1

/-- The double nearest to `x`: `x` rounded to 53 significant bits. -/
def toDouble (x : ℚ) : ℚ :=
  if x = 0 then 0
  else
    let ulp : ℚ := 2 ^ (binaryExponent x - 52)
    roundHalfEven (x / ulp) * ulp

/-- The sum `a + b` of two doubles. -/
def addD (a b : ℚ) : ℚ := toDouble (a + b)

/-- The difference `a - b` of two doubles. -/
def subD (a b : ℚ) : ℚ := toDouble (a - b)

/-- The product `a * b` of two doubles. -/
def mulD (a b : ℚ) : ℚ := toDouble (a * b)

/-- The quotient `a / b` of two doubles. -/
def divD (a b : ℚ) : ℚ := toDouble (a / b)

/-! ## Node's `path` module (POSIX) -/

namespace path

/-- The last non-empty `/`-separated portion of a path (`path.basename`). -/
def basename (p : Str) : Str :=
  ((p.reverse.dropWhile (· == '/')).takeWhile (· != '/')).reverse

/-- The extension of the last portion of a path (`path.extname`): from its last
`.` on, and empty when there is no `.`, when the only `.` is the first
character of the portion, or when the portion is `..`. -/
def extname (p : Str) : Str :=
  let base := basename p
  if !base.contains '.' then []
  else
    let ext := (base.reverse.takeWhile (· != '.')).reverse
    let stem := (base.reverse.dropWhile (· != '.')).tail.reverse
    if stem.isEmpty then []
    else if base = ['.', '.'] then []
    else '.' :: ext

/-- The directory part of a path (`path.dirname`). -/
def dirname (p : Str) : Str :=
  match p with
  | [] => ['.']
  | c :: rest =>
    let hasRoot := c == '/'
    let scanned := (rest.reverse.dropWhile (· == '/')).dropWhile (· != '/')
    match scanned with
    | [] => if hasRoot then ['/'] else ['.']
    | _ :: before =>
      if hasRoot && before.isEmpty then ['/', '/'] else c :: before.reverse

end path

/-- Number of `/`-separated segments, `p.split('/').length`. -/
def splitDepth (p : Str) : Nat := p.count '/' + 1

/-! ## The repository snapshot -/

/-- One entry of the file tree.  `size` is absent for directories; it is a
JavaScript number: an integer that a double holds. -/
structure FileEntry where
  path : Str
  type : Str := []
  size : Option Nat := none
  deriving DecidableEq, Repr

/-- The expression `f.size || 0`. -/
def FileEntry.sizeOr0 (f : FileEntry) : ℚ := ((f.size.getD 0 : Nat) : ℚ)

/-- The README of the repository. -/
structure Readme where
  content : Str
  size : Nat := 0
  deriving DecidableEq, Repr

/-- One commit of the history. -/
structure Commit where
  message : Str
  author : Str := []
  date : Str := []
  deriving DecidableEq, Repr

/-- One branch. -/
structure Branch where
  name : Str
  isProtected : Bool
  deriving DecidableEq, Repr

/-- Pull-request counts. -/
structure PullRequests where
  total : Nat
  opened : Nat
  closed : Nat
  merged : Nat
  deriving DecidableEq, Repr

/-- Everything the analyzers read.  `none` stands for `null`. -/
structure RepoSnapshot where
  files : List FileEntry
  readme : Option Readme
  commits : Option (List Commit)
  branches : Option (List Branch)
  pullRequests : Option PullRequests
  deriving Repr

deriving instance DecidableEq for Except

/-- What an analyzer returns.  `details = none` is the empty object `{}` of the
early returns. -/
structure AnalyzerResult (δ : Type) where
  score : ℚ
  details : Option δ
  deriving Repr

/-- String literals of the pattern tables. -/
def strs (xs : List String) : List Str := xs.map String.toList

/-! ## `constants.js`: pattern tables -/

/-- Table `FILE_CATEGORIES.code`. -/
def FILE_CATEGORIES.code : List Str :=
  strs [".js", ".jsx", ".ts", ".tsx", ".py", ".java", ".cpp", ".c", ".cs", ".rb", ".go",
    ".rs", ".php", ".swift", ".kt"]

/-- Table `CICD_PATTERNS`: platform name and path signatures. -/
def CICD_PATTERNS : List (Str × List Str) :=
  [("GitHub Actions".toList, strs [".github/workflows", ".github/actions"]),
   ("GitLab CI".toList, strs [".gitlab-ci.yml"]),
   ("Travis CI".toList, strs [".travis.yml"]),
   ("CircleCI".toList, strs [".circleci/config.yml"]),
   ("Jenkins".toList, strs ["Jenkinsfile"]),
   ("Azure Pipelines".toList, strs ["azure-pipelines.yml"]),
   ("Bitbucket Pipelines".toList, strs ["bitbucket-pipelines.yml"])]

/-- Table `CONTAINER_PATTERNS.docker`. -/
def CONTAINER_PATTERNS.docker : List Str := strs ["Dockerfile", "dockerfile", ".dockerfile"]

/-- Table `CONTAINER_PATTERNS.dockerCompose`. -/
def CONTAINER_PATTERNS.dockerCompose : List Str :=
  strs ["docker-compose.yml", "docker-compose.yaml", "compose.yml", "compose.yaml"]

/-- Table `SECURITY_PATTERNS.sensitiveFiles`. -/
def SECURITY_PATTERNS.sensitiveFiles : List Str :=
  strs [".env", "credentials.json", "secrets.yml", "private_key.pem", "id_rsa"]

/-- Table `README_SECTIONS`. -/
def README_SECTIONS : List Str :=
  strs ["Installation", "Usage", "Features", "Documentation", "Contributing", "License",
    "Tests", "API", "Examples", "Requirements", "Setup", "Getting Started"]

/-! ## Code quality analyzer (`codeQuality.analyzer.js`) -/

/-- Detail record of the code quality analyzer. -/
structure CodeQualityDetails where
  complexity : ℚ
  fileSize : ℚ
  naming : ℚ
  duplication : ℚ
  totalCodeFiles : Nat
  deriving Repr

namespace CodeQualityAnalyzer

/-- Method `isCodeFile`: the lower-cased extension is a code extension. -/
def isCodeFile (filePath : Str) : Bool :=
  let ext := toLowerCase (path.extname filePath)
  FILE_CATEGORIES.code.contains ext

/-- Method `analyzeComplexity`. -/
def analyzeComplexity (files : List FileEntry) : ℚ :=
  let score : ℚ := 20
  let avgSize : ℚ := files.foldl (fun sum f => addD sum f.sizeOr0) 0 / files.length
  let score := if avgSize > 1000 then score - 5 else score
  let score := if avgSize > 2000 then score - 5 else score
  let score := if avgSize > 5000 then score - 5 else score
  let largeFiles := (files.filter fun f => f.sizeOr0 > 10000).length
  let largeFileRatio : ℚ := (largeFiles : ℚ) / files.length
  let score := if largeFileRatio > 0.3 then score - 5 else score
  let maxDepth := mathMax (files.map fun f => (splitDepth f.path : ℚ))
  let score := if maxDepth > 8 then score - 3 else score
  let score := if maxDepth > 12 then score - 2 else score
  max score 0

/-- Method `analyzeFileSizes`. -/
def analyzeFileSizes (files : List FileEntry) : ℚ :=
  let score : ℚ := 20
  let sizes := (files.map fun f => f.sizeOr0).filter fun s => s > 0
  if sizes.length = 0 then 10
  else
    let avgSize : ℚ := sizes.foldl (fun a b => addD a b) 0 / sizes.length
    let maxSize := mathMax sizes
    let score := if maxSize > 50000 then score - 5 else score
    let score := if maxSize > 100000 then score - 5 else score
    let score := if avgSize > 5000 then score - 3 else score
    let score := if avgSize > 10000 then score - 3 else score
    let tinyFiles := (sizes.filter fun s => s < 100).length
    let score := if (tinyFiles : ℚ) / sizes.length > 0.5 then score - 4 else score
    max score 0

/-- The test `/test|temp|old|backup|copy|new|tmp/i`. -/
def badNamePattern (filename : Str) : Bool :=
  (strs ["test", "temp", "old", "backup", "copy", "new", "tmp"]).any
    fun w => includes (asciiLower filename) w

/-- The test `/\d{1,2}\.(js|py|java|ts)$/i`. -/
def numberedFilePattern (filename : Str) : Bool :=
  (strs [".js", ".py", ".java", ".ts"]).any fun ext =>
    endsWith (asciiLower filename) ext &&
      match (asciiLower filename).reverse.drop ext.length with
      | d :: _ => isDigit d
      | [] => false

/-- The test `/^[a-z][a-zA-Z0-9]*\.(js|py|ts|java)$/`. -/
def camelCasePattern (name : Str) : Bool :=
  match name with
  | [] => false
  | c :: rest =>
    isLowerAZ c &&
      (strs [".js", ".py", ".ts", ".java"]).contains
        (rest.dropWhile fun x => isLowerAZ x || isUpperAZ x || isDigit x)

/-- The test `/^[a-z][a-z0-9-]*\.(js|py|ts|java)$/`. -/
def kebabCasePattern (name : Str) : Bool :=
  match name with
  | [] => false
  | c :: rest =>
    isLowerAZ c &&
      (strs [".js", ".py", ".ts", ".java"]).contains
        (rest.dropWhile fun x => isLowerAZ x || isDigit x || x == '-')

/-- Method `analyzeNaming`. -/
def analyzeNaming (files : List FileEntry) : ℚ :=
  let score : ℚ := files.foldl (fun score file =>
      let filename := path.basename file.path
      let score := if badNamePattern filename then score - 0.5 else score
      let score := if numberedFilePattern filename then score - 0.5 else score
      score) 20
  let goodPatterns := files.filter fun f =>
    let name := path.basename f.path
    camelCasePattern name || kebabCasePattern name
  let score := if (goodPatterns.length : ℚ) / files.length > 0.8 then score + 2 else score
  max (min score 20) 0

/-- Method `analyzeDuplication`. -/
def analyzeDuplication (files : List FileEntry) : ℚ :=
  let score : ℚ := 20
  let fileNames := files.map fun f => path.basename f.path
  let uniqueNames := setOf fileNames
  let score :=
    if fileNames.length > uniqueNames.length then
      let duplicateRatio : ℚ := subD 1 (divD uniqueNames.length fileNames.length)
      subD score (min (mulD duplicateRatio 20) 10)
    else score
  max score 0

/-- The local `totalScore` of `analyze`: the rounded weighted total of the four
sub-scores of the code files. -/
def totalScore (codeFiles : List FileEntry) : ℚ :=
  mathRound
    (addD (addD (addD
      (mulD (analyzeComplexity codeFiles) (toDouble 0.4))
      (mulD (analyzeFileSizes codeFiles) (toDouble 0.25)))
      (mulD (analyzeDuplication codeFiles) (toDouble 0.20)))
      (mulD (analyzeNaming codeFiles) (toDouble 0.15)))

/-- Method `analyze` (20 points max). -/
def analyze (files : List FileEntry) : AnalyzerResult CodeQualityDetails :=
  let codeFiles := files.filter fun f => isCodeFile f.path
  if codeFiles.length = 0 then { score := 0, details := none }
  else
    { score := min (totalScore codeFiles) 20
      details := some
        { complexity := analyzeComplexity codeFiles
          fileSize := analyzeFileSizes codeFiles
          naming := analyzeNaming codeFiles
          duplication := analyzeDuplication codeFiles
          totalCodeFiles := codeFiles.length } }

end CodeQualityAnalyzer

/-! ## Project structure analyzer (`projectStructure.analyzer.js`) -/

/-- Detail record of the project structure analyzer. -/
structure ProjectStructureDetails where
  folderOrganization : ℚ
  configFiles : ℚ
  separationOfConcerns : ℚ
  deriving Repr

namespace ProjectStructureAnalyzer

/-- A path lies in a test directory: it contains `test/`, `tests/` or
`__tests__/`. -/
def inTestDir (p : Str) : Bool :=
  includes p "test/".toList || includes p "tests/".toList || includes p "__tests__/".toList

/-- Method `analyzeFolderOrganization`. -/
def analyzeFolderOrganization (files : List FileEntry) : ℚ :=
  let score : ℚ := 15
  let dirs := setOf (files.map fun f => path.dirname f.path)
  let dirCount := dirs.length
  let hasSrcDir := files.any fun f => startsWith f.path "src/".toList
  let hasTestDir := files.any fun f => inTestDir f.path
  let hasDocsDir := files.any fun f => startsWith f.path "docs/".toList
  let score := if hasSrcDir then score + 2 else score
  let score := if hasTestDir then score + 1 else score
  let score := if hasDocsDir then score + 1 else score
  let depths := files.map fun f => (splitDepth f.path : ℚ)
  let avgDepth : ℚ := depths.foldl (fun a b => addD a b) 0 / depths.length
  let maxDepth := mathMax depths
  let score := if maxDepth > 10 then score - 3 else score
  let score := if avgDepth < 2 ∧ files.length > 10 then score - 3 else score
  let score := if avgDepth > 6 then score - 2 else score
  let rootFiles := files.filter fun f => !includes f.path "/".toList
  let rootFileRatio : ℚ := (rootFiles.length : ℚ) / files.length
  let score := if rootFileRatio > 0.5 ∧ files.length > 20 then score - 4 else score
  let hasAllFilesInRoot := dirCount = 1 ∧ files.length > 10
  let score := if hasAllFilesInRoot then score - 5 else score
  let hasPackageJson := files.any fun f => f.path = "package.json".toList
  let hasNodeModules := files.any fun f => startsWith f.path "node_modules/".toList
  let score := if hasPackageJson && !hasNodeModules then score + 1 else score
  max (min score 15) 0

/-- The local table `configFiles` of `analyzeConfigFiles`. -/
def configFileNames : List Str :=
  strs ["package.json", "tsconfig.json", "webpack.config.js", "vite.config.js", ".eslintrc",
    ".prettierrc", "babel.config.js", "jest.config.js", "requirements.txt", "setup.py",
    "pom.xml", "build.gradle", "Makefile", ".gitignore", ".editorconfig"]

/-- Method `analyzeConfigFiles`. -/
def analyzeConfigFiles (files : List FileEntry) : ℚ :=
  let score : ℚ := 10
  let foundConfigs := files.filter fun f =>
    configFileNames.contains (path.basename f.path) ||
      configFileNames.any fun cf => endsWith f.path cf
  let score := if foundConfigs.length ≥ 3 then score + 3 else score
  let score := if foundConfigs.length ≥ 5 then score + 2 else score
  let score := if foundConfigs.length ≥ 8 then score + 2 else score
  let hasGitignore := files.any fun f =>
    f.path = ".gitignore".toList || endsWith f.path ".gitignore".toList
  let score := if !hasGitignore then score - 3 else score + 2
  let hasEnvExample := files.any fun f =>
    includes f.path ".env.example".toList || includes f.path ".env.template".toList
  let score := if hasEnvExample then score + 2 else score
  let hasEditorConfig := files.any fun f => f.path = ".editorconfig".toList
  let score := if hasEditorConfig then score + 1 else score
  max (min score 15) 0

/-- The test `/\.(test|spec)\.[jt]sx?$/`. -/
def testFilePattern (p : Str) : Bool :=
  (strs [".test.js", ".test.jsx", ".test.ts", ".test.tsx", ".spec.js", ".spec.jsx",
    ".spec.ts", ".spec.tsx"]).any fun suffix => endsWith p suffix

/-- The nine groups of `patterns` in `analyzeSeparationOfConcerns`: a file
belongs to a group when its path contains one of the group's directory names. -/
def separationPatterns : List (List Str) :=
  [strs ["components/"], strs ["controllers/"], strs ["models/"], strs ["views/"],
   strs ["services/"], strs ["utils/", "helpers/"], strs ["routes/", "api/"],
   strs ["config/"], strs ["assets/", "static/"]]

/-- Method `analyzeSeparationOfConcerns`. -/
def analyzeSeparationOfConcerns (files : List FileEntry) : ℚ :=
  let score : ℚ := 15
  let patterns := separationPatterns.map fun dirs =>
    files.filter fun f => dirs.any fun d => includes f.path d
  let presentPatterns := (patterns.filter fun p => p.length > 0).length
  let score := if presentPatterns ≥ 4 then score + 3 else score
  let score := if presentPatterns ≥ 6 then score + 2 else score
  let testFiles := files.filter fun f => testFilePattern f.path
  let testsInTestDir := testFiles.filter fun f => inTestDir f.path
  let score :=
    if testFiles.length > 0 ∧ (testsInTestDir.length : ℚ) / testFiles.length < 0.5
    then score - 3 else score
  max (min score 15) 0

/-- The local `totalScore` of `analyze`. -/
def totalScore (files : List FileEntry) : ℚ :=
  mathRound
    (addD (addD
      (mulD (analyzeFolderOrganization files) (toDouble 0.60))
      (mulD (analyzeConfigFiles files) (toDouble 0.25)))
      (mulD (analyzeSeparationOfConcerns files) (toDouble 0.15)))

/-- Method `analyze` (15 points max). -/
def analyze (files : List FileEntry) : AnalyzerResult ProjectStructureDetails :=
  if files.length = 0 then { score := 0, details := none }
  else
    { score := min (totalScore files) 15
      details := some
        { folderOrganization := analyzeFolderOrganization files
          configFiles := analyzeConfigFiles files
          separationOfConcerns := analyzeSeparationOfConcerns files } }

end ProjectStructureAnalyzer

/-! ## Regular expressions with the `g` flag -/

/-- All matches of a regular expression with the `g` flag, left to right and
without overlap.  `matchAt lineStart s` is the match starting at the head of `s`
(where `lineStart` tells whether that position starts a line), paired with what
follows it.  The first argument bounds the number of positions visited. -/
def globalMatchAux (matchAt : Bool → Str → Option (Str × Str)) :
    Nat → Bool → Str → List Str
  | 0, _, _ => []
  | fuel + 1, lineStart, s =>
    match matchAt lineStart s with
    | some (m, rest) =>
      globalMatchAux matchAt fuel
        (match m.getLast? with
          | some c => isLineTerminator c
          | none => lineStart) rest |>.cons m
    | none =>
      match s with
      | [] => []
      | c :: cs => globalMatchAux matchAt fuel (isLineTerminator c) cs

/-- The result of `s.match(re) || []` for a regular expression `re` with the `g`
flag whose matches are never empty. -/
def globalMatch (matchAt : Bool → Str → Option (Str × Str)) (s : Str) : List Str :=
  globalMatchAux matchAt (s.length + 1) true s

/-- The first occurrence of `pat` in a string: what precedes it and what
follows it. -/
def splitAtFirst (pat : Str) : Str → Option (Str × Str)
  | [] => if pat.isEmpty then some ([], []) else none
  | c :: cs =>
    if pat.isPrefixOf (c :: cs) then some ([], (c :: cs).drop pat.length)
    else (splitAtFirst pat cs).map fun r => (c :: r.1, r.2)

/-- A match of `/^#+\s+(.+)$/m` at the head of a string known to start a line.
`#+` and `\s+` are greedy; when the white space runs to the end of the input,
`\s+` gives back its end so that `.+` matches one character that is no line
terminator. -/
def matchHeaderAt (lineStart : Bool) (s : Str) : Option (Str × Str) :=
  let hashes := s.takeWhile (· == '#')
  let afterHashes := s.dropWhile (· == '#')
  let ws := afterHashes.takeWhile isWhiteSpace
  let afterWs := afterHashes.dropWhile isWhiteSpace
  if !lineStart || hashes.isEmpty || ws.isEmpty then none
  else
    match afterWs with
    | _ :: _ =>
      some (hashes ++ ws ++ afterWs.takeWhile (fun c => !isLineTerminator c),
            afterWs.dropWhile (fun c => !isLineTerminator c))
    | [] =>
      let kept := (ws.reverse.dropWhile isLineTerminator).reverse
      if kept.length ≥ 2 then some (hashes ++ kept, ws.drop kept.length) else none

/-- A match of the three backquotes of a code fence at the head of a string. -/
def matchFenceAt (_lineStart : Bool) (s : Str) : Option (Str × Str) :=
  if "```".toList.isPrefixOf s then some ("```".toList, s.drop 3) else none

/-- A match of `/!\[.*?\]/` at the head of a string. -/
def matchImageAt (_lineStart : Bool) (s : Str) : Option (Str × Str) :=
  match s with
  | '!' :: '[' :: r =>
    let alt := r.takeWhile fun c => c != ']' && !isLineTerminator c
    match r.drop alt.length with
    | ']' :: rest => some ('!' :: '[' :: alt ++ [']'], rest)
    | _ => none
  | _ => none

/-- A match of `/\[.*?\]\(.*?\)/` at the head of a string. -/
def matchLinkAt (_lineStart : Bool) (s : Str) : Option (Str × Str) :=
  match s with
  | '[' :: r =>
    let line := r.takeWhile fun c => !isLineTerminator c
    match splitAtFirst "](".toList line with
    | some (text, after) =>
      let url := after.takeWhile (· != ')')
      if url.length < after.length then
        some ('[' :: text ++ "](".toList ++ url ++ [')'],
              r.drop (text.length + 2 + url.length + 1))
      else none
    | none => none
  | _ => none

/-! ## Documentation analyzer (`documentation.analyzer.js`) -/

/-- Detail record of the documentation analyzer. -/
structure DocumentationDetails where
  readme : ℚ
  codeComments : ℚ
  additionalDocs : ℚ
  readmeLength : Nat
  readmeSections : List Str
  hasLicense : Bool
  hasContributing : Bool
  deriving Repr

namespace DocumentationAnalyzer

/-- The text of a matched header: `header.replace(/^#+\s+/, '').trim()`. -/
def headerText (header : Str) : Str :=
  trim ((header.dropWhile (· == '#')).dropWhile isWhiteSpace)

/-- Method `extractReadmeSections`. -/
def extractReadmeSections (readme : Option Readme) : List Str :=
  match readme with
  | none => []
  | some r =>
    if r.content.isEmpty then []
    else
      let content := toLowerCase r.content
      let headers := globalMatch matchHeaderAt content
      let foundSections := headers.foldl (fun found header =>
        README_SECTIONS.foldl (fun found sec =>
          if includes (headerText header) (toLowerCase sec) then found ++ [toLowerCase sec]
          else found) found) []
      setOf foundSections

/-- Method `analyzeReadme`. -/
def analyzeReadme (readme : Option Readme) : ℚ :=
  match readme with
  | none => 0
  | some r =>
    if r.content.isEmpty then 0
    else
      let score : ℚ := 5
      let content := toLowerCase r.content
      let length := jsLength r.content
      let score :=
        if length < 100 then score - 2
        else if length ≥ 300 ∧ length < 1000 then score + 2
        else if length ≥ 1000 ∧ length < 5000 then score + 4
        else if length ≥ 5000 then score + 3
        else score
      let sections := extractReadmeSections readme
      let has := fun (name : String) => sections.contains name.toList
      let score :=
        if has "installation" || has "setup" || has "getting started" then score + 2 else score
      let score := if has "usage" || has "examples" then score + 2 else score
      let score := if has "features" then score + 1 else score
      let score := if has "documentation" || has "api" then score + 1 else score
      let score := if has "contributing" then score + 1 else score
      let score := if has "license" then score + 1 else score
      let score := if has "tests" || has "testing" then score + 1 else score
      let codeBlocks : ℚ := ((globalMatch matchFenceAt content).length : ℚ) / 2
      let score := if codeBlocks ≥ 2 then score + 2 else score
      let score := if codeBlocks ≥ 4 then score + 1 else score
      let images := (globalMatch matchImageAt content).length
      let score := if images > 0 then score + 1 else score
      let links := (globalMatch matchLinkAt content).length
      let score := if links ≥ 3 then score + 1 else score
      let score :=
        if includes content "table of contents".toList || includes content "toc".toList
        then score + 1 else score
      let score := if length < 200 ∧ sections.length < 3 then score - 3 else score
      max (min score 15) 0

/-- The test `/\.(js|jsx|ts|tsx|py|java|cpp|c|cs|rb|go|rs|php|swift|kt)$/`. -/
def codeExtensionPattern (p : Str) : Bool :=
  (strs [".js", ".jsx", ".ts", ".tsx", ".py", ".java", ".cpp", ".c", ".cs", ".rb", ".go",
    ".rs", ".php", ".swift", ".kt"]).any fun ext => endsWith p ext

/-- Method `analyzeCodeComments`. -/
def analyzeCodeComments (files : List FileEntry) : ℚ :=
  let score : ℚ := 10
  let codeFiles := files.filter fun f => codeExtensionPattern f.path
  if codeFiles.length = 0 then 5
  else
    let hasApiDocs := files.any fun f =>
      includes f.path "docs/api".toList || includes f.path "api.md".toList ||
        includes f.path "API.md".toList
    let score := if hasApiDocs then score + 3 else score
    let hasDocgen := files.any fun f =>
      includes f.path "jsdoc".toList || includes f.path "typedoc".toList ||
        includes f.path "sphinx".toList
    let score := if hasDocgen then score + 2 else score
    let score := if score ≥ 10 then score + 3 else score
    max (min score 15) 0

/-- The test `/^NAME(\.(md|txt|rst))?$/i` for an upper-case `NAME`. -/
def docFilePattern (name : String) (p : Str) : Bool :=
  let base := asciiLower name.toList
  asciiLower p = base ||
    (strs [".md", ".txt", ".rst"]).any fun ext => asciiLower p = base ++ ext

/-- Method `checkLicense`. -/
def checkLicense (files : List FileEntry) : Bool :=
  files.any fun f =>
    docFilePattern "LICENSE" f.path || docFilePattern "LICENCE" f.path ||
      toUpperCase f.path = "LICENSE".toList || toUpperCase f.path = "LICENCE".toList

/-- Method `checkContributing`. -/
def checkContributing (files : List FileEntry) : Bool :=
  files.any fun f =>
    docFilePattern "CONTRIBUTING" f.path ||
      includes (toUpperCase f.path) "CONTRIBUTING".toList

/-- Method `analyzeAdditionalDocs`. -/
def analyzeAdditionalDocs (files : List FileEntry) : ℚ :=
  let score : ℚ := 10
  let hasDocsDir := files.any fun f => startsWith f.path "docs/".toList
  let score := if hasDocsDir then score + 3 else score
  let score := if checkLicense files then score + 2 else score
  let score := if checkContributing files then score + 2 else score
  let hasChangelog := files.any fun f =>
    docFilePattern "CHANGELOG" f.path || includes (toUpperCase f.path) "CHANGELOG".toList
  let score := if hasChangelog then score + 1 else score
  let hasCodeOfConduct := files.any fun f =>
    docFilePattern "CODE_OF_CONDUCT" f.path ||
      includes (toUpperCase f.path) "CODE_OF_CONDUCT".toList
  let score := if hasCodeOfConduct then score + 1 else score
  let hasSecurity := files.any fun f =>
    docFilePattern "SECURITY" f.path || includes (toUpperCase f.path) "SECURITY".toList
  let score := if hasSecurity then score + 1 else score
  let markdownFiles := files.filter fun f => endsWith f.path ".md".toList
  let score := if markdownFiles.length ≥ 3 then score + 1 else score
  let score := if markdownFiles.length ≥ 5 then score + 1 else score
  max (min score 15) 0

/-- The local `totalScore` of `analyze`. -/
def totalScore (readme : Option Readme) (files : List FileEntry) : ℚ :=
  mathRound
    (addD (addD
      (mulD (analyzeReadme readme) (toDouble 0.75))
      (mulD (analyzeCodeComments files) (toDouble 0.15)))
      (mulD (analyzeAdditionalDocs files) (toDouble 0.10)))

/-- The expression `readme?.content?.length || 0`. -/
def readmeLength (readme : Option Readme) : Nat :=
  match readme with
  | none => 0
  | some r => jsLength r.content

/-- Method `analyze` (15 points max). -/
def analyze (readme : Option Readme) (files : List FileEntry) :
    AnalyzerResult DocumentationDetails :=
  { score := min (totalScore readme files) 15
    details := some
      { readme := analyzeReadme readme
        codeComments := analyzeCodeComments files
        additionalDocs := analyzeAdditionalDocs files
        readmeLength := readmeLength readme
        readmeSections := extractReadmeSections readme
        hasLicense := checkLicense files
        hasContributing := checkContributing files } }

end DocumentationAnalyzer

/-! ## Testing analyzer (`testing.analyzer.js`) -/

/-- Detail record of the testing analyzer. -/
structure TestingDetails where
  testPresence : ℚ
  testCoverage : ℚ
  testOrganization : ℚ
  testFramework : ℚ
  totalTestFiles : Nat
  testToCodeRatio : ℚ
  testingFrameworks : List Str
  deriving Repr

namespace TestingAnalyzer

/-- The predicate of `findTestFiles`, on the path of a file. -/
def isTestFile (p : Str) : Bool :=
  let filename := toLowerCase p
  includes filename ".test.".toList ||
  includes filename ".spec.".toList ||
  includes filename "_test.".toList ||
  includes filename "_spec.".toList ||
  includes filename "/test/".toList ||
  includes filename "/tests/".toList ||
  includes filename "/__tests__/".toList ||
  includes filename "/spec/".toList ||
  includes filename "test_".toList ||
  endsWith filename "Test.java".toList ||
  endsWith filename "Tests.cs".toList

/-- Method `findTestFiles`. -/
def findTestFiles (files : List FileEntry) : List FileEntry :=
  files.filter fun f => isTestFile f.path

/-- Method `findCodeFiles`: files with a code extension whose path is not the
path of a test file. -/
def findCodeFiles (files : List FileEntry) : List FileEntry :=
  let testFiles := setOf ((findTestFiles files).map fun f => f.path)
  files.filter fun f =>
    let ext := toLowerCase (path.extname f.path)
    let isCodeFile := (strs [".js", ".jsx", ".ts", ".tsx", ".py", ".java", ".cpp", ".c",
      ".cs", ".rb", ".go", ".rs", ".php", ".swift", ".kt"]).contains ext
    isCodeFile && !testFiles.contains f.path

/-- A path lies under a test directory: it contains `/test/`, `/tests/` or
`/__tests__/`. -/
def underTestDir (p : Str) : Bool :=
  includes p "/test/".toList || includes p "/tests/".toList || includes p "/__tests__/".toList

/-- Method `analyzeTestPresence`. -/
def analyzeTestPresence (testFiles _codeFiles : List FileEntry) : ℚ :=
  if testFiles.length = 0 then 0
  else
    let score : ℚ := 5
    let score := if testFiles.length ≥ 1 then score + 2 else score
    let score := if testFiles.length ≥ 5 then score + 2 else score
    let score := if testFiles.length ≥ 10 then score + 2 else score
    let score := if testFiles.length ≥ 20 then score + 2 else score
    let hasTestDir := testFiles.any fun f => underTestDir f.path
    let score := if hasTestDir then score + 2 else score
    max (min score 12) 0

/-- Method `estimateTestCoverage`. -/
def estimateTestCoverage (testFiles codeFiles : List FileEntry) : ℚ :=
  if testFiles.length = 0 ∨ codeFiles.length = 0 then 0
  else
    let ratio : ℚ := (testFiles.length : ℚ) / codeFiles.length
    let score : ℚ := 0
    let score := if ratio ≥ 0.1 then score + 2 else score
    let score := if ratio ≥ 0.2 then score + 2 else score
    let score := if ratio ≥ 0.3 then score + 2 else score
    let score := if ratio ≥ 0.5 then score + 3 else score
    let score := if ratio ≥ 0.8 then score + 3 else score
    let totalTestSize : ℚ := testFiles.foldl (fun sum f => addD sum f.sizeOr0) 0
    let totalCodeSize : ℚ := codeFiles.foldl (fun sum f => addD sum f.sizeOr0) 0
    let score :=
      if totalCodeSize > 0 then
        let sizeRatio := totalTestSize / totalCodeSize
        let score := if sizeRatio ≥ 0.2 then score + 1 else score
        let score := if sizeRatio ≥ 0.5 then score + 1 else score
        let score := if sizeRatio ≥ 1.0 then score + 1 else score
        score
      else score
    max (min score 12) 0

/-- Method `analyzeTestOrganization`. -/
def analyzeTestOrganization (testFiles : List FileEntry) : ℚ :=
  if testFiles.length = 0 then 0
  else
    let score : ℚ := 8
    let testsInTestDir := testFiles.filter fun f => underTestDir f.path
    let organizationRatio : ℚ := (testsInTestDir.length : ℚ) / testFiles.length
    let score :=
      if organizationRatio ≥ 0.8 then score + 4
      else if organizationRatio ≥ 0.5 then score + 2
      else if organizationRatio < 0.3 then score - 3
      else score
    let hasTestUtils := testFiles.any fun f =>
      includes f.path "test/utils".toList || includes f.path "test/helpers".toList ||
        includes f.path "testUtils".toList || includes f.path "setupTests".toList
    let score := if hasTestUtils then score + 2 else score
    let hasUnitTests := testFiles.any fun f => includes f.path "unit".toList
    let hasIntegrationTests := testFiles.any fun f => includes f.path "integration".toList
    let hasE2eTests := testFiles.any fun f =>
      includes f.path "e2e".toList || includes f.path "e2e".toList
    let score := if hasUnitTests then score + 1 else score
    let score := if hasIntegrationTests then score + 1 else score
    let score := if hasE2eTests then score + 1 else score
    max (min score 12) 0

/-- Method `getTestingFrameworks`. -/
def getTestingFrameworks (files : List FileEntry) : List Str :=
  let fileNames := files.map fun f => toLowerCase f.path
  let allPaths : Str := List.intercalate [' '] fileNames
  let push := fun (frameworks : List Str) (cond : Bool) (name : String) =>
    if cond then frameworks ++ [name.toList] else frameworks
  let frameworks : List Str := []
  let frameworks := push frameworks
    ((fileNames.any fun f => includes f "jest.config".toList || includes f "package.json".toList)
      && includes allPaths "jest".toList) "Jest"
  let frameworks := push frameworks
    (fileNames.any fun f => includes f "vitest.config".toList) "Vitest"
  let frameworks := push frameworks
    (includes allPaths "mocha".toList || fileNames.any fun f => includes f ".mocharc".toList)
    "Mocha"
  let frameworks := push frameworks (includes allPaths "cypress".toList) "Cypress"
  let frameworks := push frameworks (includes allPaths "playwright".toList) "Playwright"
  let frameworks := push frameworks (includes allPaths "@testing-library".toList)
    "Testing Library"
  let frameworks := push frameworks (includes allPaths "pytest".toList) "PyTest"
  let frameworks := push frameworks (includes allPaths "unittest".toList) "unittest"
  let frameworks := push frameworks (includes allPaths "junit".toList) "JUnit"
  let frameworks := push frameworks (includes allPaths "testng".toList) "TestNG"
  let frameworks := push frameworks (includes allPaths "mockito".toList) "Mockito"
  let frameworks := push frameworks (includes allPaths "nunit".toList) "NUnit"
  let frameworks := push frameworks (includes allPaths "xunit".toList) "xUnit"
  setOf frameworks

/-- Method `detectTestingFramework`. -/
def detectTestingFramework (files : List FileEntry) : ℚ :=
  let frameworks := getTestingFrameworks files
  if frameworks.length = 0 then 0
  else
    let score : ℚ := 5
    let score := if frameworks.length ≥ 1 then score + 3 else score
    let score := if frameworks.length ≥ 2 then score + 2 else score
    let score := if frameworks.length ≥ 3 then score + 2 else score
    max (min score 12) 0

/-- Method `calculateTestToCodeRatio`. -/
def calculateTestToCodeRatio (testFiles codeFiles : List FileEntry) : ℚ :=
  if codeFiles.length = 0 then 0
  else
    let ratio : ℚ := mulD (divD testFiles.length codeFiles.length) 100
    divD (mathRound (mulD ratio 100)) 100

/-- The local `totalScore` of `analyze`. -/
def totalScore (files : List FileEntry) : ℚ :=
  let testFiles := findTestFiles files
  let codeFiles := findCodeFiles files
  mathRound
    (addD (addD (addD
      (mulD (analyzeTestPresence testFiles codeFiles) (toDouble 0.35))
      (mulD (estimateTestCoverage testFiles codeFiles) (toDouble 0.35)))
      (mulD (analyzeTestOrganization testFiles) (toDouble 0.15)))
      (mulD (detectTestingFramework files) (toDouble 0.15)))

/-- Method `analyze` (12 points max). -/
def analyze (files : List FileEntry) : AnalyzerResult TestingDetails :=
  let testFiles := findTestFiles files
  let codeFiles := findCodeFiles files
  if codeFiles.length = 0 then { score := 0, details := none }
  else
    { score := min (totalScore files) 12
      details := some
        { testPresence := analyzeTestPresence testFiles codeFiles
          testCoverage := estimateTestCoverage testFiles codeFiles
          testOrganization := analyzeTestOrganization testFiles
          testFramework := detectTestingFramework files
          totalTestFiles := testFiles.length
          testToCodeRatio := calculateTestToCodeRatio testFiles codeFiles
          testingFrameworks := getTestingFrameworks files } }

end TestingAnalyzer

/-! ## Git practices analyzer (`gitPractices.analyzer.js`) -/

/-- Detail record of the git practices analyzer. -/
structure GitPracticesDetails where
  commitQuality : ℚ
  branchStrategy : ℚ
  pullRequests : ℚ
  deriving Repr

namespace GitPracticesAnalyzer

/-- The test `/^(feat|fix|docs|style|refactor|test|chore|perf):/`. -/
def conventionalCommitPattern (msg : Str) : Bool :=
  (strs ["feat:", "fix:", "docs:", "style:", "refactor:", "test:", "chore:", "perf:"]).any
    fun w => startsWith msg w

/-- The test `/^(add|update|fix|remove|refactor|improve)/`. -/
def imperativeVerbPattern (msg : Str) : Bool :=
  (strs ["add", "update", "fix", "remove", "refactor", "improve"]).any
    fun w => startsWith msg w

/-- Method `analyzeCommits`. -/
def analyzeCommits (commits : Option (List Commit)) : ℚ :=
  match commits with
  | none => 0
  | some commits =>
    if commits.length = 0 then 0
    else
      let score : ℚ := 5
      let score := if commits.length ≥ 10 then score + 2 else score
      let score := if commits.length ≥ 50 then score + 2 else score
      let score := if commits.length ≥ 100 then score + 1 else score
      let goodMessages := commits.filter fun c =>
        let msg := toLowerCase c.message
        conventionalCommitPattern msg || imperativeVerbPattern msg
      let messageQualityRatio : ℚ := (goodMessages.length : ℚ) / commits.length
      let score := if messageQualityRatio ≥ 0.3 then score + 2 else score
      let score := if messageQualityRatio ≥ 0.5 then score + 2 else score
      let score := if messageQualityRatio ≥ 0.7 then score + 1 else score
      max (min score 12) 0

/-- Method `analyzeBranches`. -/
def analyzeBranches (branches : Option (List Branch)) : ℚ :=
  match branches with
  | none => 5
  | some branches =>
    if branches.length = 0 then 5
    else
      let score : ℚ := 5
      let score := if branches.length ≥ 2 then score + 3 else score
      let score := if branches.length ≥ 5 then score + 2 else score
      let score := if branches.length ≥ 10 then score + 2 else score
      let protectedBranches := branches.filter fun b => b.isProtected
      let score := if protectedBranches.length > 0 then score + 2 else score
      max (min score 12) 0

/-- Method `analyzePullRequests`. -/
def analyzePullRequests (prs : Option PullRequests) (_commits : Option (List Commit)) : ℚ :=
  match prs with
  | none => 3
  | some prs =>
    let score : ℚ := 3
    let score := if prs.total > 0 then score + 3 else score
    let score := if prs.total ≥ 5 then score + 2 else score
    let score := if prs.total ≥ 10 then score + 2 else score
    let score :=
      if prs.merged > 0 ∧ prs.total > 0 then
        let mergeRatio : ℚ := (prs.merged : ℚ) / prs.total
        if mergeRatio ≥ 0.5 then score + 2 else score
      else score
    max (min score 12) 0

/-- The local `totalScore` of `analyze`. -/
def totalScore (commits : Option (List Commit)) (branches : Option (List Branch))
    (pullRequests : Option PullRequests) : ℚ :=
  mathRound
    (addD (addD
      (mulD (analyzeCommits commits) (toDouble 0.50))
      (mulD (analyzeBranches branches) (toDouble 0.25)))
      (mulD (analyzePullRequests pullRequests commits) (toDouble 0.25)))

/-- Method `analyze` (12 points max). -/
def analyze (commits : Option (List Commit)) (branches : Option (List Branch))
    (pullRequests : Option PullRequests) : AnalyzerResult GitPracticesDetails :=
  { score := min (totalScore commits branches pullRequests) 12
    details := some
      { commitQuality := analyzeCommits commits
        branchStrategy := analyzeBranches branches
        pullRequests := analyzePullRequests pullRequests commits } }

end GitPracticesAnalyzer

/-! ## Security analyzer (`security.analyzer.js`) -/

/-- One entry of the list of security issues. -/
structure SecurityIssue where
  type : Str
  severity : Str
  deriving DecidableEq, Repr

/-- Detail record of the security analyzer. -/
structure SecurityDetails where
  secrets : ℚ
  gitignore : ℚ
  dependencies : ℚ
  securityIssues : List SecurityIssue
  deriving Repr

namespace SecurityAnalyzer

/-- The test `f.path.includes('.env') && !f.path.includes('.example')`. -/
def isEnvFile (f : FileEntry) : Bool :=
  includes f.path ".env".toList && !includes f.path ".example".toList

/-- Method `detectHardcodedSecrets`. -/
def detectHardcodedSecrets (files : List FileEntry) : ℚ :=
  let score : ℚ := 10
  let sensitiveFiles := files.filter fun f =>
    SECURITY_PATTERNS.sensitiveFiles.any fun sf => includes f.path sf
  let score := if sensitiveFiles.length > 0 then score - 5 else score
  let hasEnv := files.any isEnvFile
  let score := if hasEnv then score - 3 else score
  max score 0

/-- Method `analyzeGitignore`. -/
def analyzeGitignore (files : List FileEntry) : ℚ :=
  let hasGitignore := files.any fun f => f.path = ".gitignore".toList
  if !hasGitignore then 0 else 10

/-- Method `analyzeDependencySecurity`. -/
def analyzeDependencySecurity (files : List FileEntry) : ℚ :=
  let hasSecurityPolicy := files.any fun f => includes (toUpperCase f.path) "SECURITY".toList
  if hasSecurityPolicy then 10 else 7

/-- Method `collectSecurityIssues`. -/
def collectSecurityIssues (files : List FileEntry) : List SecurityIssue :=
  let issues : List SecurityIssue := []
  let issues :=
    if !(files.any fun f => f.path = ".gitignore".toList) then
      issues ++ [{ type := "missing_gitignore".toList, severity := "high".toList }]
    else issues
  let hasEnv := files.any isEnvFile
  let issues :=
    if hasEnv then
      issues ++ [{ type := "env_file_committed".toList, severity := "critical".toList }]
    else issues
  issues

/-- The local `totalScore` of `analyze`. -/
def totalScore (files : List FileEntry) : ℚ :=
  mathRound
    (addD (addD
      (mulD (detectHardcodedSecrets files) (toDouble 0.40))
      (mulD (analyzeGitignore files) (toDouble 0.35)))
      (mulD (analyzeDependencySecurity files) (toDouble 0.25)))

/-- Method `analyze` (10 points max); the README argument is not read. -/
def analyze (files : List FileEntry) (_readme : Option Readme) :
    AnalyzerResult SecurityDetails :=
  { score := min (totalScore files) 10
    details := some
      { secrets := detectHardcodedSecrets files
        gitignore := analyzeGitignore files
        dependencies := analyzeDependencySecurity files
        securityIssues := collectSecurityIssues files } }

end SecurityAnalyzer

/-! ## CI/CD analyzer (`cicd.analyzer.js`) -/

/-- Detail record of the CI/CD analyzer. -/
structure CICDDetails where
  hasCICD : Bool
  platforms : List Str
  deriving Repr

namespace CICDAnalyzer

/-- Method `detectCICDPlatforms`. -/
def detectCICDPlatforms (files : List FileEntry) : List Str :=
  CICD_PATTERNS.foldl (fun detected entry =>
    let hasPattern := entry.2.any fun pattern => files.any fun f => includes f.path pattern
    if hasPattern then detected ++ [entry.1] else detected) []

/-- Method `calculateScore`. -/
def calculateScore (platforms : List Str) : ℚ :=
  if platforms.length = 0 then 0
  else
    let score : ℚ := 5
    let score := if platforms.length ≥ 1 then score + 3 else score
    score

/-- Method `analyze` (8 points max). -/
def analyze (files : List FileEntry) : AnalyzerResult CICDDetails :=
  let platforms := detectCICDPlatforms files
  let score := calculateScore platforms
  { score := min score 8
    details := some { hasCICD := platforms.length > 0, platforms := platforms } }

end CICDAnalyzer

/-! ## Dependencies analyzer (`dependencies.analyzer.js`) -/

/-- Detail record of the dependencies analyzer. -/
structure DependenciesDetails where
  packageManagers : List Str
  frameworks : List Str
  vulnerableDependencies : Nat
  deriving Repr

namespace DependenciesAnalyzer

/-- Method `detectPackageManagers`. -/
def detectPackageManagers (files : List FileEntry) : List Str :=
  let push := fun (managers : List Str) (file name : String) =>
    if files.any fun f => f.path = file.toList then managers ++ [name.toList] else managers
  let managers : List Str := []
  let managers := push managers "package.json" "npm"
  let managers := push managers "requirements.txt" "pip"
  let managers := push managers "pom.xml" "maven"
  let managers := push managers "build.gradle" "gradle"
  let managers := push managers "Cargo.toml" "cargo"
  let managers := push managers "go.mod" "go modules"
  managers

/-- Method `detectFrameworks`. -/
def detectFrameworks (files : List FileEntry) : List Str :=
  let detected : List Str := []
  if files.any fun f => includes f.path "package.json".toList then
    let detected :=
      if files.any fun f => includes f.path "next.config".toList
      then detected ++ ["Next.js".toList] else detected
    let detected :=
      if files.any fun f => includes f.path "vite.config".toList
      then detected ++ ["Vite".toList] else detected
    detected
  else detected

/-- Method `calculateScore`. -/
def calculateScore (managers frameworks : List Str) : ℚ :=
  let score : ℚ := 0
  let score := if managers.length > 0 then score + 3 else score
  let score := if frameworks.length > 0 then score + 2 else score
  score

/-- Method `analyze` (5 points max). -/
def analyze (files : List FileEntry) : AnalyzerResult DependenciesDetails :=
  let packageManagers := detectPackageManagers files
  let frameworks := detectFrameworks files
  let score := calculateScore packageManagers frameworks
  { score := min score 5
    details := some
      { packageManagers := packageManagers
        frameworks := frameworks
        vulnerableDependencies := 0 } }

end DependenciesAnalyzer

/-! ## Containerization analyzer (`containerization.analyzer.js`) -/

/-- Detail record of the containerization analyzer. -/
structure ContainerizationDetails where
  hasDockerfile : Bool
  hasDockerCompose : Bool
  deriving Repr

namespace ContainerizationAnalyzer

/-- The local `hasDockerfile` of `analyze`. -/
def hasDockerfile (files : List FileEntry) : Bool :=
  files.any fun f => CONTAINER_PATTERNS.docker.any fun pattern => includes f.path pattern

/-- The local `hasDockerCompose` of `analyze`. -/
def hasDockerCompose (files : List FileEntry) : Bool :=
  files.any fun f => CONTAINER_PATTERNS.dockerCompose.any fun pattern => f.path = pattern

/-- The local `score` of `analyze`, before the final `Math.min`. -/
def rawScore (files : List FileEntry) : ℚ :=
  let score : ℚ := 0
  let score := if hasDockerfile files then score + 2 else score
  let score := if hasDockerCompose files then score + 1 else score
  score

/-- Method `analyze` (3 points max). -/
def analyze (files : List FileEntry) : AnalyzerResult ContainerizationDetails :=
  { score := min (rawScore files) 3
    details := some
      { hasDockerfile := hasDockerfile files
        hasDockerCompose := hasDockerCompose files } }

end ContainerizationAnalyzer

/-! ## `constants.js`: helpers -/

/-- The message `ERROR_MESSAGES.INVALID_URL`. -/
def ERROR_MESSAGES.INVALID_URL : Str := "Invalid GitHub repository URL format".toList

/-- A rating with its badge. -/
structure Rating where
  rating : Str
  badge : Str
  deriving DecidableEq, Repr

/-- Function `getRating`. -/
def getRating (score : ℚ) : Rating :=
  if score ≥ 76 then { rating := "Advanced".toList, badge := "Gold".toList }
  else if score ≥ 41 then { rating := "Intermediate".toList, badge := "Silver".toList }
  else { rating := "Beginner".toList, badge := "Bronze".toList }

/-- The regular-expression class `\w`. -/
def isWordChar (c : Char) : Bool := isLowerAZ c || isUpperAZ c || isDigit c || c == '_'

/-- The class `[\w-]` of owner names. -/
def isOwnerChar (c : Char) : Bool := isWordChar c || c == '-'

/-- The class `[\w.-]` of repository names. -/
def isRepoChar (c : Char) : Bool := isWordChar c || c == '.' || c == '-'

/-- What follows `pat` at the head of `s`, when `s` starts with `pat`. -/
def dropLeading (pat s : Str) : Option Str :=
  if pat.isPrefixOf s then some (s.drop pat.length) else none

/-- The test `GITHUB_URL_REGEX.test(url)` for
`/^https?:\/\/(www\.)?github\.com\/[\w-]+\/[\w.-]+\/?$/`. -/
def GITHUB_URL_REGEX.test (url : Str) : Bool :=
  let pathOk := fun (r : Str) =>
    let owner := r.takeWhile isOwnerChar
    match r.dropWhile isOwnerChar with
    | '/' :: r' =>
      let repo := r'.takeWhile isRepoChar
      let tail := r'.dropWhile isRepoChar
      !owner.isEmpty && !repo.isEmpty && (tail = [] || tail = ['/'])
    | _ => false
  let hostOk := fun (r : Str) =>
    match dropLeading "github.com/".toList r with
    | some r' => pathOk r'
    | none => false
  let afterScheme :=
    match dropLeading "https://".toList url with
    | some r => some r
    | none => dropLeading "http://".toList url
  match afterScheme with
  | none => false
  | some r =>
    (match dropLeading "www.".toList r with
      | some r' => hostOk r'
      | none => false) || hostOk r

/-- The groups of the leftmost match of `/github\.com\/([\w-]+)\/([\w.-]+)/`. -/
def matchOwnerRepo : Str → Option (Str × Str)
  | [] => none
  | c :: cs =>
    let here :=
      match dropLeading "github.com/".toList (c :: cs) with
      | some r =>
        let owner := r.takeWhile isOwnerChar
        match r.dropWhile isOwnerChar with
        | '/' :: r' =>
          let repo := r'.takeWhile isRepoChar
          if !owner.isEmpty && !repo.isEmpty then some (owner, repo) else none
        | _ => none
      | none => none
    match here with
    | some m => some m
    | none => matchOwnerRepo cs

/-- Function `parseGitHubUrl`; the error is the thrown message. -/
def parseGitHubUrl (url : Str) : Except Str (Str × Str) :=
  if !GITHUB_URL_REGEX.test url then .error ERROR_MESSAGES.INVALID_URL
  else
    match matchOwnerRepo url with
    | none => .error ERROR_MESSAGES.INVALID_URL
    | some (owner, repo) =>
      .ok (owner, if endsWith repo ".git".toList then repo.take (repo.length - 4) else repo)

/-- What a run of `retryWithBackoff` does: its outcome (`ok none` is the
`undefined` returned when the loop body never runs), how often `fn` was called
and the delays waited, in order. -/
structure RetryRun (ε α : Type) where
  result : Except ε (Option α)
  calls : Nat
  delays : List Nat

/-- The loop of `retryWithBackoff`, from iteration `i` on with the given number
of iterations left.  `fn i` is the outcome of the call of `fn` in iteration
`i`. -/
def retryWithBackoffLoop {ε α : Type} (fn : Nat → Except ε α) (maxRetries baseDelay : Nat) :
    Nat → Nat → RetryRun ε α
  | 0, _ => { result := .ok none, calls := 0, delays := [] }
  | left + 1, i =>
    match fn i with
    | .ok v => { result := .ok (some v), calls := 1, delays := [] }
    | .error e =>
      if i = maxRetries - 1 then { result := .error e, calls := 1, delays := [] }
      else
        let r := retryWithBackoffLoop fn maxRetries baseDelay left (i + 1)
        { result := r.result, calls := r.calls + 1, delays := (baseDelay * 2 ^ i) :: r.delays }

/-- Function `retryWithBackoff(fn, maxRetries, baseDelay)`. -/
def retryWithBackoff {ε α : Type} (fn : Nat → Except ε α) (maxRetries : Nat := 3)
    (baseDelay : Nat := 1000) : RetryRun ε α :=
  retryWithBackoffLoop fn maxRetries baseDelay maxRetries 0

/-! ## `config.js`: scoring configuration -/

/-- The record `config.scoring.weights`. -/
structure ScoringWeights where
  codeQuality : ℚ
  projectStructure : ℚ
  documentation : ℚ
  testing : ℚ
  gitPractices : ℚ
  security : ℚ
  cicd : ℚ
  dependencies : ℚ
  containerization : ℚ
  deriving DecidableEq, Repr

/-- One entry of `config.scoring.ratings`. -/
structure RatingRange where
  min : ℚ
  max : ℚ
  badge : Str
  deriving DecidableEq, Repr

/-- The value of `config.scoring.weights`. -/
def config.scoring.weights : ScoringWeights :=
  { codeQuality := 20, projectStructure := 15, documentation := 15, testing := 12,
    gitPractices := 12, security := 10, cicd := 8, dependencies := 5, containerization := 3 }

/-- The value of `config.scoring.ratings.beginner`. -/
def config.scoring.ratings.beginner : RatingRange := { min := 0, max := 40, badge := "Bronze".toList }

/-- The value of `config.scoring.ratings.intermediate`. -/
def config.scoring.ratings.intermediate : RatingRange :=
  { min := 41, max := 75, badge := "Silver".toList }

/-- The value of `config.scoring.ratings.advanced`. -/
def config.scoring.ratings.advanced : RatingRange := { min := 76, max := 100, badge := "Gold".toList }

/-! ## Narrative generation (`ai.service.js`) -/

/-- The metrics object as the template generators read it.  A field is `none`
when the property is absent (`undefined`), as in the empty object `{}`.  The
other properties of the source's object are read only by the prompt builders and
by the database layer. -/
structure Metrics where
  totalScore : Option ℚ := none
  codeQualityScore : Option ℚ := none
  structureScore : Option ℚ := none
  documentationScore : Option ℚ := none
  testingScore : Option ℚ := none
  gitPracticesScore : Option ℚ := none
  securityScore : Option ℚ := none
  cicdScore : Option ℚ := none
  dependenciesScore : Option ℚ := none
  containerizationScore : Option ℚ := none
  hasCicd : Option Bool := none
  hasDockerfile : Option Bool := none
  deriving DecidableEq, Repr

/-- The expression `x || 0` on a numeric property. -/
def orZero (x : Option ℚ) : ℚ := x.getD 0

/-- The expression `!x` on a boolean property. -/
def notFlag (x : Option Bool) : Bool := !(x.getD false)

/-- The comparison `x >= c` on a numeric property (false when absent). -/
def geNum (x : Option ℚ) (c : ℚ) : Bool :=
  match x with
  | some v => v ≥ c
  | none => false

/-- The comparison `x < c` on a numeric property (false when absent). -/
def ltNum (x : Option ℚ) (c : ℚ) : Bool :=
  match x with
  | some v => v < c
  | none => false

/-- A value of a parsed JSON document, as far as `parseRoadmap` looks into it:
`undefined` is an absent property and `object` any array or object, kept as
its text. -/
inductive JsValue where
  | undefined
  | null
  | bool (b : Bool)
  | num (x : ℚ)
  | str (s : Str)
  | object (json : Str)
  deriving DecidableEq, Repr

/-- Truthiness of a value. -/
def JsValue.truthy : JsValue → Bool
  | .undefined => false
  | .null => false
  | .bool b => b
  | .num x => x ≠ 0
  | .str s => !s.isEmpty
  | .object _ => true

/-- The expression `a || b`. -/
def JsValue.orElse (a b : JsValue) : JsValue := if a.truthy then a else b

/-- An element of a parsed JSON array: `null`, or any other value with its
properties `priority`, `title`, `description` and `estimatedTime`. -/
inductive JsItem where
  | null
  | value (priority title description estimatedTime : JsValue)
  deriving DecidableEq, Repr

/-- A parsed JSON document: an array, or anything else. -/
inductive JsDoc where
  | array (items : List JsItem)
  | other
  deriving DecidableEq, Repr

/-- One step of a roadmap. -/
structure RoadmapItem where
  priority : JsValue
  title : JsValue
  description : JsValue
  estimatedTime : JsValue
  deriving DecidableEq, Repr

/-- A roadmap step with string fields. -/
def RoadmapItem.ofStrings (priority title description estimatedTime : String) : RoadmapItem :=
  { priority := .str priority.toList, title := .str title.toList,
    description := .str description.toList, estimatedTime := .str estimatedTime.toList }

/-- The testing step of the template roadmap. -/
def testingItem : RoadmapItem :=
  .ofStrings "high" "Implement Unit Testing"
    "Add comprehensive unit tests to increase code reliability and coverage. Aim for at least 70% test coverage."
    "4-8 hours"

/-- The documentation step of the template roadmap. -/
def documentationItem : RoadmapItem :=
  .ofStrings "high" "Enhance Documentation"
    "Create or improve README with clear installation instructions, usage examples, and API documentation."
    "2-4 hours"

/-- The CI/CD step of the template roadmap. -/
def cicdItem : RoadmapItem :=
  .ofStrings "medium" "Set Up CI/CD Pipeline"
    "Configure GitHub Actions or similar CI/CD tool for automated testing and deployment."
    "3-5 hours"

/-- The security step of the template roadmap. -/
def securityItem : RoadmapItem :=
  .ofStrings "high" "Address Security Issues"
    "Review and fix security vulnerabilities, add .env to .gitignore, and implement security best practices."
    "2-3 hours"

/-- The code quality step of the template roadmap. -/
def codeQualityItem : RoadmapItem :=
  .ofStrings "medium" "Improve Code Quality"
    "Refactor complex functions, add linting rules, and follow language-specific best practices."
    "6-10 hours"

/-- The containerization step of the template roadmap. -/
def containerizationItem : RoadmapItem :=
  .ofStrings "low" "Containerize Application"
    "Create Dockerfile and docker-compose.yml for consistent development and deployment environments."
    "2-4 hours"

/-- The git workflow step of the template roadmap. -/
def gitWorkflowItem : RoadmapItem :=
  .ofStrings "medium" "Improve Git Workflow"
    "Use meaningful commit messages, create feature branches, and leverage pull requests for code review."
    "Ongoing"

/-- The outcome of one call of `model.generateContent`: `text` is the outcome of
`response.text()`. -/
structure GenerateContentResult where
  text : Except Str Str

/-- Which prompt a call of the model is made with. -/
inductive PromptKind where
  | summary
  | roadmap
  deriving DecidableEq, Repr

/-- The state of the AI service and its collaborators: whether an API key was
configured, the outcome of the `n`-th call of `model.generateContent` on the
prompt of the given kind, and `JSON.parse`. -/
structure AIService where
  available : Bool
  generateContent : PromptKind → Nat → Except Str GenerateContentResult
  JSONparse : Str → Except Str JsDoc

namespace AIService

/-- Method `generateFallbackRoadmap`. -/
def generateFallbackRoadmap (metrics : Metrics) : List RoadmapItem :=
  let roadmap : List RoadmapItem := []
  let roadmap := if orZero metrics.testingScore < 8 then roadmap ++ [testingItem] else roadmap
  let roadmap :=
    if orZero metrics.documentationScore < 10 then roadmap ++ [documentationItem] else roadmap
  let roadmap := if notFlag metrics.hasCicd then roadmap ++ [cicdItem] else roadmap
  let roadmap := if orZero metrics.securityScore < 7 then roadmap ++ [securityItem] else roadmap
  let roadmap :=
    if orZero metrics.codeQualityScore < 14 then roadmap ++ [codeQualityItem] else roadmap
  let roadmap :=
    if notFlag metrics.hasDockerfile then roadmap ++ [containerizationItem] else roadmap
  let roadmap :=
    if orZero metrics.gitPracticesScore < 8 then roadmap ++ [gitWorkflowItem] else roadmap
  roadmap.take 7

/-- Method `generateFallbackSummary`. -/
def generateFallbackSummary (metrics : Metrics) : Str :=
  let score := orZero metrics.totalScore
  let push := fun (xs : List Str) (cond : Bool) (text : String) =>
    if cond then xs ++ [text.toList] else xs
  let strengths : List Str := []
  let strengths := push strengths (geNum metrics.codeQualityScore 15) "clean code structure"
  let strengths := push strengths (geNum metrics.documentationScore 12)
    "comprehensive documentation"
  let strengths := push strengths (geNum metrics.testingScore 10) "strong test coverage"
  let strengths := push strengths (geNum metrics.securityScore 8) "good security practices"
  let strengths := push strengths (metrics.hasCicd.getD false) "automated CI/CD"
  let weaknesses : List Str := []
  let weaknesses := push weaknesses (ltNum metrics.testingScore 6) "insufficient testing"
  let weaknesses := push weaknesses (ltNum metrics.documentationScore 9) "poor documentation"
  let weaknesses := push weaknesses (ltNum metrics.securityScore 6) "security concerns"
  let weaknesses := push weaknesses (notFlag metrics.hasCicd) "no CI/CD automation"
  if score ≥ 75 then
    "Excellent repository with ".toList ++
      (if strengths.length > 0 then List.intercalate " and ".toList (strengths.take 2)
        else "strong fundamentals".toList) ++ ". ".toList ++
      (match weaknesses with
        | w :: _ => "Minor improvements needed in ".toList ++ w ++ ".".toList
        | [] => "Maintains high standards across all dimensions.".toList)
  else if score ≥ 50 then
    "Solid foundation with ".toList ++
      (if strengths.length > 0 then List.intercalate " and ".toList (strengths.take 2)
        else "decent structure".toList) ++ ". ".toList ++
      "However, ".toList ++
      (if weaknesses.length > 0 then
          List.intercalate " and ".toList (weaknesses.take 2) ++ " need attention".toList
        else "some areas need improvement".toList) ++ ".".toList
  else
    "Repository shows potential but needs significant improvement. ".toList ++
      (if weaknesses.length > 0 then
          "Critical issues: ".toList ++ List.intercalate ", ".toList (weaknesses.take 3) ++
            ". ".toList
        else []) ++
      "Focus on establishing best practices across all dimensions.".toList

/-- Removal of every match of a code-fence pattern: `pat`, followed by a line
feed if there is one.  The first argument bounds the number of positions
visited. -/
def removeFencesAux (pat : Str) : Nat → Str → Str
  | 0, s => s
  | fuel + 1, s =>
    match dropLeading pat s with
    | some rest =>
      removeFencesAux pat fuel
        (match rest with
          | '\n' :: r => r
          | _ => rest)
    | none =>
      match s with
      | [] => []
      | c :: cs => c :: removeFencesAux pat fuel cs

/-- The replacement `s.replace(/PAT\n?/g, '')` for a literal, non-empty `PAT`. -/
def removeFences (pat : String) (s : Str) : Str :=
  removeFencesAux pat.toList (s.length + 1) s

/-- The callback of `roadmap.map` in `parseRoadmap`, from index `index` on.  The
property access on a `null` item raises a `TypeError`. -/
def mapItems : Nat → List JsItem → Except Str (List RoadmapItem)
  | _, [] => .ok []
  | _, .null :: _ => .error "TypeError".toList
  | index, .value priority title description estimatedTime :: rest =>
    match mapItems (index + 1) rest with
    | .error e => .error e
    | .ok items =>
      .ok ({ priority := priority.orElse (.str "medium".toList)
             title := title.orElse (.str ("Improvement ".toList ++ Nat.toDigits 10 (index + 1)))
             description := description.orElse (.str "No description provided".toList)
             estimatedTime := estimatedTime.orElse (.str "2-4 hours".toList) } :: items)

/-- The body of the `try` block of `parseRoadmap`. -/
def parseRoadmapBody (ai : AIService) (text : Str) : Except Str (List RoadmapItem) :=
  let cleaned := trim (removeFences "```" (removeFences "```json" text))
  match ai.JSONparse cleaned with
  | .error e => .error e
  | .ok .other => .error "Invalid roadmap format".toList
  | .ok (.array roadmap) =>
    match mapItems 0 roadmap with
    | .error e => .error e
    | .ok items => .ok (items.take 7)

/-- Method `parseRoadmap`. -/
def parseRoadmap (ai : AIService) (text : Str) : List RoadmapItem :=
  match parseRoadmapBody ai text with
  | .ok roadmap => roadmap
  | .error _ => generateFallbackRoadmap {}

/-- The text of the model's answer to a prompt: the `try` block of
`generateSummary` and `generateRoadmap` up to `response.text()`, with two
attempts one second apart. -/
def generateText (ai : AIService) (kind : PromptKind) : Except Str Str :=
  match (retryWithBackoff (ai.generateContent kind) 2 1000).result with
  | .error e => .error e
  | .ok none => .error "TypeError".toList
  | .ok (some result) => result.text

/-- Method `generateSummary`. -/
def generateSummary (ai : AIService) (metrics : Metrics) : Except Str Str :=
  if !ai.available then .ok (generateFallbackSummary metrics)
  else
    match generateText ai .summary with
    | .ok summary => .ok (trim summary)
    | .error _ => .ok (generateFallbackSummary metrics)

/-- Method `generateRoadmap`. -/
def generateRoadmap (ai : AIService) (metrics : Metrics) : Except Str (List RoadmapItem) :=
  if !ai.available then .ok (generateFallbackRoadmap metrics)
  else
    match generateText ai .roadmap with
    | .ok roadmapText => .ok (parseRoadmap ai roadmapText)
    | .error _ => .ok (generateFallbackRoadmap metrics)

end AIService

/-! ## The orchestrator (`analyzer.service.js`) -/

/-- Repository metadata returned by `githubService.getRepository`. -/
structure RepoData where
  name : Str
  owner : Str
  description : Str
  language : Str
  stars : Nat
  forks : Nat
  openIssues : Nat
  defaultBranch : Str
  deriving DecidableEq, Repr

/-- The nine analyzers as the orchestrator calls them; a rejected promise is an
`error`. -/
structure Analyzers where
  codeQuality : List FileEntry → Except Str (AnalyzerResult CodeQualityDetails)
  projectStructure : List FileEntry → Except Str (AnalyzerResult ProjectStructureDetails)
  documentation : Option Readme → List FileEntry →
    Except Str (AnalyzerResult DocumentationDetails)
  testing : List FileEntry → Except Str (AnalyzerResult TestingDetails)
  gitPractices : Option (List Commit) → Option (List Branch) → Option PullRequests →
    Except Str (AnalyzerResult GitPracticesDetails)
  security : List FileEntry → Option Readme → Except Str (AnalyzerResult SecurityDetails)
  cicd : List FileEntry → Except Str (AnalyzerResult CICDDetails)
  dependencies : List FileEntry → Except Str (AnalyzerResult DependenciesDetails)
  containerization : List FileEntry → Except Str (AnalyzerResult ContainerizationDetails)

/-- The nine analyzers of the repository. -/
def analyzers : Analyzers :=
  { codeQuality := fun files => .ok (CodeQualityAnalyzer.analyze files)
    projectStructure := fun files => .ok (ProjectStructureAnalyzer.analyze files)
    documentation := fun readme files => .ok (DocumentationAnalyzer.analyze readme files)
    testing := fun files => .ok (TestingAnalyzer.analyze files)
    gitPractices := fun commits branches prs =>
      .ok (GitPracticesAnalyzer.analyze commits branches prs)
    security := fun files readme => .ok (SecurityAnalyzer.analyze files readme)
    cicd := fun files => .ok (CICDAnalyzer.analyze files)
    dependencies := fun files => .ok (DependenciesAnalyzer.analyze files)
    containerization := fun files => .ok (ContainerizationAnalyzer.analyze files) }

/-- The results of the nine analyzers. -/
structure AnalyzerResults where
  codeQualityResult : AnalyzerResult CodeQualityDetails
  structureResult : AnalyzerResult ProjectStructureDetails
  documentationResult : AnalyzerResult DocumentationDetails
  testingResult : AnalyzerResult TestingDetails
  gitPracticesResult : AnalyzerResult GitPracticesDetails
  securityResult : AnalyzerResult SecurityDetails
  cicdResult : AnalyzerResult CICDDetails
  dependenciesResult : AnalyzerResult DependenciesDetails
  containerizationResult : AnalyzerResult ContainerizationDetails

/-- The `Promise.all` over the nine analyzers of step 6: the nine results, or
the error of the first analyzer that fails. -/
def runAnalyzers (a : Analyzers) (files : List FileEntry) (readme : Option Readme)
    (commits : List Commit) (branches : List Branch) (pullRequests : PullRequests) :
    Except Str AnalyzerResults :=
  match a.codeQuality files, a.projectStructure files, a.documentation readme files,
    a.testing files, a.gitPractices (some commits) (some branches) (some pullRequests),
    a.security files readme, a.cicd files, a.dependencies files, a.containerization files with
  | .ok r1, .ok r2, .ok r3, .ok r4, .ok r5, .ok r6, .ok r7, .ok r8, .ok r9 =>
    .ok { codeQualityResult := r1, structureResult := r2, documentationResult := r3,
          testingResult := r4, gitPracticesResult := r5, securityResult := r6,
          cicdResult := r7, dependenciesResult := r8, containerizationResult := r9 }
  | .error e, _, _, _, _, _, _, _, _ => .error e
  | _, .error e, _, _, _, _, _, _, _ => .error e
  | _, _, .error e, _, _, _, _, _, _ => .error e
  | _, _, _, .error e, _, _, _, _, _ => .error e
  | _, _, _, _, .error e, _, _, _, _ => .error e
  | _, _, _, _, _, .error e, _, _, _ => .error e
  | _, _, _, _, _, _, .error e, _, _ => .error e
  | _, _, _, _, _, _, _, .error e, _ => .error e
  | _, _, _, _, _, _, _, _, .error e => .error e

/-- The local `totalScore` of `analyzeRepository` (step 7). -/
def totalScore (r : AnalyzerResults) : ℚ :=
  mathRound
    (r.codeQualityResult.score +
     r.structureResult.score +
     r.documentationResult.score +
     r.testingResult.score +
     r.gitPracticesResult.score +
     r.securityResult.score +
     r.cicdResult.score +
     r.dependenciesResult.score +
     r.containerizationResult.score)

/-- The local `metrics` of `analyzeRepository`, as far as `Metrics` keeps it. -/
def buildMetrics (r : AnalyzerResults) : Metrics :=
  { totalScore := some (totalScore r)
    codeQualityScore := some r.codeQualityResult.score
    structureScore := some r.structureResult.score
    documentationScore := some r.documentationResult.score
    testingScore := some r.testingResult.score
    gitPracticesScore := some r.gitPracticesResult.score
    securityScore := some r.securityResult.score
    cicdScore := some r.cicdResult.score
    dependenciesScore := some r.dependenciesResult.score
    containerizationScore := some r.containerizationResult.score
    hasCicd := some (match r.cicdResult.details with
      | some d => d.hasCICD
      | none => false)
    hasDockerfile := some (match r.containerizationResult.details with
      | some d => d.hasDockerfile
      | none => false) }

/-- The nine scores of the returned `metrics`. -/
structure MetricScores where
  codeQuality : ℚ
  projectStructure : ℚ
  documentation : ℚ
  testing : ℚ
  gitPractices : ℚ
  security : ℚ
  cicd : ℚ
  dependencies : ℚ
  containerization : ℚ
  deriving DecidableEq, Repr

/-- What `analyzeRepository` returns (without `repoInfo`, `insights` and the
date). -/
structure AnalysisResult where
  id : Nat
  repoUrl : Str
  score : ℚ
  rating : Str
  badge : Str
  summary : Str
  roadmap : List RoadmapItem
  metrics : MetricScores
  deriving DecidableEq, Repr

/-- A call of an external collaborator, as recorded in the run of an analysis. -/
inductive Event where
  | createAnalysis
  | updateAnalysisStatus (status : Str) (progress : Nat)
  | getRepository
  | getFileTree
  | getReadme
  | getCommits
  | getBranches
  | getPullRequests
  | getLanguages
  | getContributors
  | runAnalyzers
  | generateSummary
  | generateRoadmap
  | saveMetrics
  | completeAnalysis (score : ℚ) (rating badge : Str)
  | failAnalysis (message : Str)
  deriving DecidableEq, Repr

/-- The outcomes of the calls to the database layer and to the GitHub service. -/
structure Services where
  createAnalysis : Str → Str → Str → Except Str Nat
  updateAnalysisStatus : Nat → Nat → Except Str Unit
  completeAnalysis : Nat → ℚ → Rating → Str → List RoadmapItem → Except Str Unit
  failAnalysis : Nat → Str → Except Str Unit
  saveMetrics : Nat → Metrics → Except Str Unit
  getRepository : Str → Str → Except Str RepoData
  getFileTree : Str → Str → Str → Except Str (List FileEntry)
  getReadme : Str → Str → Except Str (Option Readme)
  getCommits : Str → Str → Nat → Except Str (List Commit)
  getBranches : Str → Str → Except Str (List Branch)
  getPullRequests : Str → Str → Except Str PullRequests
  getLanguages : Str → Str → Except Str (List (Str × ℚ))
  getContributors : Str → Str → Except Str (List Str)

/-- A computation that calls external collaborators: from the calls made so far
to its outcome and the calls made. -/
def Run (α : Type) : Type := List Event → Except Str α × List Event

/-- The computation that returns a value and calls nothing. -/
def Run.pure {α : Type} (a : α) : Run α := fun log => (.ok a, log)

/-- Sequencing: the second computation runs when the first one succeeds. -/
def Run.bind {α β : Type} (x : Run α) (f : α → Run β) : Run β := fun log =>
  match x log with
  | (.ok a, log') => f a log'
  | (.error e, log') => (.error e, log')

instance : Monad Run where
  pure := Run.pure
  bind := Run.bind

/-- One call of a collaborator with the given outcome. -/
def Run.call {α : Type} (ev : Event) (outcome : Except Str α) : Run α :=
  fun log => (outcome, log ++ [ev])

/-- Several calls started together (`Promise.all`). -/
def Run.calls {α : Type} (evs : List Event) (outcome : Except Str α) : Run α :=
  fun log => (outcome, log ++ evs)

/-- The outcome of `Promise.all` over four calls: the four results, or the error
of the first call that fails. -/
def promiseAll4 {α β γ δ : Type} (a : Except Str α) (b : Except Str β) (c : Except Str γ)
    (d : Except Str δ) : Except Str (α × β × γ × δ) :=
  match a, b, c, d with
  | .ok x, .ok y, .ok z, .ok w => .ok (x, y, z, w)
  | .error e, _, _, _ => .error e
  | _, .error e, _, _ => .error e
  | _, _, .error e, _ => .error e
  | _, _, _, .error e => .error e

/-- The status update that opens each step. -/
def Services.step (s : Services) (analysisId progress : Nat) : Run Unit :=
  Run.call (.updateAnalysisStatus "processing".toList progress)
    (s.updateAnalysisStatus analysisId progress)

/-- The body of the `try` block of `analyzeRepository` after the analysis
record was created (steps 1 to 10). -/
def analyzeSteps (s : Services) (a : Analyzers) (ai : AIService) (repoUrl owner repo : Str)
    (analysisId : Nat) : Run AnalysisResult := do
  s.step analysisId 10
  let repoData ← Run.call .getRepository (s.getRepository owner repo)
  s.step analysisId 20
  let files ← Run.call .getFileTree (s.getFileTree owner repo repoData.defaultBranch)
  s.step analysisId 30
  let readme ← Run.call .getReadme (s.getReadme owner repo)
  s.step analysisId 40
  let commits ← Run.call .getCommits (s.getCommits owner repo 500)
  s.step analysisId 50
  let (branches, pullRequests, _languages, _contributors) ←
    Run.calls [.getBranches, .getPullRequests, .getLanguages, .getContributors]
      (promiseAll4 (s.getBranches owner repo) (s.getPullRequests owner repo)
        (s.getLanguages owner repo) (s.getContributors owner repo))
  s.step analysisId 60
  let results ← Run.call .runAnalyzers (runAnalyzers a files readme commits branches pullRequests)
  s.step analysisId 85
  let totalScore := totalScore results
  let rating := getRating totalScore
  let metrics := buildMetrics results
  s.step analysisId 90
  let summary ← Run.call .generateSummary (ai.generateSummary metrics)
  s.step analysisId 95
  let roadmap ← Run.call .generateRoadmap (ai.generateRoadmap metrics)
  s.step analysisId 100
  Run.call .saveMetrics (s.saveMetrics analysisId metrics)
  Run.call (.completeAnalysis totalScore rating.rating rating.badge)
    (s.completeAnalysis analysisId totalScore rating summary roadmap)
  pure
    { id := analysisId
      repoUrl := repoUrl
      score := totalScore
      rating := rating.rating
      badge := rating.badge
      summary := summary
      roadmap := roadmap
      metrics :=
        { codeQuality := results.codeQualityResult.score
          projectStructure := results.structureResult.score
          documentation := results.documentationResult.score
          testing := results.testingResult.score
          gitPractices := results.gitPracticesResult.score
          security := results.securityResult.score
          cicd := results.cicdResult.score
          dependencies := results.dependenciesResult.score
          containerization := results.containerizationResult.score } }

/-- Method `analyzeRepository`: the outcome (the returned record, or the
message of the error thrown) and the calls made to the collaborators. -/
def analyzeRepository (s : Services) (a : Analyzers) (ai : AIService) (repoUrl : Str) :
    Except Str AnalysisResult × List Event :=
  match parseGitHubUrl repoUrl with
  | .error e => (.error e, [])
  | .ok (owner, repo) =>
    match s.createAnalysis repoUrl owner repo with
    | .error e => (.error e, [.createAnalysis])
    | .ok analysisId =>
      match analyzeSteps s a ai repoUrl owner repo analysisId [.createAnalysis] with
      | (.ok result, log) => (.ok result, log)
      | (.error e, log) =>
        match s.failAnalysis analysisId e with
        | .ok _ => (.error e, log ++ [.failAnalysis e])
        | .error e' => (.error e', log ++ [.failAnalysis e])

/-! # Specification-side definitions and sample inputs -/

/-! ## Properties of scores -/

/-- A JavaScript number that is an integer. -/
def IsInteger (x : ℚ) : Prop := ∃ n : ℤ, x = n

/-- The final clamping step: a score `s` obtained from the raw value `raw` lies
in `[0, dimensionMax]` and equals `max(0, min(raw, dimensionMax))`. -/
def ClampedTo (s raw dimensionMax : ℚ) : Prop :=
  0 ≤ s ∧ s ≤ dimensionMax ∧ s = max 0 (min raw dimensionMax)

/-! ## Sample inputs -/

/-- A file list from paths and sizes. -/
def sampleFiles (xs : List (String × Nat)) : List FileEntry :=
  xs.map fun x => { path := x.1.toList, type := "blob".toList, size := some x.2 }

/-- A small JavaScript project with one test, a committed `.env`, a workflow and
a Dockerfile. -/
def smallProject : List FileEntry :=
  sampleFiles [("src/app.js", 1000), ("src/__tests__/app.test.js", 300), ("package.json", 20),
    (".env", 5), (".github/workflows/ci.yml", 7), ("Dockerfile", 9)]

/-- Collaborators whose calls all succeed, for a repository with the given file
tree, no README, no commits, no branches and no pull requests. -/
def sampleServices (files : List FileEntry) : Services :=
  { createAnalysis := fun _ _ _ => .ok 1
    updateAnalysisStatus := fun _ _ => .ok ()
    completeAnalysis := fun _ _ _ _ _ => .ok ()
    failAnalysis := fun _ _ => .ok ()
    saveMetrics := fun _ _ => .ok ()
    getRepository := fun owner repo =>
      .ok { name := repo, owner := owner, description := [], language := "JavaScript".toList,
            stars := 0, forks := 0, openIssues := 0, defaultBranch := "main".toList }
    getFileTree := fun _ _ _ => .ok files
    getReadme := fun _ _ => .ok none
    getCommits := fun _ _ _ => .ok []
    getBranches := fun _ _ => .ok []
    getPullRequests := fun _ _ => .ok { total := 0, opened := 0, closed := 0, merged := 0 }
    getLanguages := fun _ _ => .ok []
    getContributors := fun _ _ => .ok [] }

/-- An AI service without API key. -/
def offlineAI : AIService :=
  { available := false
    generateContent := fun _ _ => .error "unavailable".toList
    JSONparse := fun _ => .error "SyntaxError".toList }

/-- A repository URL. -/
def sampleUrl : Str := "https://github.com/octo/demo".toList

/-- What the analysis of `smallProject` returns. -/
def smallProjectResult : AnalysisResult :=
  { id := 1
    repoUrl := sampleUrl
    score := 63
    rating := "Intermediate".toList
    badge := "Silver".toList
    summary := ("Solid foundation with clean code structure and automated CI/CD. " ++
      "However, poor documentation and security concerns need attention.").toList
    roadmap := [documentationItem, securityItem, gitWorkflowItem]
    metrics :=
      { codeQuality := 20, projectStructure := 13, documentation := 3, testing := 9,
        gitPractices := 2, security := 3, cicd := 8, dependencies := 3, containerization := 2 } }

/-- The file list of the repository's own test of the testing analyzer. -/
def specOnlyFiles : List FileEntry :=
  [{ path := "test.spec.js".toList }, { path := "package.json".toList }]

/-- A file list with a committed `.env` and no `.gitignore`. -/
def envFiles : List FileEntry :=
  [{ path := ".env".toList }, { path := "src/app.js".toList }]

/-- A README of 1200 characters with the three headers Installation, Usage and
License, followed by filler text. -/
def threeSectionReadme : Readme :=
  { content := "# Installation\n# Usage\n# License\n".toList ++ List.replicate 1167 'x' }

/-- The seven rules of the template roadmap as the specification lists them: the
trigger of each rule and the step it emits, in priority order.  An absent score
counts as 0 and an absent flag as false. -/
def fallbackRules : List ((Metrics → Bool) × RoadmapItem) :=
  [(fun m => orZero m.testingScore < 8, testingItem),
   (fun m => orZero m.documentationScore < 10, documentationItem),
   (fun m => !(m.hasCicd.getD false), cicdItem),
   (fun m => orZero m.securityScore < 7, securityItem),
   (fun m => orZero m.codeQualityScore < 14, codeQualityItem),
   (fun m => !(m.hasDockerfile.getD false), containerizationItem),
   (fun m => orZero m.gitPracticesScore < 8, gitWorkflowItem)]

/-- The roadmap the specification describes: the steps of the rules whose
trigger holds, in the order of the rules. -/
def specFallbackRoadmap (m : Metrics) : List RoadmapItem :=
  (fallbackRules.filter fun rule => rule.1 m).map fun rule => rule.2

/-- Metrics of a weak repository: testing 3, documentation 5, no CI, security 4,
code quality 10, no Dockerfile, git practices 5. -/
def weakMetrics : Metrics :=
  { totalScore := some 30, codeQualityScore := some 10, structureScore := some 3,
    documentationScore := some 5, testingScore := some 3, gitPracticesScore := some 5,
    securityScore := some 4, cicdScore := some 0, dependenciesScore := some 0,
    containerizationScore := some 0, hasCicd := some false, hasDockerfile := some false }

/-- Metrics of a repository with full marks in every dimension. -/
def perfectMetrics : Metrics :=
  { totalScore := some 100, codeQualityScore := some 20, structureScore := some 15,
    documentationScore := some 15, testingScore := some 12, gitPracticesScore := some 12,
    securityScore := some 10, cicdScore := some 8, dependenciesScore := some 5,
    containerizationScore := some 3, hasCicd := some true, hasDockerfile := some true }

/-- An AI service whose model answers with text that is no JSON. -/
def unparseableAI : AIService :=
  { available := true
    generateContent := fun _ _ => .ok { text := .ok "Here is your roadmap!".toList }
    JSONparse := fun _ => .error "SyntaxError".toList }

/-- The nine analyzers, with a testing analyzer that fails. -/
def analyzersWithFailingTesting : Analyzers :=
  { analyzers with testing := fun _ => .error "testing analyzer failed".toList }

/-- One of the nine analyzers fails on the snapshot. -/
def SomeAnalyzerFails (a : Analyzers) (files : List FileEntry) (readme : Option Readme)
    (commits : List Commit) (branches : List Branch) (pullRequests : PullRequests) : Prop :=
  (∃ e, a.codeQuality files = .error e) ∨
  (∃ e, a.projectStructure files = .error e) ∨
  (∃ e, a.documentation readme files = .error e) ∨
  (∃ e, a.testing files = .error e) ∨
  (∃ e, a.gitPractices (some commits) (some branches) (some pullRequests) = .error e) ∨
  (∃ e, a.security files readme = .error e) ∨
  (∃ e, a.cicd files = .error e) ∨
  (∃ e, a.dependencies files = .error e) ∨
  (∃ e, a.containerization files = .error e)

/-- The calls made by an analysis that reaches the analyzers and stops there,
before the record is marked as failed. -/
def callsUpToAnalyzers : List Event :=
  [.createAnalysis,
   .updateAnalysisStatus "processing".toList 10, .getRepository,
   .updateAnalysisStatus "processing".toList 20, .getFileTree,
   .updateAnalysisStatus "processing".toList 30, .getReadme,
   .updateAnalysisStatus "processing".toList 40, .getCommits,
   .updateAnalysisStatus "processing".toList 50,
   .getBranches, .getPullRequests, .getLanguages, .getContributors,
   .updateAnalysisStatus "processing".toList 60, .runAnalyzers]

/-- An AI service whose model fails on every call. -/
def failingAI : AIService :=
  { available := true
    generateContent := fun _ _ => .error "model unavailable".toList
    JSONparse := fun _ => .error "SyntaxError".toList }

/-- A priority of the set high, medium, low. -/
def ValidPriority (v : JsValue) : Prop :=
  v = .str "high".toList ∨ v = .str "medium".toList ∨ v = .str "low".toList

instance (v : JsValue) : Decidable (ValidPriority v) := by
  unfold ValidPriority
  infer_instance

/-- An AI service whose model answers with the JSON array
`[{"priority": "urgent", "title": "Fix the build"}]`. -/
def urgentAI : AIService :=
  { available := true
    generateContent := fun _ _ =>
      .ok { text := .ok "[\x7b\"priority\": \"urgent\", \"title\": \"Fix the build\"\x7d]".toList }
    JSONparse := fun _ =>
      .ok (.array [.value (.str "urgent".toList) (.str "Fix the build".toList) .undefined
        .undefined]) }

/-- The text `parseRoadmap` hands to `JSON.parse`: the answer without code
fences, trimmed. -/
def cleanedResponse (text : Str) : Str :=
  trim (AIService.removeFences "```" (AIService.removeFences "```json" text))

/-- The roadmap step the specification describes for the element at position
`index` of the AI's array: its four fields, the missing ones filled by the
defaults. -/
def stepWithDefaults (index : Nat) (priority title description estimatedTime : JsValue) :
    RoadmapItem :=
  { priority := priority.orElse (.str "medium".toList)
    title := title.orElse (.str ("Improvement ".toList ++ Nat.toDigits 10 (index + 1)))
    description := description.orElse (.str "No description provided".toList)
    estimatedTime := estimatedTime.orElse (.str "2-4 hours".toList) }

/-- The steps of the elements of an array that holds no `null`, from position
`index` on. -/
def stepsWithDefaults : Nat → List JsItem → List RoadmapItem
  | _, [] => []
  | index, .null :: rest => stepsWithDefaults (index + 1) rest
  | index, .value p t d e :: rest => stepWithDefaults index p t d e :: stepsWithDefaults (index + 1) rest

/-- An AI service whose model answers with an array of eight elements, the last
of which is `null`. -/
def nullItemAI : AIService :=
  { available := true
    generateContent := fun _ _ => .ok { text := .ok "[\x7b\x7d,\x7b\x7d,\x7b\x7d,\x7b\x7d,\x7b\x7d,\x7b\x7d,\x7b\x7d,null]".toList }
    JSONparse := fun _ =>
      .ok (.array (List.replicate 7 (.value .undefined .undefined .undefined .undefined) ++
        [.null])) }

/-- An AI service whose model answers with an array of two elements that carry
the priorities `high` and none. -/
def politeAI : AIService :=
  { available := true
    generateContent := fun _ _ =>
      .ok { text := .ok "```json\n[\x7b\"priority\": \"high\"\x7d, \x7b\"title\": \"Add tests\"\x7d]\n```".toList }
    JSONparse := fun _ =>
      .ok (.array [.value (.str "high".toList) .undefined .undefined .undefined,
        .value .undefined (.str "Add tests".toList) .undefined .undefined]) }

/-- An AI service whose model answers with an array of eight empty objects. -/
def eightItemAI : AIService :=
  { available := true
    generateContent := fun _ _ => .ok { text := .ok "[\x7b\x7d,\x7b\x7d,\x7b\x7d,\x7b\x7d,\x7b\x7d,\x7b\x7d,\x7b\x7d,\x7b\x7d]".toList }
    JSONparse := fun _ =>
      .ok (.array (List.replicate 8 (.value .undefined .undefined .undefined .undefined))) }

/-- A file list whose only `.gitignore` lies in a subdirectory. -/
def nestedGitignoreFiles : List FileEntry :=
  [{ path := "backend/.gitignore".toList }, { path := "backend/app.js".toList }]

/-- A file list with a root-level `tests` directory. -/
def rootTestsFiles : List FileEntry :=
  [{ path := "tests/app.js".toList }, { path := "src/index.js".toList }]

/-- A Java project with a test class named by the suffix `Test.java`. -/
def javaTestFiles : List FileEntry :=
  [{ path := "src/main/UserService.java".toList },
   { path := "src/main/UserServiceTest.java".toList },
   { path := "Project/ParserTests.cs".toList }]

/-- A README of 310 characters whose only header is `Testing`. -/
def testingReadme : Readme :=
  { content := "# Testing\n".toList ++ List.replicate 300 'x' }

/-- A README of 308 characters whose only header is `Tests`. -/
def testsReadme : Readme :=
  { content := "# Tests\n".toList ++ List.replicate 300 'x' }

/-- The lines of a text: the pieces between its line terminators. -/
def splitLines : Str → List Str
  | [] => [[]]
  | c :: cs =>
    if isLineTerminator c then [] :: splitLines cs
    else
      match splitLines cs with
      | [] => [[c]]
      | line :: lines => (c :: line) :: lines

/-- The text of a markdown header line: the line starts with one or more `#`,
followed by white space, followed by text; the text is what follows the white
space, trimmed.  Other lines have no header text. -/
def headerLineText (line : Str) : Option Str :=
  let afterHashes := line.dropWhile (· == '#')
  let text := afterHashes.dropWhile isWhiteSpace
  if (line.takeWhile (· == '#')).isEmpty || (afterHashes.takeWhile isWhiteSpace).isEmpty ||
      text.isEmpty then none
  else some (trim text)

/-- The sections the specification describes: the lower-cased entries of
`README_SECTIONS` that occur in the text of at least one markdown header line
of the lower-cased README. -/
def specReadmeSections (readme : Option Readme) : List Str :=
  match readme with
  | none => []
  | some r =>
    let texts := (splitLines (toLowerCase r.content)).filterMap headerLineText
    (README_SECTIONS.map toLowerCase).filter fun sec => texts.any fun t => includes t sec

/-- A README whose first line is a bare `#` and whose second line is the plain
text `Installation`. -/
def bareHashReadme : Readme :=
  { content := "#\nInstallation".toList }

/-- The six manifest file names of `detectPackageManagers`. -/
def manifestNames : List Str :=
  strs ["package.json", "requirements.txt", "pom.xml", "build.gradle", "Cargo.toml", "go.mod"]

/-- A Python project with a Vite configuration and no `package.json`. -/
def viteWithoutPackageJson : List FileEntry :=
  [{ path := "requirements.txt".toList }, { path := "frontend/vite.config.js".toList }]

/-- A call that fails twice and then returns 7. -/
def failsTwice (i : Nat) : Except Str Nat :=
  if i < 2 then .error ("attempt ".toList ++ Nat.toDigits 10 i) else .ok 7

/-- A value held by a property of the object that an analyzer returns. -/
inductive ResultValue (δ : Type) where
  | number (x : ℚ)
  | details (d : Option δ)

/-- The own properties of the object `{score, details}` that an analyzer
returns, under their names. -/
def AnalyzerResult.properties {δ : Type} (r : AnalyzerResult δ) : List (Str × ResultValue δ) :=
  [("score".toList, .number r.score), ("details".toList, .details r.details)]

/-- Property access `object.name`; `none` is `undefined`. -/
def getProperty {α : Type} (object : List (Str × α)) (name : String) : Option α :=
  object.lookup name.toList

/-! ## Instrumented analyzers

The methods that divide, spread a list into `Math.max` or read a field of the
README, once more with these operations recorded: a division by zero, a
`Math.max(...[])` and a field read on `null` give `none`.  Methods without such
an operation are the ones above. -/

namespace Checked

/-- The quotient `a / b`, undefined for `b = 0`. -/
def div (a b : ℚ) : Option ℚ := if b = 0 then none else some (a / b)

/-- The call `Math.max(...xs)`, undefined for the empty list. -/
def mathMax (xs : List ℚ) : Option ℚ := if xs.length = 0 then none else some (GitGrade.mathMax xs)

/-- The field read `readme.content`, undefined for `null`. -/
def content (readme : Option Readme) : Option Str := readme.map fun r => r.content

namespace CodeQualityAnalyzer

/-- Method `analyzeComplexity`. -/
def analyzeComplexity (files : List FileEntry) : Option ℚ := do
  let score : ℚ := 20
  let avgSize ← div (files.foldl (fun sum f => addD sum f.sizeOr0) 0) files.length
  let score := if avgSize > 1000 then score - 5 else score
  let score := if avgSize > 2000 then score - 5 else score
  let score := if avgSize > 5000 then score - 5 else score
  let largeFiles := (files.filter fun f => f.sizeOr0 > 10000).length
  let largeFileRatio ← div (largeFiles : ℚ) files.length
  let score := if largeFileRatio > 0.3 then score - 5 else score
  let maxDepth ← mathMax (files.map fun f => (splitDepth f.path : ℚ))
  let score := if maxDepth > 8 then score - 3 else score
  let score := if maxDepth > 12 then score - 2 else score
  pure (max score 0)

/-- Method `analyzeFileSizes`. -/
def analyzeFileSizes (files : List FileEntry) : Option ℚ := do
  let score : ℚ := 20
  let sizes := (files.map fun f => f.sizeOr0).filter fun s => s > 0
  if sizes.length = 0 then pure 10
  else
    let avgSize ← div (sizes.foldl (fun a b => addD a b) 0) sizes.length
    let maxSize ← mathMax sizes
    let score := if maxSize > 50000 then score - 5 else score
    let score := if maxSize > 100000 then score - 5 else score
    let score := if avgSize > 5000 then score - 3 else score
    let score := if avgSize > 10000 then score - 3 else score
    let tinyFiles := (sizes.filter fun s => s < 100).length
    let tinyRatio ← div (tinyFiles : ℚ) sizes.length
    let score := if tinyRatio > 0.5 then score - 4 else score
    pure (max score 0)

/-- Method `analyzeNaming`. -/
def analyzeNaming (files : List FileEntry) : Option ℚ := do
  let score : ℚ := files.foldl (fun score file =>
      let filename := path.basename file.path
      let score := if GitGrade.CodeQualityAnalyzer.badNamePattern filename then score - 0.5 else score
      let score :=
        if GitGrade.CodeQualityAnalyzer.numberedFilePattern filename then score - 0.5 else score
      score) 20
  let goodPatterns := files.filter fun f =>
    let name := path.basename f.path
    GitGrade.CodeQualityAnalyzer.camelCasePattern name ||
      GitGrade.CodeQualityAnalyzer.kebabCasePattern name
  let goodRatio ← div (goodPatterns.length : ℚ) files.length
  let score := if goodRatio > 0.8 then score + 2 else score
  pure (max (min score 20) 0)

/-- Method `analyzeDuplication`. -/
def analyzeDuplication (files : List FileEntry) : Option ℚ := do
  let score : ℚ := 20
  let fileNames := files.map fun f => path.basename f.path
  let uniqueNames := setOf fileNames
  let score ←
    if fileNames.length > uniqueNames.length then do
      let quotient ← div (uniqueNames.length : ℚ) fileNames.length
      let duplicateRatio : ℚ := subD 1 (toDouble quotient)
      pure (subD score (min (mulD duplicateRatio 20) 10))
    else pure score
  pure (max score 0)

/-- Method `analyze`; the result is the score. -/
def analyze (files : List FileEntry) : Option ℚ := do
  let codeFiles := files.filter fun f => GitGrade.CodeQualityAnalyzer.isCodeFile f.path
  if codeFiles.length = 0 then pure 0
  else
    let complexityScore ← analyzeComplexity codeFiles
    let fileSizeScore ← analyzeFileSizes codeFiles
    let namingScore ← analyzeNaming codeFiles
    let duplicationScore ← analyzeDuplication codeFiles
    let totalScore := mathRound
      (addD (addD (addD
        (mulD complexityScore (toDouble 0.4))
        (mulD fileSizeScore (toDouble 0.25)))
        (mulD duplicationScore (toDouble 0.20)))
        (mulD namingScore (toDouble 0.15)))
    pure (min totalScore 20)

end CodeQualityAnalyzer

namespace ProjectStructureAnalyzer

/-- Method `analyzeFolderOrganization`. -/
def analyzeFolderOrganization (files : List FileEntry) : Option ℚ := do
  let score : ℚ := 15
  let dirs := setOf (files.map fun f => path.dirname f.path)
  let dirCount := dirs.length
  let hasSrcDir := files.any fun f => startsWith f.path "src/".toList
  let hasTestDir := files.any fun f => GitGrade.ProjectStructureAnalyzer.inTestDir f.path
  let hasDocsDir := files.any fun f => startsWith f.path "docs/".toList
  let score := if hasSrcDir then score + 2 else score
  let score := if hasTestDir then score + 1 else score
  let score := if hasDocsDir then score + 1 else score
  let depths := files.map fun f => (splitDepth f.path : ℚ)
  let avgDepth ← div (depths.foldl (fun a b => addD a b) 0) depths.length
  let maxDepth ← mathMax depths
  let score := if maxDepth > 10 then score - 3 else score
  let score := if avgDepth < 2 ∧ files.length > 10 then score - 3 else score
  let score := if avgDepth > 6 then score - 2 else score
  let rootFiles := files.filter fun f => !includes f.path "/".toList
  let rootFileRatio ← div (rootFiles.length : ℚ) files.length
  let score := if rootFileRatio > 0.5 ∧ files.length > 20 then score - 4 else score
  let hasAllFilesInRoot := dirCount = 1 ∧ files.length > 10
  let score := if hasAllFilesInRoot then score - 5 else score
  let hasPackageJson := files.any fun f => f.path = "package.json".toList
  let hasNodeModules := files.any fun f => startsWith f.path "node_modules/".toList
  let score := if hasPackageJson && !hasNodeModules then score + 1 else score
  pure (max (min score 15) 0)

/-- Method `analyzeSeparationOfConcerns`. -/
def analyzeSeparationOfConcerns (files : List FileEntry) : Option ℚ := do
  let score : ℚ := 15
  let patterns := GitGrade.ProjectStructureAnalyzer.separationPatterns.map fun dirs =>
    files.filter fun f => dirs.any fun d => includes f.path d
  let presentPatterns := (patterns.filter fun p => p.length > 0).length
  let score := if presentPatterns ≥ 4 then score + 3 else score
  let score := if presentPatterns ≥ 6 then score + 2 else score
  let testFiles := files.filter fun f => GitGrade.ProjectStructureAnalyzer.testFilePattern f.path
  let testsInTestDir := testFiles.filter fun f => GitGrade.ProjectStructureAnalyzer.inTestDir f.path
  let score ←
    if testFiles.length > 0 then do
      let ratio ← div (testsInTestDir.length : ℚ) testFiles.length
      pure (if ratio < 0.5 then score - 3 else score)
    else pure score
  pure (max (min score 15) 0)

/-- Method `analyze`; the result is the score. -/
def analyze (files : List FileEntry) : Option ℚ := do
  if files.length = 0 then pure 0
  else
    let folderScore ← analyzeFolderOrganization files
    let configScore := GitGrade.ProjectStructureAnalyzer.analyzeConfigFiles files
    let separationScore ← analyzeSeparationOfConcerns files
    let totalScore := mathRound
      (addD (addD
        (mulD folderScore (toDouble 0.60))
        (mulD configScore (toDouble 0.25)))
        (mulD separationScore (toDouble 0.15)))
    pure (min totalScore 15)

end ProjectStructureAnalyzer

namespace DocumentationAnalyzer

/-- Method `extractReadmeSections`. -/
def extractReadmeSections (readme : Option Readme) : Option (List Str) := do
  if readme.isNone then pure []
  else
    let raw ← content readme
    if raw.isEmpty then pure []
    else
      let content ← (content readme).map toLowerCase
      let headers := globalMatch matchHeaderAt content
      let foundSections := headers.foldl (fun found header =>
        README_SECTIONS.foldl (fun found sec =>
          if includes (GitGrade.DocumentationAnalyzer.headerText header) (toLowerCase sec)
          then found ++ [toLowerCase sec]
          else found) found) []
      pure (setOf foundSections)

/-- Method `analyzeReadme`. -/
def analyzeReadme (readme : Option Readme) : Option ℚ := do
  if readme.isNone then pure 0
  else
    let raw ← content readme
    if raw.isEmpty then pure 0
    else
      let score : ℚ := 5
      let content ← (Checked.content readme).map toLowerCase
      let length ← (Checked.content readme).map jsLength
      let score :=
        if length < 100 then score - 2
        else if length ≥ 300 ∧ length < 1000 then score + 2
        else if length ≥ 1000 ∧ length < 5000 then score + 4
        else if length ≥ 5000 then score + 3
        else score
      let sections ← extractReadmeSections readme
      let has := fun (name : String) => sections.contains name.toList
      let score :=
        if has "installation" || has "setup" || has "getting started" then score + 2 else score
      let score := if has "usage" || has "examples" then score + 2 else score
      let score := if has "features" then score + 1 else score
      let score := if has "documentation" || has "api" then score + 1 else score
      let score := if has "contributing" then score + 1 else score
      let score := if has "license" then score + 1 else score
      let score := if has "tests" || has "testing" then score + 1 else score
      let codeBlocks ← div ((globalMatch matchFenceAt content).length : ℚ) 2
      let score := if codeBlocks ≥ 2 then score + 2 else score
      let score := if codeBlocks ≥ 4 then score + 1 else score
      let images := (globalMatch matchImageAt content).length
      let score := if images > 0 then score + 1 else score
      let links := (globalMatch matchLinkAt content).length
      let score := if links ≥ 3 then score + 1 else score
      let score :=
        if includes content "table of contents".toList || includes content "toc".toList
        then score + 1 else score
      let score := if length < 200 ∧ sections.length < 3 then score - 3 else score
      pure (max (min score 15) 0)

/-- Method `analyze`; the result is the score. -/
def analyze (readme : Option Readme) (files : List FileEntry) : Option ℚ := do
  let readmeScore ← analyzeReadme readme
  let commentsScore := GitGrade.DocumentationAnalyzer.analyzeCodeComments files
  let additionalDocsScore := GitGrade.DocumentationAnalyzer.analyzeAdditionalDocs files
  let totalScore := mathRound
    (addD (addD
      (mulD readmeScore (toDouble 0.75))
      (mulD commentsScore (toDouble 0.15)))
      (mulD additionalDocsScore (toDouble 0.10)))
  let _sections ← extractReadmeSections readme
  pure (min totalScore 15)

end DocumentationAnalyzer

namespace TestingAnalyzer

/-- Method `estimateTestCoverage`. -/
def estimateTestCoverage (testFiles codeFiles : List FileEntry) : Option ℚ := do
  if testFiles.length = 0 ∨ codeFiles.length = 0 then pure 0
  else
    let ratio ← div (testFiles.length : ℚ) codeFiles.length
    let score : ℚ := 0
    let score := if ratio ≥ 0.1 then score + 2 else score
    let score := if ratio ≥ 0.2 then score + 2 else score
    let score := if ratio ≥ 0.3 then score + 2 else score
    let score := if ratio ≥ 0.5 then score + 3 else score
    let score := if ratio ≥ 0.8 then score + 3 else score
    let totalTestSize : ℚ := testFiles.foldl (fun sum f => addD sum f.sizeOr0) 0
    let totalCodeSize : ℚ := codeFiles.foldl (fun sum f => addD sum f.sizeOr0) 0
    let score ←
      if totalCodeSize > 0 then do
        let sizeRatio ← div totalTestSize totalCodeSize
        let score := if sizeRatio ≥ 0.2 then score + 1 else score
        let score := if sizeRatio ≥ 0.5 then score + 1 else score
        let score := if sizeRatio ≥ 1.0 then score + 1 else score
        pure score
      else pure score
    pure (max (min score 12) 0)

/-- Method `analyzeTestOrganization`. -/
def analyzeTestOrganization (testFiles : List FileEntry) : Option ℚ := do
  if testFiles.length = 0 then pure 0
  else
    let score : ℚ := 8
    let testsInTestDir := testFiles.filter fun f => GitGrade.TestingAnalyzer.underTestDir f.path
    let organizationRatio ← div (testsInTestDir.length : ℚ) testFiles.length
    let score :=
      if organizationRatio ≥ 0.8 then score + 4
      else if organizationRatio ≥ 0.5 then score + 2
      else if organizationRatio < 0.3 then score - 3
      else score
    let hasTestUtils := testFiles.any fun f =>
      includes f.path "test/utils".toList || includes f.path "test/helpers".toList ||
        includes f.path "testUtils".toList || includes f.path "setupTests".toList
    let score := if hasTestUtils then score + 2 else score
    let hasUnitTests := testFiles.any fun f => includes f.path "unit".toList
    let hasIntegrationTests := testFiles.any fun f => includes f.path "integration".toList
    let hasE2eTests := testFiles.any fun f =>
      includes f.path "e2e".toList || includes f.path "e2e".toList
    let score := if hasUnitTests then score + 1 else score
    let score := if hasIntegrationTests then score + 1 else score
    let score := if hasE2eTests then score + 1 else score
    pure (max (min score 12) 0)

/-- Method `calculateTestToCodeRatio`. -/
def calculateTestToCodeRatio (testFiles codeFiles : List FileEntry) : Option ℚ := do
  if codeFiles.length = 0 then pure 0
  else
    let quotient ← div (testFiles.length : ℚ) codeFiles.length
    let ratio : ℚ := mulD (toDouble quotient) 100
    (div (mathRound (mulD ratio 100)) 100).map toDouble

/-- Method `analyze`; the result is the score. -/
def analyze (files : List FileEntry) : Option ℚ := do
  let testFiles := GitGrade.TestingAnalyzer.findTestFiles files
  let codeFiles := GitGrade.TestingAnalyzer.findCodeFiles files
  if codeFiles.length = 0 then pure 0
  else
    let testPresenceScore := GitGrade.TestingAnalyzer.analyzeTestPresence testFiles codeFiles
    let testCoverageScore ← estimateTestCoverage testFiles codeFiles
    let testOrganizationScore ← analyzeTestOrganization testFiles
    let testFrameworkScore := GitGrade.TestingAnalyzer.detectTestingFramework files
    let totalScore := mathRound
      (addD (addD (addD
        (mulD testPresenceScore (toDouble 0.35))
        (mulD testCoverageScore (toDouble 0.35)))
        (mulD testOrganizationScore (toDouble 0.15)))
        (mulD testFrameworkScore (toDouble 0.15)))
    let _testCoverage ← calculateTestToCodeRatio testFiles codeFiles
    pure (min totalScore 12)

end TestingAnalyzer

namespace GitPracticesAnalyzer

/-- Method `analyzeCommits`. -/
def analyzeCommits (commits : Option (List Commit)) : Option ℚ := do
  match commits with
  | none => pure 0
  | some commits =>
    if commits.length = 0 then pure 0
    else
      let score : ℚ := 5
      let score := if commits.length ≥ 10 then score + 2 else score
      let score := if commits.length ≥ 50 then score + 2 else score
      let score := if commits.length ≥ 100 then score + 1 else score
      let goodMessages := commits.filter fun c =>
        let msg := toLowerCase c.message
        GitGrade.GitPracticesAnalyzer.conventionalCommitPattern msg ||
          GitGrade.GitPracticesAnalyzer.imperativeVerbPattern msg
      let messageQualityRatio ← div (goodMessages.length : ℚ) commits.length
      let score := if messageQualityRatio ≥ 0.3 then score + 2 else score
      let score := if messageQualityRatio ≥ 0.5 then score + 2 else score
      let score := if messageQualityRatio ≥ 0.7 then score + 1 else score
      pure (max (min score 12) 0)

/-- Method `analyzePullRequests`. -/
def analyzePullRequests (prs : Option PullRequests) (_commits : Option (List Commit)) :
    Option ℚ := do
  match prs with
  | none => pure 3
  | some prs =>
    let score : ℚ := 3
    let score := if prs.total > 0 then score + 3 else score
    let score := if prs.total ≥ 5 then score + 2 else score
    let score := if prs.total ≥ 10 then score + 2 else score
    let score ←
      if prs.merged > 0 ∧ prs.total > 0 then do
        let mergeRatio ← div (prs.merged : ℚ) prs.total
        pure (if mergeRatio ≥ 0.5 then score + 2 else score)
      else pure score
    pure (max (min score 12) 0)

/-- Method `analyze`; the result is the score. -/
def analyze (commits : Option (List Commit)) (branches : Option (List Branch))
    (pullRequests : Option PullRequests) : Option ℚ := do
  let commitScore ← analyzeCommits commits
  let branchScore := GitGrade.GitPracticesAnalyzer.analyzeBranches branches
  let prScore ← analyzePullRequests pullRequests commits
  let totalScore := mathRound
    (addD (addD
      (mulD commitScore (toDouble 0.50))
      (mulD branchScore (toDouble 0.25)))
      (mulD prScore (toDouble 0.25)))
  pure (min totalScore 12)

end GitPracticesAnalyzer

end Checked

/-- A project with a Jest configuration, two modules and one test; the
sub-scores of the testing analyzer are 7, 6, 5 and 8. -/
def jestProject : List FileEntry :=
  [{ path := "package.json".toList }, { path := "jest.config.js".toList },
   { path := "a.js".toList }, { path := "b.js".toList }, { path := "a.test.js".toList }]

/-- Seven code files; the first has `2^53 + 2` bytes, the others none. -/
def hugeCodeFiles : List FileEntry :=
  sampleFiles [("jest.config.js", 2 ^ 53 + 2), ("a.js", 0), ("b.js", 0), ("c.js", 0),
    ("d.js", 0), ("e.js", 0), ("f.js", 0)]

/-- Three test files of `2^53`, 1 and 1 bytes before `hugeCodeFiles`. -/
def hugeTestFirst : List FileEntry :=
  sampleFiles [("a.test.js", 2 ^ 53), ("b.test.js", 1), ("c.test.js", 1)] ++ hugeCodeFiles

/-- The list `hugeTestFirst` with the test file of `2^53` bytes after the two
small ones. -/
def hugeTestLast : List FileEntry :=
  sampleFiles [("b.test.js", 1), ("c.test.js", 1), ("a.test.js", 2 ^ 53)] ++ hugeCodeFiles

/-! # Theorems -/

theorem log2Fuel_spec : ∀ (fuel n : Nat), n ≤ fuel → 1 ≤ n →
    2 ^ log2Fuel fuel n ≤ n ∧ n < 2 ^ (log2Fuel fuel n + 1) := by
  intro fuel
  induction fuel with
  | zero => intro n h1 h2; omega
  | succ k ih =>
    intro n hn h1
    unfold log2Fuel
    by_cases h2 : n < 2
    · rw [if_pos h2]
      have : n = 1 := by omega
      subst this
      norm_num
    · rw [if_neg h2]
      have hk : n / 2 ≤ k := by omega
      have h1' : 1 ≤ n / 2 := by omega
      obtain ⟨l, u⟩ := ih (n / 2) hk h1'
      constructor
      · rw [pow_succ]
        omega
      · rw [pow_succ]
        omega

theorem exponent_bounds (n d L M : Nat) (hd : 1 ≤ d)
    (nl : 2 ^ L ≤ n) (nu : n < 2 ^ (L + 1)) (dl : 2 ^ M ≤ d) (du : d < 2 ^ (M + 1)) :
    (2 : ℚ) ^ ((L : ℤ) - (M : ℤ) - 1) ≤ (n : ℚ) / d ∧
      (n : ℚ) / d < (2 : ℚ) ^ ((L : ℤ) - (M : ℤ) + 1) := by
  have hdpos : (0 : ℚ) < d := by exact_mod_cast hd
  have nlq : ((2 : ℚ) ^ L) ≤ n := by exact_mod_cast nl
  have nuq : (n : ℚ) < (2 : ℚ) ^ (L + 1) := by exact_mod_cast nu
  have dlq : ((2 : ℚ) ^ M) ≤ d := by exact_mod_cast dl
  have duq : (d : ℚ) < (2 : ℚ) ^ (M + 1) := by exact_mod_cast du
  have h2M : (0 : ℚ) < 2 ^ M := by positivity
  have h2L : (0 : ℚ) < 2 ^ L := by positivity
  have e1 : (2 : ℚ) ^ ((L : ℤ) - (M : ℤ) - 1) = 2 ^ L / 2 ^ (M + 1) := by
    have : (L : ℤ) - (M : ℤ) - 1 = (L : ℤ) - ((M + 1 : ℕ) : ℤ) := by push_cast; ring
    rw [this, zpow_sub₀ (by norm_num), zpow_natCast, zpow_natCast]
  have e2 : (2 : ℚ) ^ ((L : ℤ) - (M : ℤ) + 1) = 2 ^ (L + 1) / 2 ^ M := by
    have : (L : ℤ) - (M : ℤ) + 1 = ((L + 1 : ℕ) : ℤ) - (M : ℤ) := by push_cast; ring
    rw [this, zpow_sub₀ (by norm_num), zpow_natCast, zpow_natCast]
  constructor
  · rw [e1, div_le_div_iff₀ (by positivity) hdpos]
    have h1 : (2 : ℚ) ^ L * d ≤ n * d := mul_le_mul_of_nonneg_right nlq hdpos.le
    have h2 : (n : ℚ) * d ≤ n * 2 ^ (M + 1) :=
      mul_le_mul_of_nonneg_left duq.le (by positivity)
    linarith
  · rw [e2, div_lt_div_iff₀ hdpos h2M]
    have h1 : (n : ℚ) * 2 ^ M < 2 ^ (L + 1) * 2 ^ M := mul_lt_mul_of_pos_right nuq h2M
    have h2 : (2 : ℚ) ^ (L + 1) * 2 ^ M ≤ 2 ^ (L + 1) * d :=
      mul_le_mul_of_nonneg_left dlq (by positivity)
    linarith

theorem binaryExponent_spec {x : ℚ} (hx : 0 < x) :
    (2 : ℚ) ^ binaryExponent x ≤ x ∧ x < (2 : ℚ) ^ (binaryExponent x + 1) := by
  have hnum : 0 < x.num := Rat.num_pos.mpr hx
  have hn1 : 1 ≤ x.num.natAbs := by omega
  have hd1 : 1 ≤ x.den := x.den_pos
  obtain ⟨nl, nu⟩ := log2Fuel_spec x.num.natAbs x.num.natAbs (le_refl _) hn1
  obtain ⟨dl, du⟩ := log2Fuel_spec x.den x.den (le_refl _) hd1
  have hc : ((x.num.natAbs : ℕ) : ℚ) = (x.num : ℚ) := by
    rw [Nat.cast_natAbs, abs_of_pos hnum]
  have hxeq : ((x.num.natAbs : ℕ) : ℚ) / (x.den : ℚ) = x := by
    rw [hc]
    exact Rat.num_div_den x
  obtain ⟨hlower, hupper⟩ := exponent_bounds _ _ _ _ hd1 nl nu dl du
  rw [hxeq] at hlower hupper
  unfold binaryExponent
  simp only []
  rw [abs_of_pos hx]
  split_ifs with h
  · exact ⟨h, hupper⟩
  · refine ⟨hlower, ?_⟩
    rw [sub_add_cancel]
    exact lt_of_not_le h

theorem roundHalfEven_error (t : ℚ) : |(roundHalfEven t : ℚ) - t| ≤ 1 / 2 := by
  have h1 := Int.floor_le t
  have h2 := Int.lt_floor_add_one t
  unfold roundHalfEven
  rw [abs_le]
  split_ifs with a b c
  · constructor <;> linarith
  · push_cast; constructor <;> linarith
  · constructor <;> linarith
  · push_cast; constructor <;> linarith

theorem roundHalfEven_intCast (n : ℤ) : roundHalfEven (n : ℚ) = n := by
  unfold roundHalfEven
  simp

theorem toDouble_zero : toDouble 0 = 0 := by
  unfold toDouble
  simp

theorem toDouble_error {x : ℚ} (hx : 0 ≤ x) : |toDouble x - x| ≤ x / 2 ^ 53 := by
  rcases eq_or_lt_of_le hx with h0 | hpos
  · subst h0
    simp [toDouble_zero]
  · obtain ⟨hl, _⟩ := binaryExponent_spec hpos
    unfold toDouble
    rw [if_neg (ne_of_gt hpos)]
    simp only []
    generalize binaryExponent x = e at hl
    have hu : (0 : ℚ) < 2 ^ (e - 52) := by positivity
    have herr := roundHalfEven_error (x / 2 ^ (e - 52))
    have heq : (roundHalfEven (x / 2 ^ (e - 52)) : ℚ) * 2 ^ (e - 52) - x =
        ((roundHalfEven (x / 2 ^ (e - 52)) : ℚ) - x / 2 ^ (e - 52)) * 2 ^ (e - 52) := by
      field_simp
    rw [heq, abs_mul, abs_of_pos hu]
    have hpw : (2 : ℚ) ^ (e - 52) = 2 ^ e / 2 ^ 52 := by
      rw [zpow_sub₀ (by norm_num)]
      norm_cast
    have h2e : (0 : ℚ) < 2 ^ e := by positivity
    calc |(roundHalfEven (x / 2 ^ (e - 52)) : ℚ) - x / 2 ^ (e - 52)| * 2 ^ (e - 52)
        ≤ 1 / 2 * 2 ^ (e - 52) := by
          exact mul_le_mul_of_nonneg_right herr hu.le
      _ = 2 ^ e / 2 ^ 53 := by rw [hpw]; ring
      _ ≤ x / 2 ^ 53 := by
          apply div_le_div_of_nonneg_right hl
          positivity

theorem toDouble_ge {x : ℚ} (hx : 0 ≤ x) : 999999 / 1000000 * x ≤ toDouble x := by
  have h := toDouble_error hx
  rw [abs_le] at h
  have : x / 2 ^ 53 ≤ x / 1000000 := by
    apply div_le_div_of_nonneg_left hx (by norm_num) (by norm_num)
  linarith [h.1]

theorem toDouble_nonneg {x : ℚ} (hx : 0 ≤ x) : 0 ≤ toDouble x := by
  have := toDouble_ge hx
  linarith [mul_nonneg (by norm_num : (0 : ℚ) ≤ 999999 / 1000000) hx]

theorem toDouble_of_scaled_int {x : ℚ} (hx : 0 < x) (n : ℤ)
    (h : x / 2 ^ (binaryExponent x - 52) = n) : toDouble x = x := by
  unfold toDouble
  rw [if_neg (ne_of_gt hx)]
  simp only []
  rw [h, roundHalfEven_intCast, ← h]
  have hu : (2 : ℚ) ^ (binaryExponent x - 52) ≠ 0 := by positivity
  field_simp

theorem toDouble_natCast {n : Nat} (hn : n ≤ 2 ^ 53) : toDouble (n : ℚ) = n := by
  rcases Nat.eq_zero_or_pos n with h0 | hpos
  · subst h0
    simp [toDouble_zero]
  · have hx : (0 : ℚ) < n := by exact_mod_cast hpos
    obtain ⟨hl, hu⟩ := binaryExponent_spec hx
    generalize he : binaryExponent (n : ℚ) = e at hl hu
    have he0 : 0 ≤ e := by
      by_contra hneg
      have : e + 1 ≤ 0 := by omega
      have h1 : (2 : ℚ) ^ (e + 1) ≤ 2 ^ (0 : ℤ) := zpow_le_zpow_right₀ (by norm_num) this
      have h2 : (1 : ℚ) ≤ n := by exact_mod_cast hpos
      simp only [zpow_zero] at h1
      linarith
    have he53 : e ≤ 53 := by
      by_contra hbig
      have : 54 ≤ e := by omega
      have h1 : (2 : ℚ) ^ (54 : ℤ) ≤ 2 ^ e := zpow_le_zpow_right₀ (by norm_num) this
      have h2 : (n : ℚ) ≤ 2 ^ 53 := by exact_mod_cast hn
      have h3 : (2 : ℚ) ^ (54 : ℤ) = 2 ^ 54 := by norm_cast
      rw [h3] at h1
      have : (2 : ℚ) ^ 53 < 2 ^ 54 := by norm_num
      linarith
    rcases lt_or_ge e 53 with hlt | hge
    · -- e ≤ 52: the unit in the last place divides 1
      obtain ⟨k, hk⟩ : ∃ k : ℕ, (52 : ℤ) - e = k := ⟨(52 - e).toNat, by omega⟩
      apply toDouble_of_scaled_int hx ((n : ℤ) * 2 ^ k)
      rw [he]
      have : e - 52 = -(k : ℤ) := by omega
      rw [this, zpow_neg, zpow_natCast]
      push_cast
      field_simp
    · -- e = 53: n = 2^53
      have he' : e = 53 := by omega
      subst he'
      have h3 : (2 : ℚ) ^ (53 : ℤ) = 2 ^ 53 := by norm_cast
      rw [h3] at hl
      have h2 : (n : ℚ) ≤ 2 ^ 53 := by exact_mod_cast hn
      have hn53 : (n : ℚ) = 2 ^ 53 := le_antisymm h2 hl
      apply toDouble_of_scaled_int hx (2 ^ 52)
      rw [he, hn53]
      norm_num

theorem addD_ge {a b la lb : ℚ} (ha : la ≤ a) (hb : lb ≤ b) (h0 : 0 ≤ la + lb) :
    999999 / 1000000 * (la + lb) ≤ addD a b := by
  unfold addD
  have := toDouble_ge (x := a + b) (by linarith)
  linarith

theorem mulD_ge {s w lo : ℚ} (hlo : 0 ≤ lo) (hs : lo ≤ s) (hw : 0 ≤ w) :
    999999 / 1000000 * (lo * w) ≤ mulD s w := by
  unfold mulD
  have h1 : lo * w ≤ s * w := mul_le_mul_of_nonneg_right hs hw
  have := toDouble_ge (x := s * w) (by nlinarith)
  linarith

theorem addD_nonneg {a b : ℚ} (ha : 0 ≤ a) (hb : 0 ≤ b) : 0 ≤ addD a b :=
  toDouble_nonneg (by linarith)

theorem mulD_nonneg {a b : ℚ} (ha : 0 ≤ a) (hb : 0 ≤ b) : 0 ≤ mulD a b :=
  toDouble_nonneg (mul_nonneg ha hb)

theorem mulD_lit_ge {s l w : ℚ} (hl : 0 ≤ l) (hs : l ≤ s) (hw : 0 ≤ w) :
    999998 / 1000000 * (l * w) ≤ mulD s (toDouble w) := by
  have h1 := toDouble_ge hw
  have h2 : 0 ≤ toDouble w := toDouble_nonneg hw
  have h3 := mulD_ge (w := toDouble w) hl hs h2
  have h4 : l * (999999 / 1000000 * w) ≤ l * toDouble w := mul_le_mul_of_nonneg_left h1 hl
  have h5 : 0 ≤ l * w := mul_nonneg hl hw
  linarith

theorem weighted3_ge {a b c u v w l m n : ℚ}
    (hl : 0 ≤ l) (ha : l ≤ a) (hu : 0 ≤ u)
    (hm : 0 ≤ m) (hb : m ≤ b) (hv : 0 ≤ v)
    (hn : 0 ≤ n) (hc : n ≤ c) (hw : 0 ≤ w) :
    999995 / 1000000 * (l * u + m * v + n * w) ≤
      addD (addD (mulD a (toDouble u)) (mulD b (toDouble v))) (mulD c (toDouble w)) := by
  have p1 := mulD_lit_ge hl ha hu
  have p2 := mulD_lit_ge hm hb hv
  have p3 := mulD_lit_ge hn hc hw
  have q1 : 0 ≤ l * u := mul_nonneg hl hu
  have q2 : 0 ≤ m * v := mul_nonneg hm hv
  have q3 : 0 ≤ n * w := mul_nonneg hn hw
  have s1 := addD_ge p1 p2 (by linarith)
  have s2 := addD_ge s1 p3 (by linarith)
  linarith

theorem weighted4_ge {a b c d u v w x l m n o : ℚ}
    (hl : 0 ≤ l) (ha : l ≤ a) (hu : 0 ≤ u)
    (hm : 0 ≤ m) (hb : m ≤ b) (hv : 0 ≤ v)
    (hn : 0 ≤ n) (hc : n ≤ c) (hw : 0 ≤ w)
    (ho : 0 ≤ o) (hd : o ≤ d) (hx : 0 ≤ x) :
    999995 / 1000000 * (l * u + m * v + n * w + o * x) ≤
      addD (addD (addD (mulD a (toDouble u)) (mulD b (toDouble v))) (mulD c (toDouble w)))
        (mulD d (toDouble x)) := by
  have p1 := mulD_lit_ge hl ha hu
  have p2 := mulD_lit_ge hm hb hv
  have p3 := mulD_lit_ge hn hc hw
  have p4 := mulD_lit_ge ho hd hx
  have q1 : 0 ≤ l * u := mul_nonneg hl hu
  have q2 : 0 ≤ m * v := mul_nonneg hm hv
  have q3 : 0 ≤ n * w := mul_nonneg hn hw
  have q4 : 0 ≤ o * x := mul_nonneg ho hx
  have s1 := addD_ge p1 p2 (by linarith)
  have s2 := addD_ge s1 p3 (by linarith)
  have s3 := addD_ge s2 p4 (by linarith)
  linarith

theorem foldl_addD_natCast {α : Type} (g : α → Nat) (xs : List α) :
    ∀ init : Nat, init + (xs.map g).sum ≤ 2 ^ 53 →
      xs.foldl (fun s x => addD s ((g x : Nat) : ℚ)) (init : ℚ) =
        ((init + (xs.map g).sum : Nat) : ℚ) := by
  induction xs with
  | nil => intro init _; simp
  | cons x t ih =>
    intro init h
    simp only [List.map_cons, List.sum_cons] at h
    have h1 : init + g x ≤ 2 ^ 53 := by omega
    have hstep : addD (init : ℚ) ((g x : Nat) : ℚ) = ((init + g x : Nat) : ℚ) := by
      unfold addD
      have := toDouble_natCast h1
      push_cast at this ⊢
      exact this
    rw [List.foldl_cons, hstep, ih (init + g x) (by omega)]
    simp only [List.map_cons, List.sum_cons]
    congr 1
    omega

theorem foldl_addD_exact {α : Type} (g : α → Nat) (xs : List α)
    (h : (xs.map g).sum ≤ 2 ^ 53) :
    xs.foldl (fun s x => addD s ((g x : Nat) : ℚ)) 0 = (((xs.map g).sum : Nat) : ℚ) := by
  have := foldl_addD_natCast g xs 0 (by simpa using h)
  simpa using this

theorem weighted3_nonneg {a b c u v w : ℚ} (ha : 0 ≤ a) (hb : 0 ≤ b) (hc : 0 ≤ c)
    (hu : 0 ≤ u) (hv : 0 ≤ v) (hw : 0 ≤ w) :
    0 ≤ addD (addD (mulD a (toDouble u)) (mulD b (toDouble v))) (mulD c (toDouble w)) :=
  addD_nonneg (addD_nonneg (mulD_nonneg ha (toDouble_nonneg hu))
    (mulD_nonneg hb (toDouble_nonneg hv))) (mulD_nonneg hc (toDouble_nonneg hw))

theorem weighted4_nonneg {a b c d u v w x : ℚ} (ha : 0 ≤ a) (hb : 0 ≤ b) (hc : 0 ≤ c)
    (hd : 0 ≤ d) (hu : 0 ≤ u) (hv : 0 ≤ v) (hw : 0 ≤ w) (hx : 0 ≤ x) :
    0 ≤ addD (addD (addD (mulD a (toDouble u)) (mulD b (toDouble v))) (mulD c (toDouble w)))
      (mulD d (toDouble x)) :=
  addD_nonneg (addD_nonneg (addD_nonneg (mulD_nonneg ha (toDouble_nonneg hu))
    (mulD_nonneg hb (toDouble_nonneg hv))) (mulD_nonneg hc (toDouble_nonneg hw)))
    (mulD_nonneg hd (toDouble_nonneg hx))

/-- The weight `0.35` is the double `3152519739159347 / 2^53`, and the weighted
total of the sub-scores 7, 6, 5, 8 of the testing analyzer is, in doubles,
`7318349394477055 / 2^50`, just below 6.5: it rounds to 6, where the exact total
`13/2` rounds to 7. -/
theorem double_samples :
    toDouble 0.35 = 3152519739159347 / 9007199254740992 ∧
    addD (addD (addD (mulD 7 (toDouble 0.35)) (mulD 6 (toDouble 0.35)))
      (mulD 5 (toDouble 0.15))) (mulD 8 (toDouble 0.15)) =
      7318349394477055 / 1125899906842624 ∧
    (7 * 0.35 + 6 * 0.35 + 5 * 0.15 + 8 * 0.15 : ℚ) = 13 / 2 ∧
    mathRound (7318349394477055 / 1125899906842624) = 6 ∧
    mathRound (13 / 2) = 7 := by
  decide!

/-- The testing score of `jestProject`, whose sub-scores are 7, 6, 5 and 8,
is 6. -/
theorem TestingAnalyzer.jestProject_score :
    analyzeTestPresence (findTestFiles jestProject) (findCodeFiles jestProject) = 7 ∧
    estimateTestCoverage (findTestFiles jestProject) (findCodeFiles jestProject) = 6 ∧
    analyzeTestOrganization (findTestFiles jestProject) = 5 ∧
    detectTestingFramework jestProject = 8 ∧
    (analyze jestProject).score = 6 := by
  decide!

/-- The sums of sizes are sums of doubles: from `2^53` on they depend on the
order of the list.  With the test file of `2^53` bytes first the two single
bytes are lost, the size ratio stays below 1 and the testing score is 7; with
that file last the ratio is 1 and the score is 8. -/
theorem TestingAnalyzer.size_sums_depend_on_order :
    hugeTestFirst.Perm hugeTestLast ∧
    estimateTestCoverage (findTestFiles hugeTestFirst) (findCodeFiles hugeTestFirst) = 8 ∧
    estimateTestCoverage (findTestFiles hugeTestLast) (findCodeFiles hugeTestLast) = 9 ∧
    (analyze hugeTestFirst).score = 7 ∧
    (analyze hugeTestLast).score = 8 := by
  refine ⟨?_, by decide!, by decide!, by decide!, by decide!⟩
  unfold hugeTestFirst hugeTestLast
  apply List.Perm.append_right
  decide!

/-! ## Arithmetic of `Math.round` -/

theorem mathRound_nonneg {x : ℚ} (h : 0 ≤ x) : 0 ≤ mathRound x := by
  unfold mathRound
  have h' : (0 : ℤ) ≤ ⌊x + 1 / 2⌋ := Int.floor_nonneg.mpr (by linarith)
  exact_mod_cast h'

theorem mathRound_intCast (n : ℤ) : mathRound (n : ℚ) = n := by
  unfold mathRound
  have h' : ⌊(n : ℚ) + 1 / 2⌋ = n := by
    rw [Int.floor_eq_iff]
    constructor <;> norm_num
  rw [h']

theorem isInteger_mathRound (x : ℚ) : IsInteger (mathRound x) := ⟨_, rfl⟩

theorem isInteger_min {x y : ℚ} (hx : IsInteger x) (hy : IsInteger y) : IsInteger (min x y) := by
  rcases le_total x y with h | h
  · rwa [min_eq_left h]
  · rwa [min_eq_right h]

theorem isInteger_ofNat (n : ℕ) : IsInteger (n : ℚ) := ⟨n, by simp⟩

/-! ## Sub-scores are never negative -/

theorem CodeQualityAnalyzer.analyzeComplexity_nonneg (files : List FileEntry) :
    0 ≤ analyzeComplexity files := by
  unfold analyzeComplexity
  exact le_max_right _ _

theorem CodeQualityAnalyzer.analyzeFileSizes_nonneg (files : List FileEntry) :
    0 ≤ analyzeFileSizes files := by
  unfold analyzeFileSizes
  simp only []
  split_ifs <;> first | exact le_max_right _ _ | norm_num

theorem CodeQualityAnalyzer.analyzeNaming_nonneg (files : List FileEntry) :
    0 ≤ analyzeNaming files := by
  unfold analyzeNaming
  exact le_max_right _ _

theorem CodeQualityAnalyzer.analyzeDuplication_nonneg (files : List FileEntry) :
    0 ≤ analyzeDuplication files := by
  unfold analyzeDuplication
  exact le_max_right _ _

theorem CodeQualityAnalyzer.codeQualityTotal_nonneg (files : List FileEntry) :
    0 ≤ totalScore files := by
  unfold totalScore
  apply mathRound_nonneg
  have h1 := analyzeComplexity_nonneg files
  have h2 := analyzeFileSizes_nonneg files
  have h3 := analyzeDuplication_nonneg files
  have h4 := analyzeNaming_nonneg files
  exact weighted4_nonneg h1 h2 h3 h4 (by norm_num) (by norm_num) (by norm_num) (by norm_num)

theorem ProjectStructureAnalyzer.structureTotal_nonneg (files : List FileEntry) :
    0 ≤ totalScore files := by
  unfold totalScore
  apply mathRound_nonneg
  have h1 : 0 ≤ analyzeFolderOrganization files := by
    unfold analyzeFolderOrganization; exact le_max_right _ _
  have h2 : 0 ≤ analyzeConfigFiles files := by
    unfold analyzeConfigFiles; exact le_max_right _ _
  have h3 : 0 ≤ analyzeSeparationOfConcerns files := by
    unfold analyzeSeparationOfConcerns; exact le_max_right _ _
  exact weighted3_nonneg h1 h2 h3 (by norm_num) (by norm_num) (by norm_num)

theorem DocumentationAnalyzer.analyzeReadme_nonneg (readme : Option Readme) :
    0 ≤ analyzeReadme readme := by
  unfold analyzeReadme
  split
  · exact le_refl _
  · split
    · exact le_refl _
    · exact le_max_right _ _

theorem DocumentationAnalyzer.analyzeCodeComments_nonneg (files : List FileEntry) :
    0 ≤ analyzeCodeComments files := by
  unfold analyzeCodeComments
  simp only []
  split
  · norm_num
  · exact le_max_right _ _

theorem DocumentationAnalyzer.analyzeAdditionalDocs_nonneg (files : List FileEntry) :
    0 ≤ analyzeAdditionalDocs files := by
  unfold analyzeAdditionalDocs
  exact le_max_right _ _

theorem DocumentationAnalyzer.documentationTotal_nonneg (readme : Option Readme) (files : List FileEntry) :
    0 ≤ totalScore readme files := by
  unfold totalScore
  apply mathRound_nonneg
  have h1 := analyzeReadme_nonneg readme
  have h2 := analyzeCodeComments_nonneg files
  have h3 := analyzeAdditionalDocs_nonneg files
  exact weighted3_nonneg h1 h2 h3 (by norm_num) (by norm_num) (by norm_num)

theorem TestingAnalyzer.analyzeTestPresence_nonneg (testFiles codeFiles : List FileEntry) :
    0 ≤ analyzeTestPresence testFiles codeFiles := by
  unfold analyzeTestPresence
  split
  · exact le_refl _
  · exact le_max_right _ _

theorem TestingAnalyzer.estimateTestCoverage_nonneg (testFiles codeFiles : List FileEntry) :
    0 ≤ estimateTestCoverage testFiles codeFiles := by
  unfold estimateTestCoverage
  split
  · exact le_refl _
  · exact le_max_right _ _

theorem TestingAnalyzer.analyzeTestOrganization_nonneg (testFiles : List FileEntry) :
    0 ≤ analyzeTestOrganization testFiles := by
  unfold analyzeTestOrganization
  split
  · exact le_refl _
  · exact le_max_right _ _

theorem TestingAnalyzer.detectTestingFramework_nonneg (files : List FileEntry) :
    0 ≤ detectTestingFramework files := by
  unfold detectTestingFramework
  simp only []
  split
  · exact le_refl _
  · exact le_max_right _ _

theorem TestingAnalyzer.testingTotal_nonneg (files : List FileEntry) : 0 ≤ totalScore files := by
  unfold totalScore
  apply mathRound_nonneg
  have h1 := analyzeTestPresence_nonneg (findTestFiles files) (findCodeFiles files)
  have h2 := estimateTestCoverage_nonneg (findTestFiles files) (findCodeFiles files)
  have h3 := analyzeTestOrganization_nonneg (findTestFiles files)
  have h4 := detectTestingFramework_nonneg files
  exact weighted4_nonneg h1 h2 h3 h4 (by norm_num) (by norm_num) (by norm_num) (by norm_num)

theorem GitPracticesAnalyzer.analyzeCommits_nonneg (commits : Option (List Commit)) :
    0 ≤ analyzeCommits commits := by
  unfold analyzeCommits
  split
  · exact le_refl _
  · split
    · exact le_refl _
    · exact le_max_right _ _

theorem GitPracticesAnalyzer.analyzeBranches_nonneg (branches : Option (List Branch)) :
    0 ≤ analyzeBranches branches := by
  unfold analyzeBranches
  split
  · norm_num
  · split
    · norm_num
    · exact le_max_right _ _

theorem GitPracticesAnalyzer.analyzePullRequests_nonneg (prs : Option PullRequests)
    (commits : Option (List Commit)) : 0 ≤ analyzePullRequests prs commits := by
  unfold analyzePullRequests
  split
  · norm_num
  · exact le_max_right _ _

theorem GitPracticesAnalyzer.gitPracticesTotal_nonneg (commits : Option (List Commit))
    (branches : Option (List Branch)) (prs : Option PullRequests) :
    0 ≤ totalScore commits branches prs := by
  unfold totalScore
  apply mathRound_nonneg
  have h1 := analyzeCommits_nonneg commits
  have h2 := analyzeBranches_nonneg branches
  have h3 := analyzePullRequests_nonneg prs commits
  exact weighted3_nonneg h1 h2 h3 (by norm_num) (by norm_num) (by norm_num)

theorem SecurityAnalyzer.securityTotal_nonneg (files : List FileEntry) : 0 ≤ totalScore files := by
  unfold totalScore
  apply mathRound_nonneg
  have h1 : 0 ≤ detectHardcodedSecrets files := by
    unfold detectHardcodedSecrets; exact le_max_right _ _
  have h2 : 0 ≤ analyzeGitignore files := by
    unfold analyzeGitignore; simp only []; split <;> norm_num
  have h3 : 0 ≤ analyzeDependencySecurity files := by
    unfold analyzeDependencySecurity; simp only []; split <;> norm_num
  exact weighted3_nonneg h1 h2 h3 (by norm_num) (by norm_num) (by norm_num)

theorem CICDAnalyzer.cicdScore_nonneg (platforms : List Str) :
    0 ≤ calculateScore platforms := by
  unfold calculateScore
  split_ifs <;> norm_num

theorem DependenciesAnalyzer.dependenciesScore_nonneg (managers frameworks : List Str) :
    0 ≤ calculateScore managers frameworks := by
  unfold calculateScore
  simp only []
  split_ifs <;> norm_num

theorem ContainerizationAnalyzer.rawScore_nonneg (files : List FileEntry) :
    0 ≤ rawScore files := by
  unfold rawScore
  simp only []
  split_ifs <;> norm_num

theorem clampedTo_min {raw dimensionMax : ℚ} (hraw : 0 ≤ raw) (hmax : 0 ≤ dimensionMax) :
    ClampedTo (min raw dimensionMax) raw dimensionMax := by
  have h0 : 0 ≤ min raw dimensionMax := le_min hraw hmax
  exact ⟨h0, min_le_right _ _, (max_eq_right h0).symm⟩

/-- The nine analyzers clamp their scores: each score lies between 0 and the
dimension maximum and, where a raw total is computed, is
`max(0, min(raw, dimensionMax))`. -/
theorem analyzer_scores_bounds (files : List FileEntry) (readme : Option Readme)
    (commits : Option (List Commit)) (branches : Option (List Branch))
    (pullRequests : Option PullRequests) :
    (0 ≤ (CodeQualityAnalyzer.analyze files).score ∧
      (CodeQualityAnalyzer.analyze files).score ≤ 20 ∧
      (if (files.filter fun f => CodeQualityAnalyzer.isCodeFile f.path).length = 0 then
        (CodeQualityAnalyzer.analyze files).score = 0
       else ClampedTo (CodeQualityAnalyzer.analyze files).score
        (CodeQualityAnalyzer.totalScore
          (files.filter fun f => CodeQualityAnalyzer.isCodeFile f.path)) 20)) ∧
    (0 ≤ (ProjectStructureAnalyzer.analyze files).score ∧
      (ProjectStructureAnalyzer.analyze files).score ≤ 15 ∧
      (if files.length = 0 then (ProjectStructureAnalyzer.analyze files).score = 0
       else ClampedTo (ProjectStructureAnalyzer.analyze files).score
        (ProjectStructureAnalyzer.totalScore files) 15)) ∧
    ClampedTo (DocumentationAnalyzer.analyze readme files).score
      (DocumentationAnalyzer.totalScore readme files) 15 ∧
    (0 ≤ (TestingAnalyzer.analyze files).score ∧
      (TestingAnalyzer.analyze files).score ≤ 12 ∧
      (if (TestingAnalyzer.findCodeFiles files).length = 0 then
        (TestingAnalyzer.analyze files).score = 0
       else ClampedTo (TestingAnalyzer.analyze files).score
        (TestingAnalyzer.totalScore files) 12)) ∧
    ClampedTo (GitPracticesAnalyzer.analyze commits branches pullRequests).score
      (GitPracticesAnalyzer.totalScore commits branches pullRequests) 12 ∧
    ClampedTo (SecurityAnalyzer.analyze files readme).score
      (SecurityAnalyzer.totalScore files) 10 ∧
    ClampedTo (CICDAnalyzer.analyze files).score
      (CICDAnalyzer.calculateScore (CICDAnalyzer.detectCICDPlatforms files)) 8 ∧
    ClampedTo (DependenciesAnalyzer.analyze files).score
      (DependenciesAnalyzer.calculateScore (DependenciesAnalyzer.detectPackageManagers files)
        (DependenciesAnalyzer.detectFrameworks files)) 5 ∧
    ClampedTo (ContainerizationAnalyzer.analyze files).score
      (ContainerizationAnalyzer.rawScore files) 3 := by
  refine ⟨?_, ?_, ?_, ?_, ?_, ?_, ?_, ?_, ?_⟩
  · unfold CodeQualityAnalyzer.analyze
    simp only []
    split_ifs with h
    · norm_num
    · have hc := clampedTo_min (CodeQualityAnalyzer.codeQualityTotal_nonneg
        (files.filter fun f => CodeQualityAnalyzer.isCodeFile f.path)) (by norm_num : (0 : ℚ) ≤ 20)
      exact ⟨hc.1, hc.2.1, hc⟩
  · unfold ProjectStructureAnalyzer.analyze
    split_ifs with h
    · norm_num
    · have hc := clampedTo_min (ProjectStructureAnalyzer.structureTotal_nonneg files)
        (by norm_num : (0 : ℚ) ≤ 15)
      exact ⟨hc.1, hc.2.1, hc⟩
  · exact clampedTo_min (DocumentationAnalyzer.documentationTotal_nonneg readme files) (by norm_num)
  · unfold TestingAnalyzer.analyze
    simp only []
    split_ifs with h
    · norm_num
    · have hc := clampedTo_min (TestingAnalyzer.testingTotal_nonneg files)
        (by norm_num : (0 : ℚ) ≤ 12)
      exact ⟨hc.1, hc.2.1, hc⟩
  · exact clampedTo_min (GitPracticesAnalyzer.gitPracticesTotal_nonneg commits branches pullRequests)
      (by norm_num)
  · exact clampedTo_min (SecurityAnalyzer.securityTotal_nonneg files) (by norm_num)
  · exact clampedTo_min (CICDAnalyzer.cicdScore_nonneg _) (by norm_num)
  · exact clampedTo_min (DependenciesAnalyzer.dependenciesScore_nonneg _ _) (by norm_num)
  · exact clampedTo_min (ContainerizationAnalyzer.rawScore_nonneg files) (by norm_num)

/-- C1: on every snapshot each of the nine analyzers returns a score between 0
and its dimension maximum (20, 15, 15, 12, 12, 10, 8, 5, 3), and where the
analyzer computes a raw total the score is `max(0, min(raw, dimensionMax))`; the
early returns of the code quality, project structure and testing analyzers give
the score 0. -/
theorem analyzer_scores_clamped (files : List FileEntry) (readme : Option Readme)
    (commits : Option (List Commit)) (branches : Option (List Branch))
    (pullRequests : Option PullRequests) :
    (0 ≤ (CodeQualityAnalyzer.analyze files).score ∧
      (CodeQualityAnalyzer.analyze files).score ≤ 20 ∧
      (if (files.filter fun f => CodeQualityAnalyzer.isCodeFile f.path).length = 0 then
        (CodeQualityAnalyzer.analyze files).score = 0
       else ClampedTo (CodeQualityAnalyzer.analyze files).score
        (CodeQualityAnalyzer.totalScore
          (files.filter fun f => CodeQualityAnalyzer.isCodeFile f.path)) 20)) ∧
    (0 ≤ (ProjectStructureAnalyzer.analyze files).score ∧
      (ProjectStructureAnalyzer.analyze files).score ≤ 15 ∧
      (if files.length = 0 then (ProjectStructureAnalyzer.analyze files).score = 0
       else ClampedTo (ProjectStructureAnalyzer.analyze files).score
        (ProjectStructureAnalyzer.totalScore files) 15)) ∧
    ClampedTo (DocumentationAnalyzer.analyze readme files).score
      (DocumentationAnalyzer.totalScore readme files) 15 ∧
    (0 ≤ (TestingAnalyzer.analyze files).score ∧
      (TestingAnalyzer.analyze files).score ≤ 12 ∧
      (if (TestingAnalyzer.findCodeFiles files).length = 0 then
        (TestingAnalyzer.analyze files).score = 0
       else ClampedTo (TestingAnalyzer.analyze files).score
        (TestingAnalyzer.totalScore files) 12)) ∧
    ClampedTo (GitPracticesAnalyzer.analyze commits branches pullRequests).score
      (GitPracticesAnalyzer.totalScore commits branches pullRequests) 12 ∧
    ClampedTo (SecurityAnalyzer.analyze files readme).score
      (SecurityAnalyzer.totalScore files) 10 ∧
    ClampedTo (CICDAnalyzer.analyze files).score
      (CICDAnalyzer.calculateScore (CICDAnalyzer.detectCICDPlatforms files)) 8 ∧
    ClampedTo (DependenciesAnalyzer.analyze files).score
      (DependenciesAnalyzer.calculateScore (DependenciesAnalyzer.detectPackageManagers files)
        (DependenciesAnalyzer.detectFrameworks files)) 5 ∧
    ClampedTo (ContainerizationAnalyzer.analyze files).score
      (ContainerizationAnalyzer.rawScore files) 3 :=
  analyzer_scores_bounds files readme commits branches pullRequests

theorem Run.bind_ok {α β : Type} {x : Run α} {f : α → Run β} {log log' : List Event} {b : β}
    (h : Run.bind x f log = (.ok b, log')) :
    ∃ a l, x log = (.ok a, l) ∧ f a l = (.ok b, log') := by
  unfold Run.bind at h
  split at h
  · rename_i a l heq
    exact ⟨a, l, heq, h⟩
  · simp at h

theorem Run.call_ok {α : Type} {ev : Event} {o : Except Str α} {log l : List Event} {a : α}
    (h : Run.call ev o log = (.ok a, l)) : o = .ok a := by
  unfold Run.call at h
  simp only [Prod.mk.injEq] at h
  exact h.1

theorem Run.calls_ok {α : Type} {evs : List Event} {o : Except Str α} {log l : List Event} {a : α}
    (h : Run.calls evs o log = (.ok a, l)) : o = .ok a := by
  unfold Run.calls at h
  simp only [Prod.mk.injEq] at h
  exact h.1

theorem Run.pure_ok {α : Type} {a b : α} {log l : List Event}
    (h : (pure a : Run α) log = (.ok b, l)) : a = b := by
  simp only [pure, Run.pure, Prod.mk.injEq, Except.ok.injEq] at h
  exact h.1

theorem promiseAll4_ok {α β γ δ : Type} {a : Except Str α} {b : Except Str β}
    {c : Except Str γ} {d : Except Str δ} {x : α} {y : β} {z : γ} {w : δ}
    (h : promiseAll4 a b c d = .ok (x, y, z, w)) :
    a = .ok x ∧ b = .ok y ∧ c = .ok z ∧ d = .ok w := by
  cases a <;> cases b <;> cases c <;> cases d <;> simp_all [promiseAll4]

theorem analyzeSteps_ok {s : Services} {a : Analyzers} {ai : AIService}
    {repoUrl owner repo : Str} {analysisId : Nat} {log0 log : List Event} {res : AnalysisResult}
    (h : analyzeSteps s a ai repoUrl owner repo analysisId log0 = (.ok res, log)) :
    ∃ repoData files readme commits branches pullRequests results,
      s.getRepository owner repo = .ok repoData ∧
      s.getFileTree owner repo repoData.defaultBranch = .ok files ∧
      s.getReadme owner repo = .ok readme ∧
      s.getCommits owner repo 500 = .ok commits ∧
      s.getBranches owner repo = .ok branches ∧
      s.getPullRequests owner repo = .ok pullRequests ∧
      runAnalyzers a files readme commits branches pullRequests = .ok results ∧
      res.score = totalScore results ∧
      res.metrics =
        { codeQuality := results.codeQualityResult.score
          projectStructure := results.structureResult.score
          documentation := results.documentationResult.score
          testing := results.testingResult.score
          gitPractices := results.gitPracticesResult.score
          security := results.securityResult.score
          cicd := results.cicdResult.score
          dependencies := results.dependenciesResult.score
          containerization := results.containerizationResult.score } := by
  unfold analyzeSteps at h
  simp only [bind] at h
  have h' := Run.bind_ok h; clear h; obtain ⟨_, _, -, h⟩ := h'
  have h' := Run.bind_ok h; clear h; obtain ⟨repoData, _, h1, h⟩ := h'
  have h' := Run.bind_ok h; clear h; obtain ⟨_, _, -, h⟩ := h'
  have h' := Run.bind_ok h; clear h; obtain ⟨files, _, h2, h⟩ := h'
  have h' := Run.bind_ok h; clear h; obtain ⟨_, _, -, h⟩ := h'
  have h' := Run.bind_ok h; clear h; obtain ⟨readme, _, h3, h⟩ := h'
  have h' := Run.bind_ok h; clear h; obtain ⟨_, _, -, h⟩ := h'
  have h' := Run.bind_ok h; clear h; obtain ⟨commits, _, h4, h⟩ := h'
  have h' := Run.bind_ok h; clear h; obtain ⟨_, _, -, h⟩ := h'
  have h' := Run.bind_ok h; clear h
  obtain ⟨⟨branches, pullRequests, languages, contributors⟩, _, h5, h⟩ := h'
  simp only [] at h
  have h' := Run.bind_ok h; clear h; obtain ⟨_, _, -, h⟩ := h'
  have h' := Run.bind_ok h; clear h; obtain ⟨results, _, h6, h⟩ := h'
  have h' := Run.bind_ok h; clear h; obtain ⟨_, _, -, h⟩ := h'
  have h' := Run.bind_ok h; clear h; obtain ⟨_, _, -, h⟩ := h'
  have h' := Run.bind_ok h; clear h; obtain ⟨summary, _, -, h⟩ := h'
  have h' := Run.bind_ok h; clear h; obtain ⟨_, _, -, h⟩ := h'
  have h' := Run.bind_ok h; clear h; obtain ⟨roadmap, _, -, h⟩ := h'
  have h' := Run.bind_ok h; clear h; obtain ⟨_, _, -, h⟩ := h'
  have h' := Run.bind_ok h; clear h; obtain ⟨_, _, -, h⟩ := h'
  have h' := Run.bind_ok h; clear h; obtain ⟨_, _, -, h⟩ := h'
  have hres := Run.pure_ok h
  have h5' := promiseAll4_ok (Run.calls_ok h5)
  refine ⟨repoData, files, readme, commits, branches, pullRequests, results,
    Run.call_ok h1, Run.call_ok h2, Run.call_ok h3, Run.call_ok h4, ?_, ?_, Run.call_ok h6, ?_, ?_⟩
  · exact h5'.1
  · exact h5'.2.1
  · rw [← hres]
  · rw [← hres]

theorem isInteger_add {x y : ℚ} (hx : IsInteger x) (hy : IsInteger y) : IsInteger (x + y) := by
  obtain ⟨m, rfl⟩ := hx
  obtain ⟨n, rfl⟩ := hy
  exact ⟨m + n, by push_cast; rfl⟩

theorem isInteger_lit (n : ℕ) [n.AtLeastTwo] : IsInteger (OfNat.ofNat n : ℚ) :=
  ⟨(OfNat.ofNat n : ℕ), by simp⟩

theorem isInteger_zero : IsInteger 0 := ⟨0, by simp⟩

theorem isInteger_one : IsInteger 1 := ⟨1, by simp⟩

theorem mathRound_of_isInteger {x : ℚ} (h : IsInteger x) : mathRound x = x := by
  obtain ⟨n, rfl⟩ := h
  exact mathRound_intCast n

theorem CodeQualityAnalyzer.codeQualityScore_isInteger (files : List FileEntry) :
    IsInteger (analyze files).score := by
  unfold analyze
  simp only []
  split_ifs
  · exact isInteger_zero
  · exact isInteger_min (isInteger_mathRound _) (isInteger_lit 20)

theorem ProjectStructureAnalyzer.structureScore_isInteger (files : List FileEntry) :
    IsInteger (analyze files).score := by
  unfold analyze
  split_ifs
  · exact isInteger_zero
  · exact isInteger_min (isInteger_mathRound _) (isInteger_lit 15)

theorem DocumentationAnalyzer.documentationScore_isInteger (readme : Option Readme)
    (files : List FileEntry) : IsInteger (analyze readme files).score :=
  isInteger_min (isInteger_mathRound _) (isInteger_lit 15)

theorem TestingAnalyzer.testingScore_isInteger (files : List FileEntry) :
    IsInteger (analyze files).score := by
  unfold analyze
  simp only []
  split_ifs
  · exact isInteger_zero
  · exact isInteger_min (isInteger_mathRound _) (isInteger_lit 12)

theorem GitPracticesAnalyzer.gitPracticesScore_isInteger (commits : Option (List Commit))
    (branches : Option (List Branch)) (prs : Option PullRequests) :
    IsInteger (analyze commits branches prs).score :=
  isInteger_min (isInteger_mathRound _) (isInteger_lit 12)

theorem SecurityAnalyzer.securityScore_isInteger (files : List FileEntry) (readme : Option Readme) :
    IsInteger (analyze files readme).score :=
  isInteger_min (isInteger_mathRound _) (isInteger_lit 10)

theorem CICDAnalyzer.cicdScore_isInteger (files : List FileEntry) :
    IsInteger (analyze files).score := by
  unfold analyze
  simp only []
  refine isInteger_min ?_ (isInteger_lit 8)
  unfold calculateScore
  split_ifs <;>
    repeat' first
      | exact isInteger_zero
      | exact isInteger_lit _
      | apply isInteger_add

theorem DependenciesAnalyzer.dependenciesScore_isInteger (files : List FileEntry) :
    IsInteger (analyze files).score := by
  unfold analyze
  simp only []
  refine isInteger_min ?_ (isInteger_lit 5)
  unfold calculateScore
  simp only []
  split_ifs <;>
    repeat' first
      | exact isInteger_zero
      | exact isInteger_lit _
      | apply isInteger_add

theorem ContainerizationAnalyzer.containerizationScore_isInteger (files : List FileEntry) :
    IsInteger (analyze files).score := by
  unfold analyze
  refine isInteger_min ?_ (isInteger_lit 3)
  unfold rawScore
  simp only []
  split_ifs <;>
    repeat' first
      | exact isInteger_zero
      | exact isInteger_one
      | exact isInteger_lit _
      | apply isInteger_add

theorem runAnalyzers_analyzers (files : List FileEntry) (readme : Option Readme)
    (commits : List Commit) (branches : List Branch) (pullRequests : PullRequests) :
    runAnalyzers analyzers files readme commits branches pullRequests =
      .ok { codeQualityResult := CodeQualityAnalyzer.analyze files
            structureResult := ProjectStructureAnalyzer.analyze files
            documentationResult := DocumentationAnalyzer.analyze readme files
            testingResult := TestingAnalyzer.analyze files
            gitPracticesResult :=
              GitPracticesAnalyzer.analyze (some commits) (some branches) (some pullRequests)
            securityResult := SecurityAnalyzer.analyze files readme
            cicdResult := CICDAnalyzer.analyze files
            dependenciesResult := DependenciesAnalyzer.analyze files
            containerizationResult := ContainerizationAnalyzer.analyze files } := rfl

/-- C2: when an analysis of the orchestrator completes, the nine scores it
reports are the scores of the nine analyzers on the snapshot that was fetched,
each of them is an integer, the composite score is their plain sum (the final
`Math.round` changes nothing and no weight is applied) and it lies between 0 and
100. -/
theorem composite_score_is_sum (s : Services) (ai : AIService) (repoUrl : Str)
    (res : AnalysisResult)
    (h : (analyzeRepository s analyzers ai repoUrl).1 = .ok res) :
    ∃ owner repo repoData files readme commits branches pullRequests,
      parseGitHubUrl repoUrl = .ok (owner, repo) ∧
      s.getRepository owner repo = .ok repoData ∧
      s.getFileTree owner repo repoData.defaultBranch = .ok files ∧
      s.getReadme owner repo = .ok readme ∧
      s.getCommits owner repo 500 = .ok commits ∧
      s.getBranches owner repo = .ok branches ∧
      s.getPullRequests owner repo = .ok pullRequests ∧
      res.metrics =
        { codeQuality := (CodeQualityAnalyzer.analyze files).score
          projectStructure := (ProjectStructureAnalyzer.analyze files).score
          documentation := (DocumentationAnalyzer.analyze readme files).score
          testing := (TestingAnalyzer.analyze files).score
          gitPractices :=
            (GitPracticesAnalyzer.analyze (some commits) (some branches)
              (some pullRequests)).score
          security := (SecurityAnalyzer.analyze files readme).score
          cicd := (CICDAnalyzer.analyze files).score
          dependencies := (DependenciesAnalyzer.analyze files).score
          containerization := (ContainerizationAnalyzer.analyze files).score } ∧
      (IsInteger res.metrics.codeQuality ∧ IsInteger res.metrics.projectStructure ∧
        IsInteger res.metrics.documentation ∧ IsInteger res.metrics.testing ∧
        IsInteger res.metrics.gitPractices ∧ IsInteger res.metrics.security ∧
        IsInteger res.metrics.cicd ∧ IsInteger res.metrics.dependencies ∧
        IsInteger res.metrics.containerization) ∧
      res.score =
        res.metrics.codeQuality + res.metrics.projectStructure + res.metrics.documentation +
          res.metrics.testing + res.metrics.gitPractices + res.metrics.security +
          res.metrics.cicd + res.metrics.dependencies + res.metrics.containerization ∧
      0 ≤ res.score ∧ res.score ≤ 100 := by
  unfold analyzeRepository at h
  split at h
  · simp at h
  · rename_i owner repo hurl
    split at h
    · simp at h
    · rename_i analysisId hcreate
      split at h
      · rename_i result log hsteps
        simp only [Except.ok.injEq] at h
        subst h
        obtain ⟨repoData, files, readme, commits, branches, pullRequests, results, h1, h2, h3,
          h4, h5, h6, h7, hscore, hmetrics⟩ := analyzeSteps_ok hsteps
        rw [runAnalyzers_analyzers] at h7
        simp only [Except.ok.injEq] at h7
        subst h7
        have i1 := CodeQualityAnalyzer.codeQualityScore_isInteger files
        have i2 := ProjectStructureAnalyzer.structureScore_isInteger files
        have i3 := DocumentationAnalyzer.documentationScore_isInteger readme files
        have i4 := TestingAnalyzer.testingScore_isInteger files
        have i5 := GitPracticesAnalyzer.gitPracticesScore_isInteger (some commits) (some branches)
          (some pullRequests)
        have i6 := SecurityAnalyzer.securityScore_isInteger files readme
        have i7 := CICDAnalyzer.cicdScore_isInteger files
        have i8 := DependenciesAnalyzer.dependenciesScore_isInteger files
        have i9 := ContainerizationAnalyzer.containerizationScore_isInteger files
        have hb := analyzer_scores_bounds files readme (some commits) (some branches)
          (some pullRequests)
        obtain ⟨⟨a1, b1, -⟩, ⟨a2, b2, -⟩, ⟨a3, b3, -⟩, ⟨a4, b4, -⟩, ⟨a5, b5, -⟩, ⟨a6, b6, -⟩,
          ⟨a7, b7, -⟩, ⟨a8, b8, -⟩, ⟨a9, b9, -⟩⟩ := hb
        have hsum : result.score =
            (CodeQualityAnalyzer.analyze files).score +
            (ProjectStructureAnalyzer.analyze files).score +
            (DocumentationAnalyzer.analyze readme files).score +
            (TestingAnalyzer.analyze files).score +
            (GitPracticesAnalyzer.analyze (some commits) (some branches)
              (some pullRequests)).score +
            (SecurityAnalyzer.analyze files readme).score +
            (CICDAnalyzer.analyze files).score +
            (DependenciesAnalyzer.analyze files).score +
            (ContainerizationAnalyzer.analyze files).score := by
          rw [hscore]
          unfold totalScore
          exact mathRound_of_isInteger
            (isInteger_add (isInteger_add (isInteger_add (isInteger_add (isInteger_add
              (isInteger_add (isInteger_add (isInteger_add i1 i2) i3) i4) i5) i6) i7) i8) i9)
        refine ⟨owner, repo, repoData, files, readme, commits, branches, pullRequests, hurl,
          h1, h2, h3, h4, h5, h6, hmetrics, ?_, ?_, ?_, ?_⟩
        · rw [hmetrics]
          exact ⟨i1, i2, i3, i4, i5, i6, i7, i8, i9⟩
        · rw [hmetrics]
          exact hsum
        · rw [hsum]
          linarith
        · rw [hsum]
          linarith
      · split at h <;> simp at h

/-- Witness of C2: the analysis of `smallProject` completes with the composite
score 63, the sum of its nine scores. -/
theorem composite_score_is_sum_witness :
    (analyzeRepository (sampleServices smallProject) analyzers offlineAI sampleUrl).1 =
        .ok smallProjectResult ∧
      smallProjectResult.score = 20 + 13 + 3 + 9 + 2 + 3 + 8 + 3 + 2 ∧
      0 ≤ smallProjectResult.score ∧ smallProjectResult.score ≤ 100 := by
  have h : (analyzeRepository (sampleServices smallProject) analyzers offlineAI sampleUrl).1 =
      .ok smallProjectResult := by decide!
  obtain ⟨_, _, _, _, _, _, _, _, _, _, _, _, _, _, _, _, _, hsum, h0, h100⟩ :=
    composite_score_is_sum _ _ _ _ h
  exact ⟨h, hsum, h0, h100⟩

/-- C3: `getRating` is total with three tiers that do not overlap: scores below
41 are Beginner/Bronze, scores from 41 to 75 are Intermediate/Silver and scores
of 76 or more are Advanced/Gold; an integer score falls in exactly one tier; the
boundary values 40, 41, 75, 76 map as stated; and every score within the `min`
and `max` of a tier of `config.scoring.ratings` gets the badge of that tier. -/
theorem getRating_tiers :
    (∀ s : ℚ, s < 41 → getRating s = { rating := "Beginner".toList, badge := "Bronze".toList }) ∧
    (∀ s : ℚ, 41 ≤ s → s ≤ 75 →
      getRating s = { rating := "Intermediate".toList, badge := "Silver".toList }) ∧
    (∀ s : ℚ, 76 ≤ s → getRating s = { rating := "Advanced".toList, badge := "Gold".toList }) ∧
    (∀ n : ℤ, (n : ℚ) < 41 ∨ (41 ≤ (n : ℚ) ∧ (n : ℚ) ≤ 75) ∨ 76 ≤ (n : ℚ)) ∧
    getRating 40 = { rating := "Beginner".toList, badge := "Bronze".toList } ∧
    getRating 41 = { rating := "Intermediate".toList, badge := "Silver".toList } ∧
    getRating 75 = { rating := "Intermediate".toList, badge := "Silver".toList } ∧
    getRating 76 = { rating := "Advanced".toList, badge := "Gold".toList } ∧
    (∀ s : ℚ, config.scoring.ratings.beginner.min ≤ s → s ≤ config.scoring.ratings.beginner.max →
      (getRating s).badge = config.scoring.ratings.beginner.badge) ∧
    (∀ s : ℚ, config.scoring.ratings.intermediate.min ≤ s →
      s ≤ config.scoring.ratings.intermediate.max →
      (getRating s).badge = config.scoring.ratings.intermediate.badge) ∧
    (∀ s : ℚ, config.scoring.ratings.advanced.min ≤ s → s ≤ config.scoring.ratings.advanced.max →
      (getRating s).badge = config.scoring.ratings.advanced.badge) := by
  have low : ∀ s : ℚ, s < 41 →
      getRating s = { rating := "Beginner".toList, badge := "Bronze".toList } := by
    intro s hs
    unfold getRating
    rw [if_neg (by linarith), if_neg (by linarith)]
  have mid : ∀ s : ℚ, 41 ≤ s → s < 76 →
      getRating s = { rating := "Intermediate".toList, badge := "Silver".toList } := by
    intro s h1 h2
    unfold getRating
    rw [if_neg (by linarith), if_pos h1]
  have high : ∀ s : ℚ, 76 ≤ s →
      getRating s = { rating := "Advanced".toList, badge := "Gold".toList } := by
    intro s hs
    unfold getRating
    rw [if_pos hs]
  refine ⟨low, fun s h1 h2 => mid s h1 (by linarith), high, ?_, low 40 (by norm_num),
    mid 41 (by norm_num) (by norm_num), mid 75 (by norm_num) (by norm_num),
    high 76 (by norm_num), ?_, ?_, ?_⟩
  · intro n
    have h : n < 41 ∨ (41 ≤ n ∧ n ≤ 75) ∨ 76 ≤ n := by omega
    rcases h with h | ⟨h1, h2⟩ | h
    · left; exact_mod_cast h
    · right; left; exact ⟨by exact_mod_cast h1, by exact_mod_cast h2⟩
    · right; right; exact_mod_cast h
  · intro s _ h2
    have h2' : s ≤ 40 := h2
    rw [low s (by linarith)]
    rfl
  · intro s h1 h2
    have h1' : 41 ≤ s := h1
    have h2' : s ≤ 75 := h2
    rw [mid s h1' (by linarith)]
    rfl
  · intro s h1 _
    have h1' : 76 ≤ s := h1
    rw [high s h1']
    rfl

/-- C4: the nine weights of `config.scoring.weights` sum to 100, and the bound
each analyzer applies in its final `Math.min` is the configured weight of its
dimension (20, 15, 15, 12, 12, 10, 8, 5, 3). -/
theorem weights_sum_and_clamp_bounds (files : List FileEntry) (readme : Option Readme)
    (commits : Option (List Commit)) (branches : Option (List Branch))
    (pullRequests : Option PullRequests) :
    config.scoring.weights.codeQuality + config.scoring.weights.projectStructure +
      config.scoring.weights.documentation + config.scoring.weights.testing +
      config.scoring.weights.gitPractices + config.scoring.weights.security +
      config.scoring.weights.cicd + config.scoring.weights.dependencies +
      config.scoring.weights.containerization = 100 ∧
    config.scoring.weights =
      { codeQuality := 20, projectStructure := 15, documentation := 15, testing := 12,
        gitPractices := 12, security := 10, cicd := 8, dependencies := 5,
        containerization := 3 } ∧
    (CodeQualityAnalyzer.analyze files).score =
      (if (files.filter fun f => CodeQualityAnalyzer.isCodeFile f.path).length = 0 then 0
       else min (CodeQualityAnalyzer.totalScore
          (files.filter fun f => CodeQualityAnalyzer.isCodeFile f.path))
        config.scoring.weights.codeQuality) ∧
    (ProjectStructureAnalyzer.analyze files).score =
      (if files.length = 0 then 0
       else min (ProjectStructureAnalyzer.totalScore files)
        config.scoring.weights.projectStructure) ∧
    (DocumentationAnalyzer.analyze readme files).score =
      min (DocumentationAnalyzer.totalScore readme files) config.scoring.weights.documentation ∧
    (TestingAnalyzer.analyze files).score =
      (if (TestingAnalyzer.findCodeFiles files).length = 0 then 0
       else min (TestingAnalyzer.totalScore files) config.scoring.weights.testing) ∧
    (GitPracticesAnalyzer.analyze commits branches pullRequests).score =
      min (GitPracticesAnalyzer.totalScore commits branches pullRequests)
        config.scoring.weights.gitPractices ∧
    (SecurityAnalyzer.analyze files readme).score =
      min (SecurityAnalyzer.totalScore files) config.scoring.weights.security ∧
    (CICDAnalyzer.analyze files).score =
      min (CICDAnalyzer.calculateScore (CICDAnalyzer.detectCICDPlatforms files))
        config.scoring.weights.cicd ∧
    (DependenciesAnalyzer.analyze files).score =
      min (DependenciesAnalyzer.calculateScore (DependenciesAnalyzer.detectPackageManagers files)
        (DependenciesAnalyzer.detectFrameworks files)) config.scoring.weights.dependencies ∧
    (ContainerizationAnalyzer.analyze files).score =
      min (ContainerizationAnalyzer.rawScore files) config.scoring.weights.containerization := by
  refine ⟨by norm_num [config.scoring.weights], rfl, ?_, ?_, rfl, ?_, rfl, rfl, rfl, rfl, rfl⟩
  · unfold CodeQualityAnalyzer.analyze
    simp only []
    split_ifs <;> rfl
  · unfold ProjectStructureAnalyzer.analyze
    split_ifs <;> rfl
  · unfold TestingAnalyzer.analyze
    simp only []
    split_ifs <;> rfl

/-- C5: when `findCodeFiles` finds no code file, the testing analyzer returns
the score 0, whatever the test files of the list. -/
theorem testing_zero_without_code_files (files : List FileEntry)
    (h : TestingAnalyzer.findCodeFiles files = []) :
    (TestingAnalyzer.analyze files).score = 0 := by
  unfold TestingAnalyzer.analyze
  simp [h]

/-- Witness of C5: the list `test.spec.js`, `package.json` has a test file and no
code file, and the testing analyzer returns 0 on it. -/
theorem testing_zero_without_code_files_witness :
    TestingAnalyzer.findCodeFiles specOnlyFiles = [] ∧
      (TestingAnalyzer.findTestFiles specOnlyFiles).length = 1 ∧
      (TestingAnalyzer.analyze specOnlyFiles).score = 0 :=
  ⟨by decide, by decide, testing_zero_without_code_files specOnlyFiles (by decide)⟩

theorem SecurityAnalyzer.any_gitignore_false {files : List FileEntry}
    (h : ∀ f ∈ files, f.path ≠ ".gitignore".toList) :
    (files.any fun f => f.path = ".gitignore".toList) = false := by
  rw [List.any_eq_false]
  intro f hf
  simpa using h f hf

theorem SecurityAnalyzer.any_isEnvFile {files : List FileEntry}
    (h : ∃ f ∈ files, f.path = ".env".toList) : files.any isEnvFile = true := by
  obtain ⟨f, hf, hp⟩ := h
  rw [List.any_eq_true]
  refine ⟨f, hf, ?_⟩
  unfold isEnvFile
  rw [hp]
  decide

theorem SecurityAnalyzer.sensitive_pos {files : List FileEntry}
    (h : ∃ f ∈ files, f.path = ".env".toList) :
    (files.filter fun f =>
      SECURITY_PATTERNS.sensitiveFiles.any fun sf => includes f.path sf).length > 0 := by
  obtain ⟨f, hf, hp⟩ := h
  apply List.length_pos_of_mem (a := f)
  rw [List.mem_filter]
  refine ⟨hf, ?_⟩
  rw [hp]
  decide

/-- C6: on a file list that contains the file `.env` and no file `.gitignore`,
the issue list of the security analyzer contains the critical issue
`env_file_committed` and the high issue `missing_gitignore`, the gitignore
sub-score is 0 and the secrets sub-score is 2, below its maximum of 10. -/
theorem security_env_without_gitignore (files : List FileEntry) (readme : Option Readme)
    (henv : ∃ f ∈ files, f.path = ".env".toList)
    (hgit : ∀ f ∈ files, f.path ≠ ".gitignore".toList) :
    ∃ d, (SecurityAnalyzer.analyze files readme).details = some d ∧
      { type := "env_file_committed".toList, severity := "critical".toList } ∈
        d.securityIssues ∧
      { type := "missing_gitignore".toList, severity := "high".toList } ∈ d.securityIssues ∧
      d.gitignore = 0 ∧ d.secrets = 2 ∧ d.secrets < 10 := by
  have h1 := SecurityAnalyzer.any_gitignore_false hgit
  have h2 := SecurityAnalyzer.any_isEnvFile henv
  have h3 := SecurityAnalyzer.sensitive_pos henv
  have hs : SecurityAnalyzer.detectHardcodedSecrets files = 2 := by
    unfold SecurityAnalyzer.detectHardcodedSecrets
    simp only [h2, if_pos h3, if_true]
    norm_num
  refine ⟨_, rfl, ?_, ?_, ?_, hs, ?_⟩
  · show _ ∈ SecurityAnalyzer.collectSecurityIssues files
    unfold SecurityAnalyzer.collectSecurityIssues
    simp only [h1, h2]
    simp
  · show _ ∈ SecurityAnalyzer.collectSecurityIssues files
    unfold SecurityAnalyzer.collectSecurityIssues
    simp only [h1, h2]
    simp
  · show SecurityAnalyzer.analyzeGitignore files = 0
    unfold SecurityAnalyzer.analyzeGitignore
    simp only [h1]
    simp
  · show SecurityAnalyzer.detectHardcodedSecrets files < 10
    rw [hs]
    norm_num

/-- Witness of C6: the list `.env`, `src/app.js`. -/
theorem security_env_without_gitignore_witness :
    (∃ f ∈ envFiles, f.path = ".env".toList) ∧
      (∀ f ∈ envFiles, f.path ≠ ".gitignore".toList) ∧
      ∃ d, (SecurityAnalyzer.analyze envFiles none).details = some d ∧
        { type := "env_file_committed".toList, severity := "critical".toList } ∈
          d.securityIssues ∧
        { type := "missing_gitignore".toList, severity := "high".toList } ∈ d.securityIssues ∧
        d.gitignore = 0 ∧ d.secrets = 2 ∧ d.secrets < 10 :=
  ⟨by decide, by decide,
    security_env_without_gitignore envFiles none (by decide) (by decide)⟩

set_option maxRecDepth 100000 in
/-- C7, as stated, fails: the README `threeSectionReadme` has 1200 characters,
its recognized headers are exactly Installation, Usage and License, it has no
code block, image, link or table-of-contents mention, and `analyzeReadme`
returns 14 on it, not 15. -/
theorem analyzeReadme_three_sections_not_15 :
    jsLength threeSectionReadme.content = 1200 ∧
      DocumentationAnalyzer.extractReadmeSections (some threeSectionReadme) =
        strs ["installation", "usage", "license"] ∧
      globalMatch matchFenceAt (toLowerCase threeSectionReadme.content) = [] ∧
      globalMatch matchImageAt (toLowerCase threeSectionReadme.content) = [] ∧
      globalMatch matchLinkAt (toLowerCase threeSectionReadme.content) = [] ∧
      includes (toLowerCase threeSectionReadme.content) "table of contents".toList = false ∧
      includes (toLowerCase threeSectionReadme.content) "toc".toList = false ∧
      DocumentationAnalyzer.analyzeReadme (some threeSectionReadme) = 14 ∧
      DocumentationAnalyzer.analyzeReadme (some threeSectionReadme) ≠ 15 := by
  decide!

theorem contains_of_mem_iff {sections : List Str} {names : List Str}
    (h : ∀ s, s ∈ sections ↔ s ∈ names) (name : Str) :
    sections.contains name = names.contains name := by
  rw [Bool.eq_iff_iff]
  show List.elem name sections = true ↔ List.elem name names = true
  rw [List.elem_iff, List.elem_iff]
  exact h name

/-- C7, amended: for a README of 1200 characters whose recognized section
headers are exactly Installation, Usage and License and that has no code block,
image, link or table-of-contents mention, `analyzeReadme` returns 14 (base 5,
length tier 4, section bonuses 2, 2 and 1); the bound 15 is not reached. -/
theorem analyzeReadme_three_sections (r : Readme)
    (hlen : jsLength r.content = 1200)
    (hsec : ∀ s, s ∈ DocumentationAnalyzer.extractReadmeSections (some r) ↔
      s ∈ strs ["installation", "usage", "license"])
    (hfence : globalMatch matchFenceAt (toLowerCase r.content) = [])
    (himage : globalMatch matchImageAt (toLowerCase r.content) = [])
    (hlink : globalMatch matchLinkAt (toLowerCase r.content) = [])
    (htoc : includes (toLowerCase r.content) "table of contents".toList = false)
    (htoc' : includes (toLowerCase r.content) "toc".toList = false) :
    DocumentationAnalyzer.analyzeReadme (some r) = 14 := by
  have hne : r.content.isEmpty = false := by
    cases hc : r.content with
    | nil => rw [hc] at hlen; simp [jsLength] at hlen
    | cons c cs => rfl
  have hc := contains_of_mem_iff hsec
  have k1 : (DocumentationAnalyzer.extractReadmeSections (some r)).contains
      "installation".toList = true := by rw [hc]; decide
  have k2 : (DocumentationAnalyzer.extractReadmeSections (some r)).contains
      "setup".toList = false := by rw [hc]; decide
  have k3 : (DocumentationAnalyzer.extractReadmeSections (some r)).contains
      "getting started".toList = false := by rw [hc]; decide
  have k4 : (DocumentationAnalyzer.extractReadmeSections (some r)).contains
      "usage".toList = true := by rw [hc]; decide
  have k5 : (DocumentationAnalyzer.extractReadmeSections (some r)).contains
      "examples".toList = false := by rw [hc]; decide
  have k6 : (DocumentationAnalyzer.extractReadmeSections (some r)).contains
      "features".toList = false := by rw [hc]; decide
  have k7 : (DocumentationAnalyzer.extractReadmeSections (some r)).contains
      "documentation".toList = false := by rw [hc]; decide
  have k8 : (DocumentationAnalyzer.extractReadmeSections (some r)).contains
      "api".toList = false := by rw [hc]; decide
  have k9 : (DocumentationAnalyzer.extractReadmeSections (some r)).contains
      "contributing".toList = false := by rw [hc]; decide
  have k10 : (DocumentationAnalyzer.extractReadmeSections (some r)).contains
      "license".toList = true := by rw [hc]; decide
  have k11 : (DocumentationAnalyzer.extractReadmeSections (some r)).contains
      "tests".toList = false := by rw [hc]; decide
  have k12 : (DocumentationAnalyzer.extractReadmeSections (some r)).contains
      "testing".toList = false := by rw [hc]; decide
  unfold DocumentationAnalyzer.analyzeReadme
  simp only [hne, hlen, hfence, himage, hlink, htoc, htoc', k1, k2, k3, k4, k5, k6, k7, k8,
    k9, k10, k11, k12]
  norm_num

set_option maxRecDepth 100000 in
/-- Witness of the amended C7: the README `threeSectionReadme`. -/
theorem analyzeReadme_three_sections_witness :
    jsLength threeSectionReadme.content = 1200 ∧
      DocumentationAnalyzer.analyzeReadme (some threeSectionReadme) = 14 :=
  ⟨by decide!,
    analyzeReadme_three_sections threeSectionReadme (by decide!)
      (by
        have h : DocumentationAnalyzer.extractReadmeSections (some threeSectionReadme) =
            strs ["installation", "usage", "license"] := by decide!
        intro s
        rw [h])
      (by decide!) (by decide!) (by decide!) (by decide!) (by decide!)⟩

/-- C8: for every metrics record `generateFallbackRoadmap` returns exactly the
steps of the seven fixed rules whose trigger holds, in the fixed order testing
(score below 8), documentation (below 10), CI/CD (none detected), security
(below 7), code quality (below 14), containerization (no Dockerfile), git
workflow (below 8); the metrics with testing 3, documentation 5, no CI, security
4, quality 10, no Dockerfile and git 5 yield all seven steps in that order. -/
theorem generateFallbackRoadmap_eq_rules (metrics : Metrics) :
    AIService.generateFallbackRoadmap metrics = specFallbackRoadmap metrics ∧
    AIService.generateFallbackRoadmap weakMetrics =
      [testingItem, documentationItem, cicdItem, securityItem, codeQualityItem,
        containerizationItem, gitWorkflowItem] := by
  constructor
  · unfold AIService.generateFallbackRoadmap specFallbackRoadmap fallbackRules notFlag
    by_cases h1 : orZero metrics.testingScore < 8 <;>
    by_cases h2 : orZero metrics.documentationScore < 10 <;>
    by_cases h3 : metrics.hasCicd.getD false = true <;>
    by_cases h4 : orZero metrics.securityScore < 7 <;>
    by_cases h5 : orZero metrics.codeQualityScore < 14 <;>
    by_cases h6 : metrics.hasDockerfile.getD false = true <;>
    by_cases h7 : orZero metrics.gitPracticesScore < 8 <;>
    simp [h1, h2, h3, h4, h5, h6, h7]
  · decide!

/-- What `generateRoadmap` does when the model answers and the answer cannot be
parsed as a JSON array: it returns the template roadmap of the empty metrics
object, whatever the metrics of the repository. -/
theorem AIService.generateRoadmap_of_parse_failure (ai : AIService) (metrics : Metrics)
    (text e : Str) (havail : ai.available = true)
    (htext : AIService.generateText ai .roadmap = .ok text)
    (hparse : AIService.parseRoadmapBody ai text = .error e) :
    AIService.generateRoadmap ai metrics = .ok (AIService.generateFallbackRoadmap {}) := by
  unfold AIService.generateRoadmap AIService.parseRoadmap
  simp [havail, htext, hparse]

/-- C9, at the failing input: the model answers a repository with full marks
with text that is no JSON.  `generateRoadmap` raises no error, but it returns
the seven steps of the template roadmap of the empty metrics object, while the
template roadmap of the repository's metrics is empty. -/
theorem generateRoadmap_parse_failure_ignores_metrics :
    AIService.generateRoadmap unparseableAI perfectMetrics =
        .ok [testingItem, documentationItem, cicdItem, securityItem, codeQualityItem,
          containerizationItem, gitWorkflowItem] ∧
      AIService.generateFallbackRoadmap perfectMetrics = [] ∧
      AIService.generateRoadmap unparseableAI perfectMetrics ≠
        .ok (AIService.generateFallbackRoadmap perfectMetrics) := by
  decide!

theorem runAnalyzers_error_of_failure {a : Analyzers} {files : List FileEntry}
    {readme : Option Readme} {commits : List Commit} {branches : List Branch}
    {pullRequests : PullRequests}
    (h : SomeAnalyzerFails a files readme commits branches pullRequests) :
    ∃ e, runAnalyzers a files readme commits branches pullRequests = .error e := by
  unfold SomeAnalyzerFails at h
  unfold runAnalyzers
  split
  · rename_i h1 h2 h3 h4 h5 h6 h7 h8 h9
    simp [h1, h2, h3, h4, h5, h6, h7, h8, h9] at h
  all_goals exact ⟨_, rfl⟩

/-- C10, as stated, fails: the collaborators all answer, the testing analyzer
fails, and the analysis is not completed with a composite score: the error of
the analyzer is thrown and the record is marked as failed right after the
analyzers ran. -/
theorem analyzer_failure_not_substituted :
    analyzeRepository (sampleServices smallProject) analyzersWithFailingTesting offlineAI
        sampleUrl =
      (.error "testing analyzer failed".toList,
        callsUpToAnalyzers ++ [.failAnalysis "testing analyzer failed".toList]) := by
  decide!

/-- C10, amended: if one of the nine analyzers fails in a run whose earlier
steps all succeed, the orchestrator substitutes nothing: no composite score is
computed, the summary and roadmap steps do not run, the record is marked as
failed with the message of the error and the error is thrown (or the error
of `failAnalysis` when that call fails too). -/
theorem analyzer_failure_fails_analysis (s : Services) (a : Analyzers) (ai : AIService)
    (repoUrl owner repo : Str) (analysisId : Nat) (repoData : RepoData)
    (files : List FileEntry) (readme : Option Readme) (commits : List Commit)
    (branches : List Branch) (pullRequests : PullRequests) (languages : List (Str × ℚ))
    (contributors : List Str)
    (hurl : parseGitHubUrl repoUrl = .ok (owner, repo))
    (hcreate : s.createAnalysis repoUrl owner repo = .ok analysisId)
    (hstatus : ∀ progress, s.updateAnalysisStatus analysisId progress = .ok ())
    (hrepo : s.getRepository owner repo = .ok repoData)
    (hfiles : s.getFileTree owner repo repoData.defaultBranch = .ok files)
    (hreadme : s.getReadme owner repo = .ok readme)
    (hcommits : s.getCommits owner repo 500 = .ok commits)
    (hbranches : s.getBranches owner repo = .ok branches)
    (hprs : s.getPullRequests owner repo = .ok pullRequests)
    (hlanguages : s.getLanguages owner repo = .ok languages)
    (hcontributors : s.getContributors owner repo = .ok contributors)
    (hfail : SomeAnalyzerFails a files readme commits branches pullRequests) :
    ∃ e, runAnalyzers a files readme commits branches pullRequests = .error e ∧
      (analyzeRepository s a ai repoUrl).1 =
        (match s.failAnalysis analysisId e with
          | .ok _ => .error e
          | .error e' => .error e') ∧
      (analyzeRepository s a ai repoUrl).2 = callsUpToAnalyzers ++ [.failAnalysis e] := by
  obtain ⟨e, he⟩ := runAnalyzers_error_of_failure hfail
  refine ⟨e, he, ?_⟩
  have hsteps : analyzeSteps s a ai repoUrl owner repo analysisId [.createAnalysis] =
      (.error e, callsUpToAnalyzers) := by
    unfold analyzeSteps
    simp [bind, Run.bind, Run.call, Run.calls, Services.step, hstatus, hrepo, hfiles, hreadme,
      hcommits, hbranches, hprs, hlanguages, hcontributors, he, promiseAll4, callsUpToAnalyzers]
  unfold analyzeRepository
  simp only [hurl, hcreate, hsteps]
  cases s.failAnalysis analysisId e <;> simp

/-- Witness of the amended C10: the analysis of `smallProject` with a failing
testing analyzer. -/
theorem analyzer_failure_fails_analysis_witness :
    SomeAnalyzerFails analyzersWithFailingTesting smallProject none [] []
        { total := 0, opened := 0, closed := 0, merged := 0 } ∧
      ∃ e, (analyzeRepository (sampleServices smallProject) analyzersWithFailingTesting
          offlineAI sampleUrl).1 = .error e := by
  have hfail : SomeAnalyzerFails analyzersWithFailingTesting smallProject none [] []
      { total := 0, opened := 0, closed := 0, merged := 0 } :=
    Or.inr (Or.inr (Or.inr (Or.inl ⟨_, rfl⟩)))
  obtain ⟨e, -, h, -⟩ := analyzer_failure_fails_analysis (sampleServices smallProject)
    analyzersWithFailingTesting offlineAI sampleUrl "octo".toList "demo".toList 1
    { name := "demo".toList, owner := "octo".toList, description := [],
      language := "JavaScript".toList, stars := 0, forks := 0, openIssues := 0,
      defaultBranch := "main".toList }
    smallProject none [] [] { total := 0, opened := 0, closed := 0, merged := 0 } [] []
    (by decide) rfl (fun _ => rfl) rfl rfl rfl rfl rfl rfl rfl rfl hfail
  exact ⟨hfail, e, h⟩

theorem AIService.generateText_of_failures (ai : AIService) (kind : PromptKind)
    (h : ∀ i, i < 2 → ∃ e, ai.generateContent kind i = .error e) :
    ∃ e, AIService.generateText ai kind = .error e := by
  obtain ⟨e0, h0⟩ := h 0 (by norm_num)
  obtain ⟨e1, h1⟩ := h 1 (by norm_num)
  exact ⟨e1, by simp [AIService.generateText, retryWithBackoff, retryWithBackoffLoop, h0, h1]⟩

theorem AIService.narrative_never_raises (ai : AIService) (metrics : Metrics) :
    (∃ s, AIService.generateSummary ai metrics = .ok s) ∧
      ∃ r, AIService.generateRoadmap ai metrics = .ok r := by
  unfold AIService.generateSummary AIService.generateRoadmap
  constructor
  · split
    · exact ⟨_, rfl⟩
    · split <;> exact ⟨_, rfl⟩
  · split
    · exact ⟨_, rfl⟩
    · split <;> exact ⟨_, rfl⟩

/-- C11: when the AI model is unavailable, or each of the two attempts of its
call fails, `generateSummary` returns `generateFallbackSummary(metrics)` and
`generateRoadmap` returns `generateFallbackRoadmap(metrics)`; neither raises. -/
theorem narrative_falls_back (ai : AIService) (metrics : Metrics)
    (h : ai.available = false ∨
      ∀ kind i, i < 2 → ∃ e, ai.generateContent kind i = .error e) :
    AIService.generateSummary ai metrics = .ok (AIService.generateFallbackSummary metrics) ∧
      AIService.generateRoadmap ai metrics = .ok (AIService.generateFallbackRoadmap metrics) := by
  unfold AIService.generateSummary AIService.generateRoadmap
  rcases h with h | h
  · simp [h]
  · obtain ⟨e1, h1⟩ := AIService.generateText_of_failures ai .summary (h .summary)
    obtain ⟨e2, h2⟩ := AIService.generateText_of_failures ai .roadmap (h .roadmap)
    rw [h1, h2]
    constructor <;> split <;> rfl

/-- Witness of C11: a service without API key, and a service whose model fails
on every call. -/
theorem narrative_falls_back_witness :
    offlineAI.available = false ∧
      (∀ kind i, i < 2 → ∃ e, failingAI.generateContent kind i = .error e) ∧
      AIService.generateSummary offlineAI weakMetrics =
        .ok (AIService.generateFallbackSummary weakMetrics) ∧
      AIService.generateRoadmap failingAI weakMetrics =
        .ok (AIService.generateFallbackRoadmap weakMetrics) :=
  ⟨rfl, fun _ _ _ => ⟨_, rfl⟩,
    (narrative_falls_back offlineAI weakMetrics (Or.inl rfl)).1,
    (narrative_falls_back failingAI weakMetrics (Or.inr fun _ _ _ => ⟨_, rfl⟩)).2⟩

theorem AIService.fallback_eq_spec (metrics : Metrics) :
    AIService.generateFallbackRoadmap metrics = specFallbackRoadmap metrics := by
  unfold AIService.generateFallbackRoadmap specFallbackRoadmap fallbackRules notFlag
  by_cases h1 : orZero metrics.testingScore < 8 <;>
  by_cases h2 : orZero metrics.documentationScore < 10 <;>
  by_cases h3 : metrics.hasCicd.getD false = true <;>
  by_cases h4 : orZero metrics.securityScore < 7 <;>
  by_cases h5 : orZero metrics.codeQualityScore < 14 <;>
  by_cases h6 : metrics.hasDockerfile.getD false = true <;>
  by_cases h7 : orZero metrics.gitPracticesScore < 8 <;>
  simp [h1, h2, h3, h4, h5, h6, h7]

theorem AIService.fallback_mem_rules {metrics : Metrics} {item : RoadmapItem}
    (h : item ∈ AIService.generateFallbackRoadmap metrics) :
    item ∈ fallbackRules.map fun rule => rule.2 := by
  rw [AIService.fallback_eq_spec] at h
  unfold specFallbackRoadmap at h
  rw [List.mem_map] at h ⊢
  obtain ⟨rule, hr, rfl⟩ := h
  exact ⟨rule, (List.mem_filter.mp hr).1, rfl⟩

theorem AIService.fallback_priority_valid {metrics : Metrics} {item : RoadmapItem}
    (h : item ∈ AIService.generateFallbackRoadmap metrics) : ValidPriority item.priority := by
  have h' := AIService.fallback_mem_rules h
  simp only [fallbackRules, List.map, List.mem_cons, List.mem_singleton, List.not_mem_nil,
    or_false] at h'
  rcases h' with rfl | rfl | rfl | rfl | rfl | rfl | rfl <;> decide

theorem AIService.mapItems_priority {items : List JsItem} :
    ∀ {index : Nat} {steps : List RoadmapItem}, AIService.mapItems index items = .ok steps →
      ∀ step ∈ steps, ∃ p t d e, JsItem.value p t d e ∈ items ∧
        step.priority = p.orElse (.str "medium".toList) := by
  induction items with
  | nil =>
    intro index steps h step hs
    simp [AIService.mapItems] at h
    subst h
    simp at hs
  | cons item rest ih =>
    intro index steps h step hs
    cases item with
    | null => simp [AIService.mapItems] at h
    | value p t d e =>
      unfold AIService.mapItems at h
      split at h
      · simp at h
      · rename_i tail htail
        simp only [Except.ok.injEq] at h
        subst h
        rcases List.mem_cons.mp hs with rfl | hs'
        · exact ⟨p, t, d, e, List.mem_cons_self _ _, rfl⟩
        · obtain ⟨p', t', d', e', hm, hp⟩ := ih htail step hs'
          exact ⟨p', t', d', e', List.mem_cons_of_mem _ hm, hp⟩

/-- C12, as stated, fails: the model answers with an item of priority `urgent`,
and the roadmap returned by `generateRoadmap` keeps that priority. -/
theorem ai_roadmap_priority_not_validated :
    AIService.generateRoadmap urgentAI weakMetrics =
        .ok [{ priority := .str "urgent".toList, title := .str "Fix the build".toList,
               description := .str "No description provided".toList,
               estimatedTime := .str "2-4 hours".toList }] ∧
      ¬ ValidPriority (.str "urgent".toList) := by
  decide!

/-- C12, amended: every item of the template roadmap has a priority among high,
medium and low; an item of the AI path carries the priority the model gave, or
`medium` when that is missing or falsy, so the priorities of `parseRoadmap` are
among high, medium and low whenever those of the elements of the model's array
are (or are missing). -/
theorem roadmap_priorities (ai : AIService) (text : Str)
    (h : ∀ items, ai.JSONparse (cleanedResponse text) = .ok (.array items) →
      ∀ p t d e, JsItem.value p t d e ∈ items → p.truthy = false ∨ ValidPriority p) :
    (∀ item ∈ AIService.parseRoadmap ai text, ValidPriority item.priority) ∧
      ∀ metrics, ∀ item ∈ AIService.generateFallbackRoadmap metrics,
        ValidPriority item.priority := by
  refine ⟨?_, fun metrics item hi => AIService.fallback_priority_valid hi⟩
  intro item hi
  unfold AIService.parseRoadmap at hi
  split at hi
  · rename_i roadmap hbody
    unfold AIService.parseRoadmapBody at hbody
    simp only [] at hbody
    split at hbody
    · simp at hbody
    · simp at hbody
    · rename_i items hparse
      split at hbody
      · simp at hbody
      · rename_i steps hsteps
        simp only [Except.ok.injEq] at hbody
        subst hbody
        obtain ⟨p, t, d, e, hm, hp⟩ :=
          AIService.mapItems_priority hsteps item (List.mem_of_mem_take hi)
        rw [hp]
        unfold JsValue.orElse
        rcases h items hparse p t d e hm with hf | hv
        · rw [hf]
          simp only [Bool.false_eq_true, if_false]
          decide
        · split
          · exact hv
          · decide
  · exact AIService.fallback_priority_valid hi

/-- Witness of the amended C12: the model answers, inside a code fence, with an
array of two elements of priority `high` and none. -/
theorem roadmap_priorities_witness :
    AIService.parseRoadmap politeAI
        "```json\n[\x7b\"priority\": \"high\"\x7d, \x7b\"title\": \"Add tests\"\x7d]\n```".toList =
      [{ priority := .str "high".toList, title := .str "Improvement 1".toList,
         description := .str "No description provided".toList,
         estimatedTime := .str "2-4 hours".toList },
       { priority := .str "medium".toList, title := .str "Add tests".toList,
         description := .str "No description provided".toList,
         estimatedTime := .str "2-4 hours".toList }] ∧
      ∀ item ∈ AIService.parseRoadmap politeAI
        "```json\n[\x7b\"priority\": \"high\"\x7d, \x7b\"title\": \"Add tests\"\x7d]\n```".toList,
        ValidPriority item.priority :=
  ⟨by decide!,
    (roadmap_priorities politeAI _ (by
      intro items hitems p t d e hm
      have hi : items = [.value (.str "high".toList) .undefined .undefined .undefined,
          .value .undefined (.str "Add tests".toList) .undefined .undefined] := by
        simp only [politeAI, Except.ok.injEq, JsDoc.array.injEq] at hitems
        exact hitems.symm
      subst hi
      simp only [List.mem_cons, List.mem_singleton, JsItem.value.injEq, List.not_mem_nil,
        or_false] at hm
      rcases hm with ⟨rfl, -⟩ | ⟨rfl, -⟩
      · right; decide
      · left; rfl)).1⟩

theorem AIService.mapItems_of_no_null {items : List JsItem} (h : JsItem.null ∉ items) :
    ∀ index, AIService.mapItems index items = .ok (stepsWithDefaults index items) := by
  induction items with
  | nil => intro index; rfl
  | cons item rest ih =>
    intro index
    cases item with
    | null => simp at h
    | value p t d e =>
      have hrest : JsItem.null ∉ rest := fun hm => h (List.mem_cons_of_mem _ hm)
      unfold AIService.mapItems
      rw [ih hrest (index + 1)]
      rfl

theorem AIService.fallback_length_le (metrics : Metrics) :
    (AIService.generateFallbackRoadmap metrics).length ≤ 7 := by
  unfold AIService.generateFallbackRoadmap
  exact List.length_take_le _ _

theorem AIService.parseRoadmap_length_le (ai : AIService) (text : Str) :
    (AIService.parseRoadmap ai text).length ≤ 7 := by
  unfold AIService.parseRoadmap
  split
  · rename_i roadmap hbody
    unfold AIService.parseRoadmapBody at hbody
    simp only [] at hbody
    split at hbody
    · simp at hbody
    · simp at hbody
    · split at hbody
      · simp at hbody
      · simp only [Except.ok.injEq] at hbody
        subst hbody
        exact List.length_take_le _ _
  · exact AIService.fallback_length_le _

/-- C13, as stated, fails: the model answers with a JSON array of eight
elements whose last one is `null`; `parseRoadmap` does not return the first
seven elements with their defaults but the template roadmap of the empty metrics
object. -/
theorem parseRoadmap_null_item_falls_back :
    nullItemAI.JSONparse (cleanedResponse "[\x7b\x7d,\x7b\x7d,\x7b\x7d,\x7b\x7d,\x7b\x7d,\x7b\x7d,\x7b\x7d,null]".toList) =
        .ok (.array (List.replicate 7 (.value .undefined .undefined .undefined .undefined) ++
          [.null])) ∧
      AIService.parseRoadmap nullItemAI "[\x7b\x7d,\x7b\x7d,\x7b\x7d,\x7b\x7d,\x7b\x7d,\x7b\x7d,\x7b\x7d,null]".toList =
        [testingItem, documentationItem, cicdItem, securityItem, codeQualityItem,
          containerizationItem, gitWorkflowItem] ∧
      AIService.parseRoadmap nullItemAI "[\x7b\x7d,\x7b\x7d,\x7b\x7d,\x7b\x7d,\x7b\x7d,\x7b\x7d,\x7b\x7d,null]".toList ≠
        (stepsWithDefaults 0
          (List.replicate 7 (.value .undefined .undefined .undefined .undefined))).take 7 := by
  decide!

/-- C13, amended: the roadmaps of `parseRoadmap` and of
`generateFallbackRoadmap` have at most 7 items; when the model's answer parses
as a JSON array none of whose elements is `null`, `parseRoadmap` returns the
steps of its first 7 elements, missing fields filled by the defaults. -/
theorem roadmap_at_most_seven (ai : AIService) (text : Str) (metrics : Metrics) :
    (AIService.parseRoadmap ai text).length ≤ 7 ∧
      (AIService.generateFallbackRoadmap metrics).length ≤ 7 ∧
      ∀ items, ai.JSONparse (cleanedResponse text) = .ok (.array items) →
        JsItem.null ∉ items →
        AIService.parseRoadmap ai text = (stepsWithDefaults 0 items).take 7 := by
  refine ⟨AIService.parseRoadmap_length_le ai text, AIService.fallback_length_le metrics, ?_⟩
  intro items hparse hnull
  unfold AIService.parseRoadmap AIService.parseRoadmapBody
  have hparse' : ai.JSONparse
      (trim (AIService.removeFences "```" (AIService.removeFences "```json" text))) =
      .ok (.array items) := hparse
  simp only [hparse', AIService.mapItems_of_no_null hnull 0]

/-- Witness of the amended C13: an answer of eight empty objects gives the seven
steps `Improvement 1` to `Improvement 7`. -/
theorem roadmap_at_most_seven_witness :
    AIService.parseRoadmap eightItemAI "[\x7b\x7d,\x7b\x7d,\x7b\x7d,\x7b\x7d,\x7b\x7d,\x7b\x7d,\x7b\x7d,\x7b\x7d]".toList =
        (stepsWithDefaults 0
          (List.replicate 8 (.value .undefined .undefined .undefined .undefined))).take 7 ∧
      (AIService.parseRoadmap eightItemAI "[\x7b\x7d,\x7b\x7d,\x7b\x7d,\x7b\x7d,\x7b\x7d,\x7b\x7d,\x7b\x7d,\x7b\x7d]".toList).map
          (fun step => step.title) =
        (strs ["Improvement 1", "Improvement 2", "Improvement 3", "Improvement 4",
          "Improvement 5", "Improvement 6", "Improvement 7"]).map JsValue.str :=
  ⟨(roadmap_at_most_seven eightItemAI _ {}).2.2 _ rfl (by decide), by decide!⟩

theorem le_mathRound {x : ℚ} {n : ℤ} (h : (n : ℚ) - 1 / 2 ≤ x) : (n : ℚ) ≤ mathRound x := by
  unfold mathRound
  have h' : n ≤ ⌊x + 1 / 2⌋ := Int.le_floor.mpr (by linarith)
  exact_mod_cast h'

theorem clamp_ge {s c m : ℚ} (hs : c ≤ s) (hm : c ≤ m) : c ≤ max (min s m) 0 :=
  le_max_of_le_left (le_min hs hm)

theorem TestingAnalyzer.analyzeTestPresence_ge {testFiles codeFiles : List FileEntry}
    (h : testFiles ≠ []) : 7 ≤ analyzeTestPresence testFiles codeFiles := by
  have hlen : testFiles.length ≥ 1 := List.length_pos.mpr h
  have hne : testFiles.length ≠ 0 := by omega
  unfold analyzeTestPresence
  rw [if_neg hne]
  simp only [hlen, if_true]
  apply clamp_ge _ (by norm_num)
  split_ifs <;> norm_num

set_option maxHeartbeats 2000000 in
theorem TestingAnalyzer.analyzeTestOrganization_ge {testFiles : List FileEntry}
    (h : testFiles ≠ []) : 5 ≤ analyzeTestOrganization testFiles := by
  have hne : testFiles.length ≠ 0 := by
    have := List.length_pos.mpr h
    omega
  unfold analyzeTestOrganization
  rw [if_neg hne]
  apply clamp_ge _ (by norm_num)
  split_ifs <;> norm_num

/-- C14, as stated, fails: the list `test.spec.js`, `package.json` contains a
test file, and the testing analyzer returns 0 on it because it holds no code
file. -/
theorem testing_score_zero_with_test_file :
    (TestingAnalyzer.findTestFiles specOnlyFiles).map (fun f => f.path) =
        ["test.spec.js".toList] ∧
      (TestingAnalyzer.analyze specOnlyFiles).score = 0 := by
  decide!

/-- C14, amended: on every file list that contains at least one test file and
at least one code file, the testing analyzer returns a score greater than 0 (at
least 3). -/
theorem testing_score_pos (files : List FileEntry)
    (htest : TestingAnalyzer.findTestFiles files ≠ [])
    (hcode : TestingAnalyzer.findCodeFiles files ≠ []) :
    0 < (TestingAnalyzer.analyze files).score ∧ 3 ≤ (TestingAnalyzer.analyze files).score := by
  have hne : (TestingAnalyzer.findCodeFiles files).length ≠ 0 := by
    have := List.length_pos.mpr hcode
    omega
  have h3 : 3 ≤ (TestingAnalyzer.analyze files).score := by
    unfold TestingAnalyzer.analyze
    simp only [if_neg hne]
    apply le_min _ (by norm_num)
    unfold TestingAnalyzer.totalScore
    have h1 := @TestingAnalyzer.analyzeTestPresence_ge _ (TestingAnalyzer.findCodeFiles files) htest
    have h2 := TestingAnalyzer.estimateTestCoverage_nonneg (TestingAnalyzer.findTestFiles files)
      (TestingAnalyzer.findCodeFiles files)
    have h3 := TestingAnalyzer.analyzeTestOrganization_ge htest
    have h4 := TestingAnalyzer.detectTestingFramework_nonneg files
    have hw := weighted4_ge (l := 7) (m := 0) (n := 5) (o := 0)
      (by norm_num) h1 (by norm_num : (0 : ℚ) ≤ 0.35)
      le_rfl h2 (by norm_num : (0 : ℚ) ≤ 0.35)
      (by norm_num) h3 (by norm_num : (0 : ℚ) ≤ 0.15)
      le_rfl h4 (by norm_num : (0 : ℚ) ≤ 0.15)
    have := le_mathRound (n := 3) (le_trans (by norm_num) hw)
    exact_mod_cast this
  exact ⟨by linarith, h3⟩

/-- Witness of the amended C14: the project `smallProject` has the test file
`src/__tests__/app.test.js` and the code file `src/app.js`; its testing score
is 9. -/
theorem testing_score_pos_witness :
    TestingAnalyzer.findTestFiles smallProject ≠ [] ∧
      TestingAnalyzer.findCodeFiles smallProject ≠ [] ∧
      0 < (TestingAnalyzer.analyze smallProject).score ∧
      (TestingAnalyzer.analyze smallProject).score = 9 :=
  ⟨by decide, by decide, (testing_score_pos smallProject (by decide) (by decide)).1, by decide!⟩

/-- C15, as stated, fails: the list holds a `.gitignore` file in the directory
`backend`, and the gitignore sub-score is 0. -/
theorem gitignore_in_subdirectory_scores_zero :
    (nestedGitignoreFiles.map fun f => path.basename f.path).contains ".gitignore".toList = true ∧
      SecurityAnalyzer.analyzeGitignore nestedGitignoreFiles = 0 := by
  decide!

/-- C15, amended: the gitignore sub-score of the security analyzer is 10 if the
snapshot contains a file whose path is exactly `.gitignore` (the file at the
root of the repository) and 0 otherwise, also when a `.gitignore` lies in a
subdirectory only; no other value is returned. -/
theorem analyzeGitignore_binary (files : List FileEntry) (readme : Option Readme) :
    SecurityAnalyzer.analyzeGitignore files =
        (if ∃ f ∈ files, f.path = ".gitignore".toList then 10 else 0) ∧
      (SecurityAnalyzer.analyzeGitignore files = 0 ∨
        SecurityAnalyzer.analyzeGitignore files = 10) ∧
      ∃ d, (SecurityAnalyzer.analyze files readme).details = some d ∧
        d.gitignore = SecurityAnalyzer.analyzeGitignore files := by
  have h : SecurityAnalyzer.analyzeGitignore files =
      (if ∃ f ∈ files, f.path = ".gitignore".toList then 10 else 0) := by
    unfold SecurityAnalyzer.analyzeGitignore
    by_cases hex : ∃ f ∈ files, f.path = ".gitignore".toList
    · have hany : (files.any fun f => f.path = ".gitignore".toList) = true := by
        rw [List.any_eq_true]
        obtain ⟨f, hf, hp⟩ := hex
        exact ⟨f, hf, by simpa using hp⟩
      simp only [hany, if_pos hex]
      simp
    · have hany : (files.any fun f => f.path = ".gitignore".toList) = false := by
        rw [List.any_eq_false]
        intro f hf
        have : f.path ≠ ".gitignore".toList := fun hp => hex ⟨f, hf, hp⟩
        simpa using this
      simp only [hany, if_neg hex]
      simp
  refine ⟨h, ?_, _, rfl, rfl⟩
  rw [h]
  split_ifs
  · right; rfl
  · left; rfl

/-- C16, at the failing input: the file `tests/app.js` lies under the
root-level directory `tests`, and `findTestFiles` does not identify it because
each directory pattern starts with a slash; the same file one level down is
identified, and the project structure analyzer recognizes the root-level
directory. -/
theorem findTestFiles_misses_root_test_directory :
    TestingAnalyzer.findTestFiles rootTestsFiles = [] ∧
      TestingAnalyzer.isTestFile "tests/app.js".toList = false ∧
      TestingAnalyzer.isTestFile "test/app.js".toList = false ∧
      TestingAnalyzer.isTestFile "__tests__/app.js".toList = false ∧
      TestingAnalyzer.isTestFile "spec/app.js".toList = false ∧
      TestingAnalyzer.isTestFile "src/tests/app.js".toList = true ∧
      ProjectStructureAnalyzer.inTestDir "tests/app.js".toList = true := by
  decide

/-- C17, at the failing input: `findTestFiles` identifies neither
`src/main/UserServiceTest.java` nor `Project/ParserTests.cs`: the suffixes
`Test.java` and `Tests.cs` are compared with the lower-cased path. -/
theorem findTestFiles_misses_language_suffixes :
    TestingAnalyzer.findTestFiles javaTestFiles = [] ∧
      TestingAnalyzer.isTestFile "src/main/UserServiceTest.java".toList = false ∧
      endsWith "src/main/UserServiceTest.java".toList "Test.java".toList = true ∧
      endsWith (toLowerCase "src/main/UserServiceTest.java".toList) "Test.java".toList = false ∧
      TestingAnalyzer.isTestFile "Project/ParserTests.cs".toList = false := by
  decide

set_option maxRecDepth 100000 in
/-- C18, at the failing input: a README whose only header is `Testing` has no
recognized section and scores 7 (base 5, length tier 2), without the testing
bonus; the same README with the header `Tests` has the section `tests` and
scores 8.  The vocabulary `README_SECTIONS` holds `Tests` and not `Testing`. -/
theorem testing_header_not_recognized :
    DocumentationAnalyzer.extractReadmeSections (some testingReadme) = [] ∧
      DocumentationAnalyzer.analyzeReadme (some testingReadme) = 7 ∧
      DocumentationAnalyzer.extractReadmeSections (some testsReadme) = ["tests".toList] ∧
      DocumentationAnalyzer.analyzeReadme (some testsReadme) = 8 ∧
      README_SECTIONS.contains "Testing".toList = false := by
  decide!

/-- C19, at the failing input: in the README `#`, `Installation` (two lines) no
markdown header line holds a vocabulary entry, and `extractReadmeSections`
reports `installation`: the white space after the `#` of the pattern runs over
the line break, so the second line is taken as the header text. -/
theorem extractReadmeSections_reads_past_line_break :
    splitLines (toLowerCase bareHashReadme.content) = ["#".toList, "installation".toList] ∧
      (splitLines (toLowerCase bareHashReadme.content)).filterMap headerLineText = [] ∧
      specReadmeSections (some bareHashReadme) = [] ∧
      globalMatch matchHeaderAt (toLowerCase bareHashReadme.content) =
        ["#\ninstallation".toList] ∧
      DocumentationAnalyzer.extractReadmeSections (some bareHashReadme) =
        ["installation".toList] := by
  decide

theorem setOf_foldl_mem {α : Type} [DecidableEq α] (xs : List α) :
    ∀ (acc : List α) (x : α),
      x ∈ xs.foldl (fun acc x => if x ∈ acc then acc else acc ++ [x]) acc ↔ x ∈ acc ∨ x ∈ xs := by
  induction xs with
  | nil => intro acc x; simp
  | cons y ys ih =>
    intro acc x
    rw [List.foldl_cons, ih]
    by_cases hy : y ∈ acc
    · rw [if_pos hy]
      constructor
      · rintro (h | h)
        · exact Or.inl h
        · exact Or.inr (List.mem_cons_of_mem _ h)
      · rintro (h | h)
        · exact Or.inl h
        · rcases List.mem_cons.mp h with rfl | h
          · exact Or.inl hy
          · exact Or.inr h
    · rw [if_neg hy]
      simp only [List.mem_append, List.mem_singleton, List.mem_cons]
      tauto

theorem mem_setOf {α : Type} [DecidableEq α] {xs : List α} {x : α} : x ∈ setOf xs ↔ x ∈ xs := by
  unfold setOf
  rw [setOf_foldl_mem]
  simp

theorem setOf_foldl_nodup {α : Type} [DecidableEq α] (xs : List α) :
    ∀ acc : List α, acc.Nodup →
      (xs.foldl (fun acc x => if x ∈ acc then acc else acc ++ [x]) acc).Nodup := by
  induction xs with
  | nil => intro acc h; simpa using h
  | cons y ys ih =>
    intro acc h
    rw [List.foldl_cons]
    apply ih
    by_cases hy : y ∈ acc
    · rwa [if_pos hy]
    · rw [if_neg hy]
      rw [List.nodup_append]
      refine ⟨h, List.nodup_singleton _, ?_⟩
      intro a ha hb
      rw [List.mem_singleton] at hb
      subst hb
      exact hy ha

theorem nodup_setOf {α : Type} [DecidableEq α] (xs : List α) : (setOf xs).Nodup :=
  setOf_foldl_nodup xs [] List.nodup_nil

/-- What holds of `extractReadmeSections`: its result is free of duplicates and
empty for an absent or empty README. -/
theorem DocumentationAnalyzer.extractReadmeSections_nodup (readme : Option Readme) :
    (extractReadmeSections readme).Nodup ∧ extractReadmeSections none = [] ∧
      extractReadmeSections (some { content := [] }) = [] := by
  refine ⟨?_, rfl, rfl⟩
  unfold extractReadmeSections
  split
  · exact List.nodup_nil
  · split
    · exact List.nodup_nil
    · exact nodup_setOf _

theorem DependenciesAnalyzer.managers_pos_iff (files : List FileEntry) :
    (detectPackageManagers files).length > 0 ↔ ∃ f ∈ files, f.path ∈ manifestNames := by
  have key : ∀ name : Str, (files.any fun f => decide (f.path = name)) = true ↔
      ∃ f ∈ files, f.path = name := by
    intro name
    rw [List.any_eq_true]
    simp
  have hmem : (∃ f ∈ files, f.path ∈ manifestNames) ↔
      ((∃ f ∈ files, f.path = "package.json".toList) ∨
       (∃ f ∈ files, f.path = "requirements.txt".toList) ∨
       (∃ f ∈ files, f.path = "pom.xml".toList) ∨
       (∃ f ∈ files, f.path = "build.gradle".toList) ∨
       (∃ f ∈ files, f.path = "Cargo.toml".toList) ∨
       (∃ f ∈ files, f.path = "go.mod".toList)) := by
    simp only [manifestNames, strs, List.map, List.mem_cons, List.mem_singleton,
      List.not_mem_nil, or_false]
    constructor
    · rintro ⟨f, hf, h⟩
      rcases h with h | h | h | h | h | h
      · exact Or.inl ⟨f, hf, h⟩
      · exact Or.inr (Or.inl ⟨f, hf, h⟩)
      · exact Or.inr (Or.inr (Or.inl ⟨f, hf, h⟩))
      · exact Or.inr (Or.inr (Or.inr (Or.inl ⟨f, hf, h⟩)))
      · exact Or.inr (Or.inr (Or.inr (Or.inr (Or.inl ⟨f, hf, h⟩))))
      · exact Or.inr (Or.inr (Or.inr (Or.inr (Or.inr ⟨f, hf, h⟩))))
    · rintro (⟨f, hf, h⟩ | ⟨f, hf, h⟩ | ⟨f, hf, h⟩ | ⟨f, hf, h⟩ | ⟨f, hf, h⟩ | ⟨f, hf, h⟩)
      · exact ⟨f, hf, Or.inl h⟩
      · exact ⟨f, hf, Or.inr (Or.inl h)⟩
      · exact ⟨f, hf, Or.inr (Or.inr (Or.inl h))⟩
      · exact ⟨f, hf, Or.inr (Or.inr (Or.inr (Or.inl h)))⟩
      · exact ⟨f, hf, Or.inr (Or.inr (Or.inr (Or.inr (Or.inl h))))⟩
      · exact ⟨f, hf, Or.inr (Or.inr (Or.inr (Or.inr (Or.inr h))))⟩
  rw [hmem, ← key, ← key, ← key, ← key, ← key, ← key]
  unfold detectPackageManagers
  simp only []
  cases (files.any fun f => decide (f.path = "package.json".toList)) <;>
  cases (files.any fun f => decide (f.path = "requirements.txt".toList)) <;>
  cases (files.any fun f => decide (f.path = "pom.xml".toList)) <;>
  cases (files.any fun f => decide (f.path = "build.gradle".toList)) <;>
  cases (files.any fun f => decide (f.path = "Cargo.toml".toList)) <;>
  cases (files.any fun f => decide (f.path = "go.mod".toList)) <;>
  simp

theorem DependenciesAnalyzer.frameworks_pos_iff (files : List FileEntry) :
    (detectFrameworks files).length > 0 ↔
      (∃ f ∈ files, includes f.path "package.json".toList = true) ∧
      ∃ f ∈ files, includes f.path "next.config".toList = true ∨
        includes f.path "vite.config".toList = true := by
  have key : ∀ p : FileEntry → Bool, files.any p = true ↔ ∃ f ∈ files, p f = true := by
    intro p
    rw [List.any_eq_true]
  have hcfg : (∃ f ∈ files, includes f.path "next.config".toList = true ∨
      includes f.path "vite.config".toList = true) ↔
      ((∃ f ∈ files, includes f.path "next.config".toList = true) ∨
        ∃ f ∈ files, includes f.path "vite.config".toList = true) := by
    constructor
    · rintro ⟨f, hf, h | h⟩
      · exact Or.inl ⟨f, hf, h⟩
      · exact Or.inr ⟨f, hf, h⟩
    · rintro (⟨f, hf, h⟩ | ⟨f, hf, h⟩)
      · exact ⟨f, hf, Or.inl h⟩
      · exact ⟨f, hf, Or.inr h⟩
  rw [hcfg, ← key, ← key, ← key]
  unfold detectFrameworks
  simp only []
  cases (files.any fun f => includes f.path "package.json".toList) <;>
  cases (files.any fun f => includes f.path "next.config".toList) <;>
  cases (files.any fun f => includes f.path "vite.config".toList) <;>
  simp

/-- C20, as stated, fails: the list holds `requirements.txt` and a Vite
configuration file but no path that contains `package.json`; the dependencies
analyzer returns 3, without the 2 points of the framework configuration. -/
theorem dependencies_config_needs_package_json :
    (∃ f ∈ viteWithoutPackageJson, includes f.path "vite.config".toList = true) ∧
      (DependenciesAnalyzer.analyze viteWithoutPackageJson).score = 3 ∧
      (DependenciesAnalyzer.analyze viteWithoutPackageJson).score ≠ 3 + 2 := by
  refine ⟨⟨_, List.mem_cons_of_mem _ (List.mem_cons_self _ _), by decide⟩, by decide!,
    by decide!⟩

/-- C20, amended: the score of the dependencies analyzer is 3 if some path is
exactly one of `package.json`, `requirements.txt`, `pom.xml`, `build.gradle`,
`Cargo.toml`, `go.mod` (else 0), plus 2 if some path contains `package.json`
and some path contains `next.config` or `vite.config` (else 0). -/
theorem dependencies_score (files : List FileEntry) :
    (DependenciesAnalyzer.analyze files).score =
      (if ∃ f ∈ files, f.path ∈ manifestNames then 3 else 0) +
      (if (∃ f ∈ files, includes f.path "package.json".toList = true) ∧
          ∃ f ∈ files, includes f.path "next.config".toList = true ∨
            includes f.path "vite.config".toList = true
        then 2 else 0) := by
  unfold DependenciesAnalyzer.analyze DependenciesAnalyzer.calculateScore
  simp only [DependenciesAnalyzer.managers_pos_iff, DependenciesAnalyzer.frameworks_pos_iff]
  split_ifs <;> norm_num

theorem ContainerizationAnalyzer.hasDockerfile_iff (files : List FileEntry) :
    hasDockerfile files = true ↔
      ∃ f ∈ files, ∃ pattern ∈ CONTAINER_PATTERNS.docker, includes f.path pattern = true := by
  unfold hasDockerfile
  simp only [List.any_eq_true]

theorem ContainerizationAnalyzer.hasDockerCompose_iff (files : List FileEntry) :
    hasDockerCompose files = true ↔ ∃ f ∈ files, f.path ∈ CONTAINER_PATTERNS.dockerCompose := by
  unfold hasDockerCompose
  simp only [List.any_eq_true, decide_eq_true_eq]
  constructor
  · rintro ⟨f, hf, p, hp, h⟩
    exact ⟨f, hf, h ▸ hp⟩
  · rintro ⟨f, hf, h⟩
    exact ⟨f, hf, f.path, h, rfl⟩

/-- C21: the score of the containerization analyzer is 2 if some path contains
one of the Dockerfile patterns (else 0) plus 1 if some path is exactly one of
the compose file names (else 0); `details.hasDockerfile` and
`details.hasDockerCompose` are true exactly when the respective points are
given; the score never exceeds 3. -/
theorem containerization_score (files : List FileEntry) :
    (ContainerizationAnalyzer.analyze files).score =
        (if ∃ f ∈ files, ∃ pattern ∈ CONTAINER_PATTERNS.docker,
            includes f.path pattern = true then 2 else 0) +
        (if ∃ f ∈ files, f.path ∈ CONTAINER_PATTERNS.dockerCompose then 1 else 0) ∧
      (∃ d, (ContainerizationAnalyzer.analyze files).details = some d ∧
        (d.hasDockerfile = true ↔ ∃ f ∈ files, ∃ pattern ∈ CONTAINER_PATTERNS.docker,
          includes f.path pattern = true) ∧
        (d.hasDockerCompose = true ↔ ∃ f ∈ files, f.path ∈ CONTAINER_PATTERNS.dockerCompose)) ∧
      (ContainerizationAnalyzer.analyze files).score ≤ 3 ∧
      CONTAINER_PATTERNS.docker = strs ["Dockerfile", "dockerfile", ".dockerfile"] ∧
      CONTAINER_PATTERNS.dockerCompose =
        strs ["docker-compose.yml", "docker-compose.yaml", "compose.yml", "compose.yaml"] := by
  refine ⟨?_, ⟨_, rfl, ContainerizationAnalyzer.hasDockerfile_iff files,
    ContainerizationAnalyzer.hasDockerCompose_iff files⟩, min_le_right _ _, rfl, rfl⟩
  unfold ContainerizationAnalyzer.analyze ContainerizationAnalyzer.rawScore
  simp only [ContainerizationAnalyzer.hasDockerfile_iff,
    ContainerizationAnalyzer.hasDockerCompose_iff]
  split_ifs <;> norm_num

theorem dropLeading_eq_some {pat s rest : Str} (h : dropLeading pat s = some rest) :
    s = pat ++ rest := by
  unfold dropLeading at h
  split at h
  · rename_i hp
    simp only [Option.some.injEq] at h
    rw [List.isPrefixOf_iff_prefix] at hp
    obtain ⟨t, rfl⟩ := hp
    rw [List.drop_left] at h
    rw [h]
  · simp at h

theorem dropLeading_append (pat rest : Str) : dropLeading pat (pat ++ rest) = some rest := by
  unfold dropLeading
  have hp : pat.isPrefixOf (pat ++ rest) = true := by
    rw [List.isPrefixOf_iff_prefix]
    exact List.prefix_append _ _
  rw [if_pos hp, List.drop_left]

theorem matchOwnerRepo_of_host (r r' : Str)
    (hdrop : r.dropWhile isOwnerChar = '/' :: r')
    (ho : (r.takeWhile isOwnerChar).isEmpty = false)
    (hr : (r'.takeWhile isRepoChar).isEmpty = false) :
    ∀ pre : Str, ∃ m, matchOwnerRepo (pre ++ ("github.com/".toList ++ r)) = some m := by
  intro pre
  induction pre with
  | nil =>
    have hd : dropLeading "github.com/".toList ('g' :: ("ithub.com/".toList ++ r)) = some r :=
      dropLeading_append "github.com/".toList r
    refine ⟨(r.takeWhile isOwnerChar, r'.takeWhile isRepoChar), ?_⟩
    show matchOwnerRepo ('g' :: ("ithub.com/".toList ++ r)) = _
    unfold matchOwnerRepo
    simp only [hd, hdrop, ho, hr]
    rfl
  | cons c pre ih =>
    obtain ⟨m, hm⟩ := ih
    show ∃ m, matchOwnerRepo (c :: (pre ++ ("github.com/".toList ++ r))) = some m
    unfold matchOwnerRepo
    simp only []
    split
    · exact ⟨_, rfl⟩
    · exact ⟨m, hm⟩

theorem matchOwnerRepo_of_test {url : Str} (h : GITHUB_URL_REGEX.test url = true) :
    ∃ m, matchOwnerRepo url = some m := by
  unfold GITHUB_URL_REGEX.test at h
  simp only [] at h
  have hostOk : ∀ (pre r : Str),
      (match dropLeading "github.com/".toList r with
        | some r' =>
          (match r'.dropWhile isOwnerChar with
            | '/' :: r'' =>
              !(r'.takeWhile isOwnerChar).isEmpty && !(r''.takeWhile isRepoChar).isEmpty &&
                (decide (r''.dropWhile isRepoChar = []) ||
                  decide (r''.dropWhile isRepoChar = ['/']))
            | _ => false)
        | none => false) = true →
      ∃ m, matchOwnerRepo (pre ++ r) = some m := by
    intro pre r hr
    split at hr
    · rename_i r' hd
      split at hr
      · rename_i r'' hdrop
        simp only [Bool.and_eq_true, Bool.not_eq_true'] at hr
        rw [dropLeading_eq_some hd]
        exact matchOwnerRepo_of_host r' r'' hdrop hr.1.1 hr.1.2 pre
      · simp at hr
    · simp at hr
  split at h
  · simp at h
  · rename_i r hscheme
    have hurl : ∃ pre, url = pre ++ r := by
      split at hscheme
      · rename_i r0 h0
        simp only [Option.some.injEq] at hscheme
        subst hscheme
        exact ⟨_, dropLeading_eq_some h0⟩
      · exact ⟨_, dropLeading_eq_some hscheme⟩
    obtain ⟨pre, rfl⟩ := hurl
    rw [Bool.or_eq_true] at h
    rcases h with h | h
    · split at h
      · rename_i r1 hwww
        have hr : r = "www.".toList ++ r1 := dropLeading_eq_some hwww
        rw [hr, ← List.append_assoc]
        exact hostOk _ r1 h
      · simp at h
    · exact hostOk pre r h

/-- C22: `parseGitHubUrl` raises the error `Invalid GitHub repository URL
format` if and only if the URL does not match `GITHUB_URL_REGEX`, and
`analyzeRepository` called with such a URL fails with that error without any
call to a collaborator: no analysis record is created and no fetch or analyzer
stage runs. -/
theorem invalid_url_rejected_first (url : Str) :
    (parseGitHubUrl url = .error ERROR_MESSAGES.INVALID_URL ↔
        GITHUB_URL_REGEX.test url = false) ∧
      ((∃ e, parseGitHubUrl url = .error e) ↔ GITHUB_URL_REGEX.test url = false) ∧
      (GITHUB_URL_REGEX.test url = false →
        ∀ (s : Services) (a : Analyzers) (ai : AIService),
          analyzeRepository s a ai url = (.error ERROR_MESSAGES.INVALID_URL, [])) ∧
      ERROR_MESSAGES.INVALID_URL = "Invalid GitHub repository URL format".toList := by
  have hiff : ∀ e, parseGitHubUrl url = .error e → GITHUB_URL_REGEX.test url = false := by
    intro e he
    by_contra hc
    have ht : GITHUB_URL_REGEX.test url = true := by simpa using hc
    obtain ⟨m, hm⟩ := matchOwnerRepo_of_test ht
    unfold parseGitHubUrl at he
    simp [ht, hm] at he
  have herr : GITHUB_URL_REGEX.test url = false →
      parseGitHubUrl url = .error ERROR_MESSAGES.INVALID_URL := by
    intro ht
    unfold parseGitHubUrl
    simp [ht]
  refine ⟨⟨hiff _, herr⟩, ⟨fun ⟨e, he⟩ => hiff e he, fun ht => ⟨_, herr ht⟩⟩, ?_, rfl⟩
  intro ht s a ai
  unfold analyzeRepository
  rw [herr ht]

/-- Witness of C22: a GitLab URL is rejected before any call is made, a GitHub
URL is parsed. -/
theorem invalid_url_rejected_first_witness :
    GITHUB_URL_REGEX.test "https://gitlab.com/octo/demo".toList = false ∧
      analyzeRepository (sampleServices smallProject) analyzers offlineAI
          "https://gitlab.com/octo/demo".toList =
        (.error "Invalid GitHub repository URL format".toList, []) ∧
      parseGitHubUrl sampleUrl = .ok ("octo".toList, "demo".toList) :=
  ⟨by decide,
    (invalid_url_rejected_first "https://gitlab.com/octo/demo".toList).2.2.1 (by decide)
      (sampleServices smallProject) analyzers offlineAI,
    by decide⟩

theorem Checked.div_some (a : ℚ) {n : Nat} (h : n ≠ 0) :
    Checked.div a (n : ℚ) = some (a / n) := by
  unfold Checked.div
  rw [if_neg (by exact_mod_cast h)]

theorem Checked.mathMax_some {xs : List ℚ} (h : xs.length ≠ 0) :
    Checked.mathMax xs = some (GitGrade.mathMax xs) := by
  unfold Checked.mathMax
  rw [if_neg h]

theorem Checked.CodeQualityAnalyzer.analyzeComplexity_some {files : List FileEntry}
    (h : files.length ≠ 0) :
    Checked.CodeQualityAnalyzer.analyzeComplexity files =
      some (GitGrade.CodeQualityAnalyzer.analyzeComplexity files) := by
  unfold Checked.CodeQualityAnalyzer.analyzeComplexity GitGrade.CodeQualityAnalyzer.analyzeComplexity
  have hm : (files.map fun f => (splitDepth f.path : ℚ)).length ≠ 0 := by
    rw [List.length_map]; exact h
  simp only [Checked.div_some _ h, Checked.mathMax_some hm, Option.bind_eq_bind, Option.some_bind,
    Option.pure_def]

theorem Checked.CodeQualityAnalyzer.analyzeFileSizes_some (files : List FileEntry) :
    Checked.CodeQualityAnalyzer.analyzeFileSizes files =
      some (GitGrade.CodeQualityAnalyzer.analyzeFileSizes files) := by
  unfold Checked.CodeQualityAnalyzer.analyzeFileSizes GitGrade.CodeQualityAnalyzer.analyzeFileSizes
  by_cases h : ((files.map fun f => f.sizeOr0).filter fun s => s > 0).length = 0
  · simp only [h, if_true, Option.pure_def]
  · simp only [h, if_false, Checked.div_some _ h, Checked.mathMax_some h, Option.bind_eq_bind,
      Option.some_bind, Option.pure_def]

theorem Checked.CodeQualityAnalyzer.analyzeNaming_some {files : List FileEntry}
    (h : files.length ≠ 0) :
    Checked.CodeQualityAnalyzer.analyzeNaming files =
      some (GitGrade.CodeQualityAnalyzer.analyzeNaming files) := by
  unfold Checked.CodeQualityAnalyzer.analyzeNaming GitGrade.CodeQualityAnalyzer.analyzeNaming
  simp only [Checked.div_some _ h, Option.bind_eq_bind, Option.some_bind, Option.pure_def]

theorem Checked.CodeQualityAnalyzer.analyzeDuplication_some (files : List FileEntry) :
    Checked.CodeQualityAnalyzer.analyzeDuplication files =
      some (GitGrade.CodeQualityAnalyzer.analyzeDuplication files) := by
  unfold Checked.CodeQualityAnalyzer.analyzeDuplication
    GitGrade.CodeQualityAnalyzer.analyzeDuplication
  by_cases h : (files.map fun f => path.basename f.path).length >
      (setOf (files.map fun f => path.basename f.path)).length
  · have hne : (files.map fun f => path.basename f.path).length ≠ 0 := by omega
    simp only [h, if_true, Checked.div_some _ hne, Option.bind_eq_bind, Option.some_bind,
      Option.pure_def, divD]
  · simp only [h, if_false, Option.bind_eq_bind, Option.some_bind, Option.pure_def]

theorem Checked.CodeQualityAnalyzer.codeQuality_some (files : List FileEntry) :
    Checked.CodeQualityAnalyzer.analyze files =
      some (GitGrade.CodeQualityAnalyzer.analyze files).score := by
  unfold Checked.CodeQualityAnalyzer.analyze GitGrade.CodeQualityAnalyzer.analyze
    GitGrade.CodeQualityAnalyzer.totalScore
  by_cases h : (files.filter fun f => GitGrade.CodeQualityAnalyzer.isCodeFile f.path).length = 0
  · simp only [h, if_true, Option.pure_def]
  · simp only [h, if_false, analyzeComplexity_some h, analyzeFileSizes_some, analyzeNaming_some h,
      analyzeDuplication_some, Option.bind_eq_bind, Option.some_bind, Option.pure_def]

theorem Checked.ProjectStructureAnalyzer.analyzeFolderOrganization_some {files : List FileEntry}
    (h : files.length ≠ 0) :
    Checked.ProjectStructureAnalyzer.analyzeFolderOrganization files =
      some (GitGrade.ProjectStructureAnalyzer.analyzeFolderOrganization files) := by
  unfold Checked.ProjectStructureAnalyzer.analyzeFolderOrganization
    GitGrade.ProjectStructureAnalyzer.analyzeFolderOrganization
  have hm : (files.map fun f => (splitDepth f.path : ℚ)).length ≠ 0 := by
    rw [List.length_map]; exact h
  simp only [Checked.div_some _ h, Checked.div_some _ hm, Checked.mathMax_some hm,
    Option.bind_eq_bind, Option.some_bind, Option.pure_def]

theorem Checked.ProjectStructureAnalyzer.analyzeSeparationOfConcerns_some
    (files : List FileEntry) :
    Checked.ProjectStructureAnalyzer.analyzeSeparationOfConcerns files =
      some (GitGrade.ProjectStructureAnalyzer.analyzeSeparationOfConcerns files) := by
  unfold Checked.ProjectStructureAnalyzer.analyzeSeparationOfConcerns
    GitGrade.ProjectStructureAnalyzer.analyzeSeparationOfConcerns
  by_cases h : (files.filter fun f =>
      GitGrade.ProjectStructureAnalyzer.testFilePattern f.path).length > 0
  · have hne : (files.filter fun f =>
        GitGrade.ProjectStructureAnalyzer.testFilePattern f.path).length ≠ 0 := by omega
    simp only [h, if_true, true_and, Checked.div_some _ hne, Option.bind_eq_bind,
      Option.some_bind, Option.pure_def]
  · simp only [h, if_false, false_and, Option.bind_eq_bind, Option.some_bind, Option.pure_def]

theorem Checked.ProjectStructureAnalyzer.projectStructure_some (files : List FileEntry) :
    Checked.ProjectStructureAnalyzer.analyze files =
      some (GitGrade.ProjectStructureAnalyzer.analyze files).score := by
  unfold Checked.ProjectStructureAnalyzer.analyze GitGrade.ProjectStructureAnalyzer.analyze
    GitGrade.ProjectStructureAnalyzer.totalScore
  by_cases h : files.length = 0
  · simp only [h, if_true, Option.pure_def]
  · simp only [h, if_false, analyzeFolderOrganization_some h, analyzeSeparationOfConcerns_some,
      Option.bind_eq_bind, Option.some_bind, Option.pure_def]

theorem Checked.DocumentationAnalyzer.extractReadmeSections_some (readme : Option Readme) :
    Checked.DocumentationAnalyzer.extractReadmeSections readme =
      some (GitGrade.DocumentationAnalyzer.extractReadmeSections readme) := by
  unfold Checked.DocumentationAnalyzer.extractReadmeSections
    GitGrade.DocumentationAnalyzer.extractReadmeSections
  cases readme with
  | none => rfl
  | some r =>
    by_cases h : r.content.isEmpty = true
    · simp only [Checked.content, Option.isNone_some, Option.map_some', Option.bind_eq_bind,
        Option.some_bind, h, if_true, Option.pure_def, Bool.false_eq_true, if_false]
    · simp only [Checked.content, Option.isNone_some, Option.map_some', Option.bind_eq_bind,
        Option.some_bind, h, Option.pure_def, Bool.false_eq_true, if_false]

theorem Checked.DocumentationAnalyzer.analyzeReadme_some (readme : Option Readme) :
    Checked.DocumentationAnalyzer.analyzeReadme readme =
      some (GitGrade.DocumentationAnalyzer.analyzeReadme readme) := by
  unfold Checked.DocumentationAnalyzer.analyzeReadme GitGrade.DocumentationAnalyzer.analyzeReadme
  cases readme with
  | none => rfl
  | some r =>
    by_cases h : r.content.isEmpty = true
    · simp only [Checked.content, Option.isNone_some, Option.map_some', Option.bind_eq_bind,
        Option.some_bind, h, if_true, Option.pure_def, Bool.false_eq_true, if_false]
    · have h2 : Checked.div ((globalMatch matchFenceAt (toLowerCase r.content)).length : ℚ) 2 =
          some (((globalMatch matchFenceAt (toLowerCase r.content)).length : ℚ) / 2) := by
        unfold Checked.div
        rw [if_neg (by norm_num)]
      simp only [Checked.content, Option.isNone_some, Option.map_some', Option.bind_eq_bind,
        Option.some_bind, h, Option.pure_def, Bool.false_eq_true, if_false,
        extractReadmeSections_some, h2]

theorem Checked.DocumentationAnalyzer.documentation_some (readme : Option Readme)
    (files : List FileEntry) :
    Checked.DocumentationAnalyzer.analyze readme files =
      some (GitGrade.DocumentationAnalyzer.analyze readme files).score := by
  unfold Checked.DocumentationAnalyzer.analyze GitGrade.DocumentationAnalyzer.analyze
    GitGrade.DocumentationAnalyzer.totalScore
  simp only [analyzeReadme_some, extractReadmeSections_some, Option.bind_eq_bind,
    Option.some_bind, Option.pure_def]

theorem Checked.TestingAnalyzer.estimateTestCoverage_some (testFiles codeFiles : List FileEntry) :
    Checked.TestingAnalyzer.estimateTestCoverage testFiles codeFiles =
      some (GitGrade.TestingAnalyzer.estimateTestCoverage testFiles codeFiles) := by
  unfold Checked.TestingAnalyzer.estimateTestCoverage
    GitGrade.TestingAnalyzer.estimateTestCoverage
  by_cases h : testFiles.length = 0 ∨ codeFiles.length = 0
  · simp only [h, if_true, Option.pure_def]
  · have hc : codeFiles.length ≠ 0 := fun e => h (Or.inr e)
    by_cases hs : (codeFiles.foldl (fun sum f => addD sum f.sizeOr0) (0 : ℚ)) > 0
    · have hd : Checked.div (testFiles.foldl (fun sum f => addD sum f.sizeOr0) (0 : ℚ))
          (codeFiles.foldl (fun sum f => addD sum f.sizeOr0) (0 : ℚ)) =
          some (testFiles.foldl (fun sum f => addD sum f.sizeOr0) (0 : ℚ) /
            codeFiles.foldl (fun sum f => addD sum f.sizeOr0) (0 : ℚ)) := by
        unfold Checked.div
        rw [if_neg (ne_of_gt hs)]
      simp only [h, if_false, hs, if_true, hd, Checked.div_some _ hc, Option.bind_eq_bind,
        Option.some_bind, Option.pure_def]
    · simp only [h, if_false, hs, Checked.div_some _ hc, Option.bind_eq_bind,
        Option.some_bind, Option.pure_def]

theorem Checked.TestingAnalyzer.analyzeTestOrganization_some (testFiles : List FileEntry) :
    Checked.TestingAnalyzer.analyzeTestOrganization testFiles =
      some (GitGrade.TestingAnalyzer.analyzeTestOrganization testFiles) := by
  unfold Checked.TestingAnalyzer.analyzeTestOrganization
    GitGrade.TestingAnalyzer.analyzeTestOrganization
  by_cases h : testFiles.length = 0
  · simp only [h, if_true, Option.pure_def]
  · simp only [h, if_false, Checked.div_some _ h, Option.bind_eq_bind, Option.some_bind,
      Option.pure_def]

theorem Checked.TestingAnalyzer.calculateTestToCodeRatio_some
    (testFiles codeFiles : List FileEntry) :
    Checked.TestingAnalyzer.calculateTestToCodeRatio testFiles codeFiles =
      some (GitGrade.TestingAnalyzer.calculateTestToCodeRatio testFiles codeFiles) := by
  unfold Checked.TestingAnalyzer.calculateTestToCodeRatio
    GitGrade.TestingAnalyzer.calculateTestToCodeRatio
  by_cases h : codeFiles.length = 0
  · simp only [h, if_true, Option.pure_def]
  · have h100 : ∀ x : ℚ, Checked.div x 100 = some (x / 100) := by
      intro x
      unfold Checked.div
      rw [if_neg (by norm_num)]
    simp only [h, if_false, Checked.div_some _ h, h100, Option.bind_eq_bind, Option.some_bind,
      Option.pure_def, Option.map_some', divD]

theorem Checked.TestingAnalyzer.testing_some (files : List FileEntry) :
    Checked.TestingAnalyzer.analyze files = some (GitGrade.TestingAnalyzer.analyze files).score := by
  unfold Checked.TestingAnalyzer.analyze GitGrade.TestingAnalyzer.analyze
    GitGrade.TestingAnalyzer.totalScore
  by_cases h : (GitGrade.TestingAnalyzer.findCodeFiles files).length = 0
  · simp only [h, if_true, Option.pure_def]
  · simp only [h, if_false, estimateTestCoverage_some, analyzeTestOrganization_some,
      calculateTestToCodeRatio_some, Option.bind_eq_bind, Option.some_bind, Option.pure_def]

theorem Checked.GitPracticesAnalyzer.analyzeCommits_some (commits : Option (List Commit)) :
    Checked.GitPracticesAnalyzer.analyzeCommits commits =
      some (GitGrade.GitPracticesAnalyzer.analyzeCommits commits) := by
  unfold Checked.GitPracticesAnalyzer.analyzeCommits GitGrade.GitPracticesAnalyzer.analyzeCommits
  cases commits with
  | none => rfl
  | some cs =>
    by_cases h : cs.length = 0
    · simp only [h, if_true, Option.pure_def]
    · simp only [h, if_false, Checked.div_some _ h, Option.bind_eq_bind, Option.some_bind,
        Option.pure_def]

theorem Checked.GitPracticesAnalyzer.analyzePullRequests_some (prs : Option PullRequests)
    (commits : Option (List Commit)) :
    Checked.GitPracticesAnalyzer.analyzePullRequests prs commits =
      some (GitGrade.GitPracticesAnalyzer.analyzePullRequests prs commits) := by
  unfold Checked.GitPracticesAnalyzer.analyzePullRequests
    GitGrade.GitPracticesAnalyzer.analyzePullRequests
  cases prs with
  | none => rfl
  | some p =>
    by_cases h : p.merged > 0 ∧ p.total > 0
    · have hne : p.total ≠ 0 := by omega
      simp only [h, and_self, if_true, Checked.div_some _ hne, Option.bind_eq_bind,
        Option.some_bind, Option.pure_def]
    · simp only [h, if_false, Option.bind_eq_bind, Option.some_bind, Option.pure_def]

theorem Checked.GitPracticesAnalyzer.gitPractices_some (commits : Option (List Commit))
    (branches : Option (List Branch)) (prs : Option PullRequests) :
    Checked.GitPracticesAnalyzer.analyze commits branches prs =
      some (GitGrade.GitPracticesAnalyzer.analyze commits branches prs).score := by
  unfold Checked.GitPracticesAnalyzer.analyze GitGrade.GitPracticesAnalyzer.analyze
    GitGrade.GitPracticesAnalyzer.totalScore
  simp only [analyzeCommits_some, analyzePullRequests_some, Option.bind_eq_bind,
    Option.some_bind, Option.pure_def]

/-- C23: on every snapshot the five analyzers that divide, call `Math.max` on a
spread list or read a field of the README (code quality, project structure,
documentation, testing, git practices) complete without a division by zero, a
`Math.max` of an empty list or a field read on an absent README, and return the
score of `analyze`; this covers the empty file list, an absent README, absent or
empty commit and branch lists and pull-request counts of zero, for which the
scores are 0, 0, 2, 0 and 2.  The security, CI/CD, dependencies and
containerization analyzers contain none of these operations, and the nine
analyzers together always produce a result. -/
theorem analyzers_never_raise (files : List FileEntry) (readme : Option Readme)
    (commits : Option (List Commit)) (branches : Option (List Branch))
    (pullRequests : Option PullRequests) :
    Checked.CodeQualityAnalyzer.analyze files = some (CodeQualityAnalyzer.analyze files).score ∧
    Checked.ProjectStructureAnalyzer.analyze files =
      some (ProjectStructureAnalyzer.analyze files).score ∧
    Checked.DocumentationAnalyzer.analyze readme files =
      some (DocumentationAnalyzer.analyze readme files).score ∧
    Checked.TestingAnalyzer.analyze files = some (TestingAnalyzer.analyze files).score ∧
    Checked.GitPracticesAnalyzer.analyze commits branches pullRequests =
      some (GitPracticesAnalyzer.analyze commits branches pullRequests).score ∧
    (∀ (cs : List Commit) (bs : List Branch) (prs : PullRequests),
      ∃ results, runAnalyzers analyzers files readme cs bs prs = .ok results) ∧
    Checked.CodeQualityAnalyzer.analyze [] = some 0 ∧
    Checked.ProjectStructureAnalyzer.analyze [] = some 0 ∧
    Checked.DocumentationAnalyzer.analyze none [] = some 2 ∧
    Checked.TestingAnalyzer.analyze [] = some 0 ∧
    Checked.GitPracticesAnalyzer.analyze (some []) (some [])
      (some { total := 0, opened := 0, closed := 0, merged := 0 }) = some 2 ∧
    Checked.GitPracticesAnalyzer.analyze none none none = some 2 :=
  ⟨Checked.CodeQualityAnalyzer.codeQuality_some files,
    Checked.ProjectStructureAnalyzer.projectStructure_some files,
    Checked.DocumentationAnalyzer.documentation_some readme files,
    Checked.TestingAnalyzer.testing_some files,
    Checked.GitPracticesAnalyzer.gitPractices_some commits branches pullRequests,
    fun cs bs prs => ⟨_, runAnalyzers_analyzers files readme cs bs prs⟩,
    by decide!, by decide!, by decide!, by decide!, by decide!, by decide!⟩

theorem retryLoop_calls_le {ε α : Type} (fn : Nat → Except ε α) (maxRetries baseDelay : Nat) :
    ∀ left i, (retryWithBackoffLoop fn maxRetries baseDelay left i).calls ≤ left := by
  intro left
  induction left with
  | zero => intro i; simp [retryWithBackoffLoop]
  | succ n ih =>
    intro i
    unfold retryWithBackoffLoop
    split
    · simp
    · split
      · simp
      · have := ih (i + 1)
        simp only []
        omega

theorem retryLoop_success {ε α : Type} (fn : Nat → Except ε α) (maxRetries baseDelay : Nat) :
    ∀ left i k v, i + left = maxRetries → i ≤ k → k < maxRetries →
      (∀ j, i ≤ j → j < k → ∃ e, fn j = .error e) → fn k = .ok v →
      (retryWithBackoffLoop fn maxRetries baseDelay left i).result = .ok (some v) ∧
      (retryWithBackoffLoop fn maxRetries baseDelay left i).calls = k - i + 1 ∧
      (retryWithBackoffLoop fn maxRetries baseDelay left i).delays =
        (List.range' i (k - i)).map fun j => baseDelay * 2 ^ j := by
  intro left
  induction left with
  | zero => intro i k v h1 h2 h3; omega
  | succ n ih =>
    intro i k v hsum hik hk hfail hok
    unfold retryWithBackoffLoop
    by_cases hki : k = i
    · subst hki
      rw [hok]
      simp
    · obtain ⟨e, he⟩ := hfail i (le_refl _) (by omega)
      rw [he]
      have hne : ¬ i = maxRetries - 1 := by omega
      simp only [if_neg hne]
      obtain ⟨r1, r2, r3⟩ := ih (i + 1) k v (by omega) (by omega) hk
        (fun j hj1 hj2 => hfail j (by omega) hj2) hok
      refine ⟨r1, by rw [r2]; omega, ?_⟩
      rw [r3]
      have hlen : k - i = (k - (i + 1)) + 1 := by omega
      rw [hlen, List.range'_succ]
      rfl

theorem retryLoop_failure {ε α : Type} (fn : Nat → Except ε α) (maxRetries baseDelay : Nat) :
    ∀ left i e, i + left = maxRetries → 1 ≤ left →
      (∀ j, i ≤ j → j < maxRetries → ∃ e', fn j = .error e') →
      fn (maxRetries - 1) = .error e →
      (retryWithBackoffLoop fn maxRetries baseDelay left i).result = .error e ∧
      (retryWithBackoffLoop fn maxRetries baseDelay left i).calls = left ∧
      (retryWithBackoffLoop fn maxRetries baseDelay left i).delays =
        (List.range' i (left - 1)).map fun j => baseDelay * 2 ^ j := by
  intro left
  induction left with
  | zero => intro i e h1 h2; omega
  | succ n ih =>
    intro i e hsum hleft hfail hlast
    unfold retryWithBackoffLoop
    by_cases hi : i = maxRetries - 1
    · have hn : n = 0 := by omega
      subst hn
      rw [← hi] at hlast
      rw [hlast]
      simp [hi]
    · obtain ⟨e', he'⟩ := hfail i (le_refl _) (by omega)
      rw [he']
      simp only [if_neg hi]
      obtain ⟨r1, r2, r3⟩ := ih (i + 1) e (by omega) (by omega)
        (fun j hj1 hj2 => hfail j (by omega) hj2) hlast
      refine ⟨r1, by rw [r2], ?_⟩
      rw [r3]
      have hlen : n + 1 - 1 = (n - 1) + 1 := by omega
      rw [hlen, List.range'_succ]
      rfl

/-- C24: for `maxRetries >= 1`, `retryWithBackoff(fn, maxRetries, baseDelay)`
calls `fn` at most `maxRetries` times; when call `k` is the first that succeeds
it returns that result after `k + 1` calls, having waited `baseDelay * 2^i`
after the failed call `i` for each `i < k`; and when all `maxRetries` calls fail
it raises the error of the last call after the waits `baseDelay * 2^i` for
`i < maxRetries - 1`. -/
theorem retryWithBackoff_behaviour {ε α : Type} (fn : Nat → Except ε α)
    (maxRetries baseDelay : Nat) (hpos : 1 ≤ maxRetries) :
    (retryWithBackoff fn maxRetries baseDelay).calls ≤ maxRetries ∧
    (∀ k v, k < maxRetries → (∀ i, i < k → ∃ e, fn i = .error e) → fn k = .ok v →
      (retryWithBackoff fn maxRetries baseDelay).result = .ok (some v) ∧
      (retryWithBackoff fn maxRetries baseDelay).calls = k + 1 ∧
      (retryWithBackoff fn maxRetries baseDelay).delays =
        (List.range k).map fun i => baseDelay * 2 ^ i) ∧
    (∀ e, (∀ i, i < maxRetries → ∃ e', fn i = .error e') → fn (maxRetries - 1) = .error e →
      (retryWithBackoff fn maxRetries baseDelay).result = .error e ∧
      (retryWithBackoff fn maxRetries baseDelay).calls = maxRetries ∧
      (retryWithBackoff fn maxRetries baseDelay).delays =
        (List.range (maxRetries - 1)).map fun i => baseDelay * 2 ^ i) := by
  unfold retryWithBackoff
  refine ⟨retryLoop_calls_le fn maxRetries baseDelay maxRetries 0, ?_, ?_⟩
  · intro k v hk hfail hok
    have h := retryLoop_success fn maxRetries baseDelay maxRetries 0 k v (by omega) (by omega) hk
      (fun j _ hj => hfail j hj) hok
    simpa [List.range_eq_range'] using h
  · intro e hfail hlast
    have h := retryLoop_failure fn maxRetries baseDelay maxRetries 0 e (by omega) hpos
      (fun j _ hj => hfail j hj) hlast
    simpa [List.range_eq_range'] using h

/-- Witness of C24: a call that fails twice and then returns 7, retried up to 3
times from a delay of 1000, returns 7 after 3 calls and the waits 1000 and 2000;
retried up to 2 times it raises the error of the second call after one wait. -/
theorem retryWithBackoff_behaviour_witness :
    (retryWithBackoff failsTwice 3 1000).result = .ok (some 7) ∧
      (retryWithBackoff failsTwice 3 1000).calls = 3 ∧
      (retryWithBackoff failsTwice 3 1000).delays = [1000, 2000] ∧
      (retryWithBackoff failsTwice 2 1000).result = .error "attempt 1".toList ∧
      (retryWithBackoff failsTwice 2 1000).calls = 2 ∧
      (retryWithBackoff failsTwice 2 1000).delays = [1000] := by
  obtain ⟨r1, r2, r3⟩ := (retryWithBackoff_behaviour failsTwice 3 1000 (by norm_num)).2.1 2 7
    (by norm_num) (fun i hi => by simp [failsTwice, hi]) (by decide)
  obtain ⟨s1, s2, s3⟩ := (retryWithBackoff_behaviour failsTwice 2 1000 (by norm_num)).2.2
    "attempt 1".toList (fun i hi => by simp [failsTwice, hi]) (by decide)
  exact ⟨r1, r2, by rw [r3]; decide, s1, s2, by rw [s3]; decide⟩

/-- C25, as stated, fails: on `smallProject` the result of the security analyzer
has no property `issues` (the access gives `undefined`), while its `details`
hold the list of the two issues under `securityIssues`. -/
theorem security_result_issues_undefined :
    (getProperty (SecurityAnalyzer.analyze smallProject none).properties "issues").isNone = true ∧
      ((SecurityAnalyzer.analyze smallProject none).details.map fun d => d.securityIssues) =
        some [{ type := "missing_gitignore".toList, severity := "high".toList },
              { type := "env_file_committed".toList, severity := "critical".toList }] := by
  decide!

/-- C25, amended: for every file list the result of the security analyzer has
the properties `score` and `details`, its `details` are defined, and their field
`securityIssues` is the list of security issues of the file list; the result has
no property `issues`. -/
theorem security_issues_under_details (files : List FileEntry) (readme : Option Readme) :
    (∃ d, (SecurityAnalyzer.analyze files readme).details = some d ∧
      d.securityIssues = SecurityAnalyzer.collectSecurityIssues files ∧
      (SecurityAnalyzer.analyze files readme).properties =
        [("score".toList, .number (SecurityAnalyzer.analyze files readme).score),
         ("details".toList, .details (some d))]) ∧
    (getProperty (SecurityAnalyzer.analyze files readme).properties "score").isSome = true ∧
    (getProperty (SecurityAnalyzer.analyze files readme).properties "details").isSome = true ∧
    (getProperty (SecurityAnalyzer.analyze files readme).properties "issues").isNone = true :=
  ⟨⟨_, rfl, rfl, rfl⟩, rfl, rfl, rfl⟩

theorem takeWhile_append_stop {p : Char → Bool} {xs : Str} (d : Char) (ys : Str)
    (hxs : ∀ c ∈ xs, p c = true) (hd : p d = false) :
    (xs ++ d :: ys).takeWhile p = xs ∧ (xs ++ d :: ys).dropWhile p = d :: ys := by
  induction xs with
  | nil => simp [List.takeWhile, List.dropWhile, hd]
  | cons x xs ih =>
    have hx : p x = true := hxs x (List.mem_cons_self _ _)
    have ih' := ih (fun c hc => hxs c (List.mem_cons_of_mem _ hc))
    simp [List.takeWhile, List.dropWhile, hx, ih'.1, ih'.2]

theorem takeWhile_all {p : Char → Bool} {xs : Str} (hxs : ∀ c ∈ xs, p c = true) :
    xs.takeWhile p = xs ∧ xs.dropWhile p = [] := by
  induction xs with
  | nil => simp
  | cons x xs ih =>
    have hx : p x = true := hxs x (List.mem_cons_self _ _)
    have ih' := ih (fun c hc => hxs c (List.mem_cons_of_mem _ hc))
    simp [List.takeWhile, List.dropWhile, hx, ih'.1, ih'.2]

theorem matchOwnerRepo_skip (c : Char) (cs : Str) (h : c ≠ 'g') :
    matchOwnerRepo (c :: cs) = matchOwnerRepo cs := by
  have hd : dropLeading "github.com/".toList (c :: cs) = none := by
    unfold dropLeading
    rw [if_neg]
    intro hp
    rw [List.isPrefixOf_iff_prefix] at hp
    obtain ⟨t, ht⟩ := hp
    have : 'g' = c := by
      have h2 : ('g' :: ("ithub.com/".toList ++ t)) = c :: cs := ht
      exact (List.cons.inj h2).1
    exact h this.symm
  rw [matchOwnerRepo]
  simp only [hd]

theorem matchOwnerRepo_host (owner repo : Str)
    (ho : owner ≠ []) (hr : repo ≠ [])
    (hoc : ∀ c ∈ owner, isOwnerChar c = true) (hrc : ∀ c ∈ repo, isRepoChar c = true) :
    matchOwnerRepo ("github.com/".toList ++ (owner ++ '/' :: repo)) = some (owner, repo) := by
  have hd : dropLeading "github.com/".toList
      ('g' :: ("ithub.com/".toList ++ (owner ++ '/' :: repo))) = some (owner ++ '/' :: repo) :=
    dropLeading_append "github.com/".toList _
  obtain ⟨t1, t2⟩ := takeWhile_append_stop '/' repo hoc (by decide)
  obtain ⟨t3, -⟩ := takeWhile_all hrc
  have e1 : owner.isEmpty = false := by cases owner <;> simp_all
  have e2 : repo.isEmpty = false := by cases repo <;> simp_all
  show matchOwnerRepo ('g' :: ("ithub.com/".toList ++ (owner ++ '/' :: repo))) = _
  rw [matchOwnerRepo]
  simp only [hd, t1, t2, t3, e1, e2]
  rfl

theorem GITHUB_URL_REGEX.test_built (owner repo : Str)
    (ho : owner ≠ []) (hr : repo ≠ [])
    (hoc : ∀ c ∈ owner, isOwnerChar c = true) (hrc : ∀ c ∈ repo, isRepoChar c = true) :
    GITHUB_URL_REGEX.test ("https://github.com/".toList ++ owner ++ '/' :: repo) = true := by
  have hurl : "https://github.com/".toList ++ owner ++ '/' :: repo =
      "https://".toList ++ ("github.com/".toList ++ (owner ++ '/' :: repo)) := by
    simp
  have hs : dropLeading "https://".toList
      ("https://".toList ++ ("github.com/".toList ++ (owner ++ '/' :: repo))) =
        some ("github.com/".toList ++ (owner ++ '/' :: repo)) := dropLeading_append _ _
  have hh : dropLeading "github.com/".toList
      ("github.com/".toList ++ (owner ++ '/' :: repo)) = some (owner ++ '/' :: repo) :=
    dropLeading_append _ _
  obtain ⟨t1, t2⟩ := takeWhile_append_stop '/' repo hoc (by decide)
  obtain ⟨t3, t4⟩ := takeWhile_all hrc
  have e1 : owner.isEmpty = false := by cases owner <;> simp_all
  have e2 : repo.isEmpty = false := by cases repo <;> simp_all
  rw [hurl]
  unfold GITHUB_URL_REGEX.test
  simp only [hs, hh, t1, t2, t3, t4, e1, e2]
  simp

/-- C26: for every non-empty owner made only of word characters and
hyphens and every non-empty repository name made only of word characters, dots
and hyphens, `parseGitHubUrl('https://github.com/' + owner + '/' + repo)`
returns exactly the owner and the name when the name does not end in `.git`,
and the owner and the name without that suffix when it does. -/
theorem parseGitHubUrl_built (owner repo : Str)
    (ho : owner ≠ []) (hr : repo ≠ [])
    (hoc : ∀ c ∈ owner, isOwnerChar c = true) (hrc : ∀ c ∈ repo, isRepoChar c = true) :
    (endsWith repo ".git".toList = false →
      parseGitHubUrl ("https://github.com/".toList ++ owner ++ '/' :: repo) = .ok (owner, repo)) ∧
    (∀ base : Str, repo = base ++ ".git".toList →
      parseGitHubUrl ("https://github.com/".toList ++ owner ++ '/' :: repo) = .ok (owner, base)) := by
  have htest := GITHUB_URL_REGEX.test_built owner repo ho hr hoc hrc
  have hmatch : matchOwnerRepo ("https://github.com/".toList ++ owner ++ '/' :: repo) =
      some (owner, repo) := by
    have hurl : "https://github.com/".toList ++ owner ++ '/' :: repo =
        'h' :: 't' :: 't' :: 'p' :: 's' :: ':' :: '/' :: '/' ::
          ("github.com/".toList ++ (owner ++ '/' :: repo)) := by
      simp
    rw [hurl]
    rw [matchOwnerRepo_skip _ _ (by decide), matchOwnerRepo_skip _ _ (by decide),
      matchOwnerRepo_skip _ _ (by decide), matchOwnerRepo_skip _ _ (by decide),
      matchOwnerRepo_skip _ _ (by decide), matchOwnerRepo_skip _ _ (by decide),
      matchOwnerRepo_skip _ _ (by decide), matchOwnerRepo_skip _ _ (by decide)]
    exact matchOwnerRepo_host owner repo ho hr hoc hrc
  constructor
  · intro hgit
    unfold parseGitHubUrl
    simp only [htest, hmatch, hgit]
    simp
  · intro base hbase
    have hgit : endsWith repo ".git".toList = true := by
      unfold endsWith
      rw [List.isSuffixOf_iff_suffix, hbase]
      exact List.suffix_append _ _
    have htake : repo.take (repo.length - 4) = base := by
      rw [hbase]
      simp
    unfold parseGitHubUrl
    simp only [htest, hmatch, hgit, htake]
    simp

/-- Witness of C26: owner `octo` with the repository names `demo` and
`demo.git`. -/
theorem parseGitHubUrl_built_witness :
    parseGitHubUrl "https://github.com/octo/demo".toList = .ok ("octo".toList, "demo".toList) ∧
      parseGitHubUrl "https://github.com/octo/demo.git".toList =
        .ok ("octo".toList, "demo".toList) :=
  ⟨(parseGitHubUrl_built "octo".toList "demo".toList (by decide) (by decide) (by decide)
      (by decide)).1 (by decide),
    (parseGitHubUrl_built "octo".toList "demo.git".toList (by decide) (by decide) (by decide)
      (by decide)).2 "demo".toList (by decide)⟩

theorem DocumentationAnalyzer.analyzeCodeComments_ge (files : List FileEntry) :
    5 ≤ analyzeCodeComments files := by
  unfold analyzeCodeComments
  simp only []
  split
  · exact le_refl _
  · apply clamp_ge _ (by norm_num)
    split_ifs <;> norm_num

theorem ite_add_ge {p : Prop} [Decidable p] {c s d : ℚ} (hs : c ≤ s) (hd : 0 ≤ d) :
    c ≤ if p then s + d else s := by
  split_ifs
  · linarith
  · exact hs

theorem DocumentationAnalyzer.analyzeAdditionalDocs_ge (files : List FileEntry) :
    10 ≤ analyzeAdditionalDocs files := by
  unfold analyzeAdditionalDocs
  lift_lets
  extract_lets s0 b1 s1 s2 s3 b4 s4 b5 s5 b6 s6 md s7 s8
  have h0 : (10 : ℚ) ≤ s0 := le_refl _
  have h1 : (10 : ℚ) ≤ s1 := ite_add_ge h0 (by norm_num)
  have h2 : (10 : ℚ) ≤ s2 := ite_add_ge h1 (by norm_num)
  have h3 : (10 : ℚ) ≤ s3 := ite_add_ge h2 (by norm_num)
  have h4 : (10 : ℚ) ≤ s4 := ite_add_ge h3 (by norm_num)
  have h5 : (10 : ℚ) ≤ s5 := ite_add_ge h4 (by norm_num)
  have h6 : (10 : ℚ) ≤ s6 := ite_add_ge h5 (by norm_num)
  have h7 : (10 : ℚ) ≤ s7 := ite_add_ge h6 (by norm_num)
  have h8 : (10 : ℚ) ≤ s8 := ite_add_ge h7 (by norm_num)
  exact clamp_ge h8 (by norm_num)

theorem DocumentationAnalyzer.documentationScore_ge (readme : Option Readme)
    (files : List FileEntry) : 2 ≤ (analyze readme files).score := by
  unfold analyze totalScore
  simp only []
  have h1 := analyzeReadme_nonneg readme
  have h2 := analyzeCodeComments_ge files
  have h3 := analyzeAdditionalDocs_ge files
  apply le_min _ (by norm_num)
  have hw := weighted3_ge (l := 0) (m := 5) (n := 10)
    le_rfl h1 (by norm_num : (0 : ℚ) ≤ 0.75)
    (by norm_num) h2 (by norm_num : (0 : ℚ) ≤ 0.15)
    (by norm_num) h3 (by norm_num : (0 : ℚ) ≤ 0.10)
  have := le_mathRound (n := 2) (le_trans (by norm_num) hw)
  exact_mod_cast this

theorem GitPracticesAnalyzer.analyzeBranches_ge (branches : Option (List Branch)) :
    5 ≤ analyzeBranches branches := by
  unfold analyzeBranches
  split
  · exact le_refl _
  · split
    · exact le_refl _
    · apply clamp_ge _ (by norm_num)
      split_ifs <;> norm_num

theorem GitPracticesAnalyzer.analyzePullRequests_ge (prs : Option PullRequests)
    (commits : Option (List Commit)) : 3 ≤ analyzePullRequests prs commits := by
  unfold analyzePullRequests
  split
  · exact le_refl _
  · apply clamp_ge _ (by norm_num)
    simp only []
    split_ifs <;> norm_num

theorem GitPracticesAnalyzer.gitPracticesScore_ge (commits : Option (List Commit))
    (branches : Option (List Branch)) (prs : Option PullRequests) :
    2 ≤ (analyze commits branches prs).score := by
  unfold analyze totalScore
  simp only []
  have h1 := analyzeCommits_nonneg commits
  have h2 := analyzeBranches_ge branches
  have h3 := analyzePullRequests_ge prs commits
  apply le_min _ (by norm_num)
  have hw := weighted3_ge (l := 0) (m := 5) (n := 3)
    le_rfl h1 (by norm_num : (0 : ℚ) ≤ 0.50)
    (by norm_num) h2 (by norm_num : (0 : ℚ) ≤ 0.25)
    (by norm_num) h3 (by norm_num : (0 : ℚ) ≤ 0.25)
  have := le_mathRound (n := 2) (le_trans (by norm_num) hw)
  exact_mod_cast this

theorem SecurityAnalyzer.detectHardcodedSecrets_ge (files : List FileEntry) :
    2 ≤ detectHardcodedSecrets files := by
  unfold detectHardcodedSecrets
  simp only []
  apply le_max_of_le_left
  split_ifs <;> norm_num

theorem SecurityAnalyzer.securityScore_ge (files : List FileEntry) (readme : Option Readme) :
    3 ≤ (analyze files readme).score := by
  unfold analyze totalScore
  simp only []
  have h1 := detectHardcodedSecrets_ge files
  have h2 : 0 ≤ analyzeGitignore files := by
    unfold analyzeGitignore; simp only []; split <;> norm_num
  have h3 : 7 ≤ analyzeDependencySecurity files := by
    unfold analyzeDependencySecurity; simp only []; split <;> norm_num
  apply le_min _ (by norm_num)
  have hw := weighted3_ge (l := 2) (m := 0) (n := 7)
    (by norm_num) h1 (by norm_num : (0 : ℚ) ≤ 0.40)
    le_rfl h2 (by norm_num : (0 : ℚ) ≤ 0.35)
    (by norm_num) h3 (by norm_num : (0 : ℚ) ≤ 0.25)
  have := le_mathRound (n := 3) (le_trans (by norm_num) hw)
  exact_mod_cast this

/-- C27: for every snapshot the documentation score is at least 2, the
git-practices score at least 2 and the security score at least 3; hence every
analysis that the orchestrator completes reports a composite score of at least
7, and the analysis of the empty snapshot (no files, no README, no commits, no
branches, no pull requests) completes with the composite score 10. -/
theorem composite_score_at_least_seven :
    (∀ (files : List FileEntry) (readme : Option Readme) (commits : Option (List Commit))
        (branches : Option (List Branch)) (pullRequests : Option PullRequests),
      2 ≤ (DocumentationAnalyzer.analyze readme files).score ∧
      2 ≤ (GitPracticesAnalyzer.analyze commits branches pullRequests).score ∧
      3 ≤ (SecurityAnalyzer.analyze files readme).score) ∧
    (∀ (s : Services) (ai : AIService) (repoUrl : Str) (res : AnalysisResult),
      (analyzeRepository s analyzers ai repoUrl).1 = .ok res → 7 ≤ res.score) ∧
    (analyzeRepository (sampleServices []) analyzers offlineAI sampleUrl).1.map
      (fun res => res.score) = .ok 10 := by
  refine ⟨fun files readme commits branches pullRequests =>
      ⟨DocumentationAnalyzer.documentationScore_ge readme files,
        GitPracticesAnalyzer.gitPracticesScore_ge commits branches pullRequests,
        SecurityAnalyzer.securityScore_ge files readme⟩, ?_, ?_⟩
  · intro s ai repoUrl res h
    unfold analyzeRepository at h
    split at h
    · simp at h
    · rename_i owner repo hurl
      split at h
      · simp at h
      · rename_i analysisId hcreate
        split at h
        · rename_i result log hsteps
          simp only [Except.ok.injEq] at h
          subst h
          obtain ⟨repoData, files, readme, commits, branches, pullRequests, results, h1, h2, h3,
            h4, h5, h6, h7, hscore, hmetrics⟩ := analyzeSteps_ok hsteps
          rw [runAnalyzers_analyzers] at h7
          simp only [Except.ok.injEq] at h7
          subst h7
          obtain ⟨⟨a1, -, -⟩, ⟨a2, -, -⟩, -, ⟨a4, -, -⟩, -, -, ⟨a7, -, -⟩, ⟨a8, -, -⟩,
            ⟨a9, -, -⟩⟩ := analyzer_scores_bounds files readme (some commits) (some branches)
              (some pullRequests)
          have d := DocumentationAnalyzer.documentationScore_ge readme files
          have g := GitPracticesAnalyzer.gitPracticesScore_ge (some commits) (some branches)
            (some pullRequests)
          have c := SecurityAnalyzer.securityScore_ge files readme
          rw [hscore]
          unfold totalScore
          have := @le_mathRound
            ((CodeQualityAnalyzer.analyze files).score +
              (ProjectStructureAnalyzer.analyze files).score +
              (DocumentationAnalyzer.analyze readme files).score +
              (TestingAnalyzer.analyze files).score +
              (GitPracticesAnalyzer.analyze (some commits) (some branches)
                (some pullRequests)).score +
              (SecurityAnalyzer.analyze files readme).score +
              (CICDAnalyzer.analyze files).score +
              (DependenciesAnalyzer.analyze files).score +
              (ContainerizationAnalyzer.analyze files).score) 7 (by norm_num; linarith)
          exact_mod_cast this
        · split at h <;> simp at h
  · decide!

theorem SecurityAnalyzer.sensitive_of_isEnvFile (f : FileEntry) (h : isEnvFile f = true) :
    (SECURITY_PATTERNS.sensitiveFiles.any fun sf => includes f.path sf) = true := by
  unfold isEnvFile at h
  rw [Bool.and_eq_true] at h
  rw [List.any_eq_true]
  exact ⟨".env".toList, by decide, h.1⟩

theorem SecurityAnalyzer.filter_length_pos_iff_any {α : Type} (p : α → Bool) (xs : List α) :
    (xs.filter p).length > 0 ↔ xs.any p = true := by
  rw [gt_iff_lt, List.length_pos_iff_exists_mem, List.any_eq_true]
  constructor
  · rintro ⟨a, ha⟩
    rw [List.mem_filter] at ha
    exact ⟨a, ha.1, ha.2⟩
  · rintro ⟨a, ha1, ha2⟩
    exact ⟨a, List.mem_filter.mpr ⟨ha1, ha2⟩⟩

/-- C28: for every file list, `detectHardcodedSecrets` returns 10 when no path
contains a sensitive filename, 5 when some path contains a sensitive filename
but no path contains `.env` without `.example`, and 2 otherwise; a path with
`.env` and without `.example` always contains a sensitive filename, so 7 is
never returned; and a list in which some file is `.env.example` and every path
that contains a sensitive filename is `.env.example` gets 5. -/
theorem detectHardcodedSecrets_values (files : List FileEntry) :
    ((files.any fun f => SECURITY_PATTERNS.sensitiveFiles.any fun sf => includes f.path sf) = false →
      SecurityAnalyzer.detectHardcodedSecrets files = 10) ∧
    ((files.any fun f => SECURITY_PATTERNS.sensitiveFiles.any fun sf => includes f.path sf) = true →
      (files.any fun f => includes f.path ".env".toList && !includes f.path ".example".toList) = false →
      SecurityAnalyzer.detectHardcodedSecrets files = 5) ∧
    ((files.any fun f => includes f.path ".env".toList && !includes f.path ".example".toList) = true →
      SecurityAnalyzer.detectHardcodedSecrets files = 2) ∧
    SecurityAnalyzer.detectHardcodedSecrets files ≠ 7 ∧
    ((∃ f ∈ files, f.path = ".env.example".toList) →
      (∀ f ∈ files, (SECURITY_PATTERNS.sensitiveFiles.any fun sf => includes f.path sf) = true →
        f.path = ".env.example".toList) →
      SecurityAnalyzer.detectHardcodedSecrets files = 5) := by
  have key : ∀ s e : Bool,
      (files.any fun f => SECURITY_PATTERNS.sensitiveFiles.any fun sf => includes f.path sf) = s →
      files.any SecurityAnalyzer.isEnvFile = e →
      SecurityAnalyzer.detectHardcodedSecrets files =
        max ((if e = true then (if s = true then (10 : ℚ) - 5 else 10) - 3
          else (if s = true then (10 : ℚ) - 5 else 10))) 0 := by
    intro s e hs he
    unfold SecurityAnalyzer.detectHardcodedSecrets
    simp only [SecurityAnalyzer.filter_length_pos_iff_any, hs, he]
  have henv : (files.any fun f => includes f.path ".env".toList && !includes f.path ".example".toList)
      = files.any SecurityAnalyzer.isEnvFile := rfl
  have himp : files.any SecurityAnalyzer.isEnvFile = true →
      (files.any fun f => SECURITY_PATTERNS.sensitiveFiles.any fun sf => includes f.path sf) = true := by
    intro h
    rw [List.any_eq_true] at h ⊢
    obtain ⟨f, hf, hfe⟩ := h
    exact ⟨f, hf, SecurityAnalyzer.sensitive_of_isEnvFile f hfe⟩
  refine ⟨?_, ?_, ?_, ?_, ?_⟩
  · intro hs
    have he : files.any SecurityAnalyzer.isEnvFile = false := by
      by_contra hne
      rw [Bool.not_eq_false] at hne
      rw [himp hne] at hs
      exact Bool.noConfusion hs
    rw [key false false hs he]
    norm_num
  · intro hs he
    rw [henv] at he
    rw [key true false hs he]
    norm_num
  · intro he
    rw [henv] at he
    rw [key true true (himp he) he]
    norm_num
  · cases hs : (files.any fun f => SECURITY_PATTERNS.sensitiveFiles.any fun sf => includes f.path sf) <;>
      cases he : files.any SecurityAnalyzer.isEnvFile
    · rw [key _ _ hs he]; norm_num
    · rw [himp he] at hs; exact Bool.noConfusion hs
    · rw [key _ _ hs he]; norm_num
    · rw [key _ _ hs he]; norm_num
  · rintro ⟨f, hf, hp⟩ hall
    have hs : (files.any fun f => SECURITY_PATTERNS.sensitiveFiles.any fun sf => includes f.path sf)
        = true := by
      rw [List.any_eq_true]
      refine ⟨f, hf, ?_⟩
      rw [hp]
      decide
    have he : files.any SecurityAnalyzer.isEnvFile = false := by
      rw [List.any_eq_false]
      intro g hg hge
      have hgp := hall g hg (SecurityAnalyzer.sensitive_of_isEnvFile g hge)
      unfold SecurityAnalyzer.isEnvFile at hge
      rw [hgp] at hge
      revert hge
      decide
    rw [key true false hs he]
    norm_num

theorem ProjectStructureAnalyzer.presentPatterns_eq (files : List FileEntry) :
    ((separationPatterns.map fun dirs =>
        files.filter fun f => dirs.any fun d => includes f.path d).filter
      fun p => p.length > 0).length =
    (separationPatterns.filter fun dirs =>
      files.any fun f => dirs.any fun d => includes f.path d).length := by
  rw [List.filter_map, List.length_map]
  congr 1
  apply List.filter_congr
  intro dirs _
  simp only [Function.comp]
  rw [Bool.eq_iff_iff]
  simp only [decide_eq_true_eq]
  rw [gt_iff_lt, List.length_pos_iff_exists_mem, List.any_eq_true]
  constructor
  · rintro ⟨a, ha⟩
    rw [List.mem_filter] at ha
    exact ⟨a, ha.1, ha.2⟩
  · rintro ⟨a, ha1, ha2⟩
    exact ⟨a, List.mem_filter.mpr ⟨ha1, ha2⟩⟩

theorem ProjectStructureAnalyzer.ratio_lt_half (a b : Nat) (hb : 0 < b) :
    ((a : ℚ) / b < 0.5) ↔ 2 * a < b := by
  have hb' : (0 : ℚ) < b := by exact_mod_cast hb
  rw [div_lt_iff₀ hb']
  constructor
  · intro h
    have h2 : ((2 * a : Nat) : ℚ) < (b : ℚ) := by push_cast; linarith
    exact_mod_cast h2
  · intro h
    have h2 : ((2 * a : Nat) : ℚ) < (b : ℚ) := by exact_mod_cast h
    push_cast at h2
    linarith

/-- C29: for every file list, with `present` the number of the nine directory
kinds that occur in some path, `tests` the files that end in `.test` or `.spec`
plus a JS/TS extension and `inDir` those of them under a test directory,
`analyzeSeparationOfConcerns` returns 12 when `present < 4`, `tests` is not
empty and fewer than half of `tests` are in `inDir`, and 15 in every other
case; it is the value computed without the bonus for 6 or more kinds. -/
theorem analyzeSeparationOfConcerns_values (files : List FileEntry) :
    ((ProjectStructureAnalyzer.separationPatterns.filter fun dirs =>
        files.any fun f => dirs.any fun d => includes f.path d).length < 4 ∧
      0 < (files.filter fun f => ProjectStructureAnalyzer.testFilePattern f.path).length ∧
      2 * ((files.filter fun f => ProjectStructureAnalyzer.testFilePattern f.path).filter
          fun f => ProjectStructureAnalyzer.inTestDir f.path).length <
        (files.filter fun f => ProjectStructureAnalyzer.testFilePattern f.path).length →
      ProjectStructureAnalyzer.analyzeSeparationOfConcerns files = 12) ∧
    (¬ ((ProjectStructureAnalyzer.separationPatterns.filter fun dirs =>
        files.any fun f => dirs.any fun d => includes f.path d).length < 4 ∧
      0 < (files.filter fun f => ProjectStructureAnalyzer.testFilePattern f.path).length ∧
      2 * ((files.filter fun f => ProjectStructureAnalyzer.testFilePattern f.path).filter
          fun f => ProjectStructureAnalyzer.inTestDir f.path).length <
        (files.filter fun f => ProjectStructureAnalyzer.testFilePattern f.path).length) →
      ProjectStructureAnalyzer.analyzeSeparationOfConcerns files = 15) ∧
    ProjectStructureAnalyzer.analyzeSeparationOfConcerns files =
      max (min
        ((if (ProjectStructureAnalyzer.separationPatterns.filter fun dirs =>
              files.any fun f => dirs.any fun d => includes f.path d).length ≥ 4
            then (15 : ℚ) + 3 else 15) -
          (if 0 < (files.filter fun f => ProjectStructureAnalyzer.testFilePattern f.path).length ∧
              2 * ((files.filter fun f => ProjectStructureAnalyzer.testFilePattern f.path).filter
                fun f => ProjectStructureAnalyzer.inTestDir f.path).length <
              (files.filter fun f => ProjectStructureAnalyzer.testFilePattern f.path).length
            then 3 else 0)) 15) 0 := by
  unfold ProjectStructureAnalyzer.analyzeSeparationOfConcerns
  simp only [ProjectStructureAnalyzer.presentPatterns_eq]
  generalize (ProjectStructureAnalyzer.separationPatterns.filter fun dirs =>
        files.any fun f => dirs.any fun d => includes f.path d).length = present
  generalize hT : (files.filter fun f => ProjectStructureAnalyzer.testFilePattern f.path) = tests
  generalize (tests.filter fun f => ProjectStructureAnalyzer.inTestDir f.path).length = inDir
  generalize tests.length = n
  by_cases hn : 0 < n
  · simp only [ProjectStructureAnalyzer.ratio_lt_half inDir n hn, gt_iff_lt, ge_iff_le, hn, true_and]
    by_cases h4 : 4 ≤ present <;> by_cases h6 : 6 ≤ present <;> by_cases hr : 2 * inDir < n <;>
      simp [h4, h6, hr] <;> first | omega | norm_num
  · simp only [gt_iff_lt, ge_iff_le, hn, false_and, if_false]
    by_cases h4 : 4 ≤ present <;> by_cases h6 : 6 ≤ present <;> simp [h4, h6]
    first | omega | norm_num

/-! ## Reordering the file list -/

theorem perm_any {α : Type} {l l' : List α} (h : l.Perm l') (p : α → Bool) :
    l.any p = l'.any p := by
  rw [Bool.eq_iff_iff, List.any_eq_true, List.any_eq_true]
  constructor
  · rintro ⟨a, ha, hp⟩
    exact ⟨a, h.mem_iff.mp ha, hp⟩
  · rintro ⟨a, ha, hp⟩
    exact ⟨a, h.mem_iff.mpr ha, hp⟩

theorem foldl_max_absorb (xs : List ℚ) :
    ∀ (a b : ℚ), b ∈ xs → xs.foldl max a = xs.foldl max (max a b) := by
  induction xs with
  | nil => intro a b hb; simp at hb
  | cons x t ih =>
    intro a b hb
    rw [List.foldl_cons, List.foldl_cons]
    rcases List.mem_cons.mp hb with hbx | hbt
    · subst hbx
      rw [max_assoc, max_self]
    · rw [ih (max a x) b hbt, sup_right_comm]

theorem perm_mathMax {xs ys : List ℚ} (h : xs.Perm ys) : mathMax xs = mathMax ys := by
  unfold mathMax
  cases xs with
  | nil =>
    have : ys = [] := List.Perm.nil_eq h ▸ rfl
    subst this
    rfl
  | cons x t =>
    cases ys with
    | nil => exact absurd h.symm (List.Perm.nil_eq · |> fun e => by simp at e)
    | cons y s =>
      have hy : y ∈ x :: t := h.mem_iff.mpr (List.mem_cons_self _ _)
      have hx : x ∈ x :: t := List.mem_cons_self _ _
      show (x :: t).foldl max x = (y :: s).foldl max y
      rw [foldl_max_absorb (x :: t) x y hy, max_comm, ← foldl_max_absorb (x :: t) y x hx]
      apply List.Perm.foldl_eq' h
      intro a _ b _ z
      exact sup_right_comm z a b

theorem perm_setOf {α : Type} [DecidableEq α] {xs ys : List α} (h : xs.Perm ys) :
    (setOf xs).Perm (setOf ys) := by
  rw [List.perm_ext_iff_of_nodup (nodup_setOf xs) (nodup_setOf ys)]
  intro a
  rw [mem_setOf, mem_setOf]
  exact h.mem_iff

theorem perm_setOf_contains {xs ys : List Str} (h : xs.Perm ys) (a : Str) :
    (setOf xs).contains a = (setOf ys).contains a := by
  rw [Bool.eq_iff_iff]
  show List.elem a (setOf xs) = true ↔ List.elem a (setOf ys) = true
  rw [List.elem_iff, List.elem_iff, mem_setOf, mem_setOf]
  exact h.mem_iff

theorem sum_filter_le {α : Type} (g : α → Nat) (p : α → Bool) (xs : List α) :
    ((xs.filter p).map g).sum ≤ (xs.map g).sum := by
  induction xs with
  | nil => simp
  | cons x t ih =>
    by_cases hp : p x = true
    · simp only [List.filter_cons_of_pos hp, List.map_cons, List.sum_cons]
      omega
    · simp only [List.filter_cons_of_neg hp, List.map_cons, List.sum_cons]
      omega

theorem perm_foldl_sizes {l l' : List FileEntry} (h : l.Perm l')
    (hsum : (l.map fun f => f.size.getD 0).sum ≤ 2 ^ 53) :
    l.foldl (fun sum f => addD sum f.sizeOr0) 0 = l'.foldl (fun sum f => addD sum f.sizeOr0) 0 := by
  have hsum' : (l'.map fun f => f.size.getD 0).sum ≤ 2 ^ 53 := by
    rw [← (h.map _).sum_eq]; exact hsum
  have e1 := foldl_addD_exact (fun f : FileEntry => f.size.getD 0) l hsum
  have e2 := foldl_addD_exact (fun f : FileEntry => f.size.getD 0) l' hsum'
  have e3 : l.foldl (fun sum f => addD sum f.sizeOr0) 0 =
      l.foldl (fun s x => addD s (((fun f : FileEntry => f.size.getD 0) x : Nat) : ℚ)) 0 := rfl
  have e4 : l'.foldl (fun sum f => addD sum f.sizeOr0) 0 =
      l'.foldl (fun s x => addD s (((fun f : FileEntry => f.size.getD 0) x : Nat) : ℚ)) 0 := rfl
  rw [e3, e4, e1, e2, (h.map _).sum_eq]

theorem perm_foldl_positive_sizes {l l' : List FileEntry} (h : l.Perm l')
    (hsum : (l.map fun f => f.size.getD 0).sum ≤ 2 ^ 53) (p : ℚ → Bool) :
    ((l.map fun f => f.sizeOr0).filter p).foldl (fun a b => addD a b) 0 =
      ((l'.map fun f => f.sizeOr0).filter p).foldl (fun a b => addD a b) 0 := by
  have hf := h.filter fun f => p f.sizeOr0
  have hle := sum_filter_le (fun f : FileEntry => f.size.getD 0) (fun f => p f.sizeOr0) l
  have key := perm_foldl_sizes hf (le_trans hle hsum)
  have conv : ∀ m : List FileEntry,
      ((m.map fun f => f.sizeOr0).filter p).foldl (fun a b => addD a b) 0 =
        (m.filter fun f => p f.sizeOr0).foldl (fun sum f => addD sum f.sizeOr0) 0 := by
    intro m
    rw [List.filter_map, List.foldl_map]
    rfl
  rw [conv l, conv l', key]

theorem perm_foldl_depths {l l' : List FileEntry} (h : l.Perm l')
    (hsum : (l.map fun f => splitDepth f.path).sum ≤ 2 ^ 53) :
    (l.map fun f => (splitDepth f.path : ℚ)).foldl (fun a b => addD a b) 0 =
      (l'.map fun f => (splitDepth f.path : ℚ)).foldl (fun a b => addD a b) 0 := by
  have hsum' : (l'.map fun f => splitDepth f.path).sum ≤ 2 ^ 53 := by
    rw [← (h.map _).sum_eq]; exact hsum
  have e1 := foldl_addD_exact (fun f : FileEntry => splitDepth f.path) l hsum
  have e2 := foldl_addD_exact (fun f : FileEntry => splitDepth f.path) l' hsum'
  rw [List.foldl_map, List.foldl_map]
  exact e1.trans (((congrArg (fun n : Nat => (n : ℚ)) (h.map _).sum_eq)).trans e2.symm)

theorem isPrefixOf_append_sep (sep : Char) (b : Str) :
    ∀ (pat a : Str), sep ∉ pat → pat.isPrefixOf (a ++ sep :: b) = pat.isPrefixOf a := by
  intro pat
  induction pat with
  | nil => intro a _; simp [List.isPrefixOf]
  | cons p ps ih =>
    intro a hsep
    have hp : p ≠ sep := fun e => hsep (e ▸ List.mem_cons_self _ _)
    have hps : sep ∉ ps := fun e => hsep (List.mem_cons_of_mem _ e)
    cases a with
    | nil => simp [List.isPrefixOf, hp]
    | cons x a' =>
      show (p :: ps).isPrefixOf (x :: (a' ++ sep :: b)) = (p :: ps).isPrefixOf (x :: a')
      simp only [List.isPrefixOf]
      rw [ih a' hps]

theorem includes_append_sep (sep : Char) (pat : Str) (hne : pat ≠ []) (hsep : sep ∉ pat)
    (b : Str) : ∀ a : Str, includes (a ++ sep :: b) pat = (includes a pat || includes b pat) := by
  have hempty : pat.isEmpty = false := by cases pat <;> simp_all
  intro a
  induction a with
  | nil =>
    show includes (sep :: b) pat = _
    have h0 := isPrefixOf_append_sep sep b pat [] hsep
    have h1 : pat.isPrefixOf ([] : Str) = false := by cases pat <;> simp_all [List.isPrefixOf]
    simp only [List.nil_append] at h0
    simp only [includes, h0, h1, hempty, Bool.false_or]
  | cons x a' ih =>
    show includes (x :: (a' ++ sep :: b)) pat = _
    have h0 := isPrefixOf_append_sep sep b pat (x :: a') hsep
    simp only [List.cons_append] at h0
    simp only [includes, h0, ih, Bool.or_assoc]

theorem includes_intercalate (pat : Str) (hne : pat ≠ []) (hsep : ' ' ∉ pat) :
    ∀ names : List Str,
      includes (List.intercalate [' '] names) pat = names.any fun n => includes n pat := by
  have hempty : pat.isEmpty = false := by cases pat <;> simp_all
  intro names
  induction names with
  | nil => simp [List.intercalate, includes, hempty]
  | cons a rest ih =>
    cases rest with
    | nil => simp [List.intercalate, List.intersperse]
    | cons b rest' =>
      have hcat : List.intercalate [' '] (a :: b :: rest') =
          a ++ ' ' :: List.intercalate [' '] (b :: rest') := by
        simp [List.intercalate, List.intersperse]
      rw [hcat, includes_append_sep ' ' pat hne hsep, ih]
      simp

theorem perm_includes_join {names names' : List Str} (h : names.Perm names') (pat : Str)
    (hne : pat ≠ []) (hsep : ' ' ∉ pat) :
    includes (List.intercalate [' '] names) pat =
      includes (List.intercalate [' '] names') pat := by
  rw [includes_intercalate pat hne hsep, includes_intercalate pat hne hsep]
  exact perm_any h _

theorem CodeQualityAnalyzer.analyzeComplexity_perm {l l' : List FileEntry} (h : l.Perm l')
    (hsum : (l.map fun f => f.size.getD 0).sum ≤ 2 ^ 53) :
    analyzeComplexity l = analyzeComplexity l' := by
  unfold analyzeComplexity
  simp only [h.length_eq, fun p => (h.filter p).length_eq, perm_foldl_sizes h hsum,
    fun g => perm_mathMax (h.map g)]

theorem CodeQualityAnalyzer.analyzeFileSizes_perm {l l' : List FileEntry} (h : l.Perm l')
    (hsum : (l.map fun f => f.size.getD 0).sum ≤ 2 ^ 53) :
    analyzeFileSizes l = analyzeFileSizes l' := by
  unfold analyzeFileSizes
  have hs : ∀ (g : FileEntry → ℚ) (p : ℚ → Bool),
      ((l.map g).filter p).Perm ((l'.map g).filter p) := fun g p => (h.map g).filter p
  simp only [fun g p => (hs g p).length_eq, fun g p q => ((hs g p).filter q).length_eq,
    perm_foldl_positive_sizes h hsum, fun g p => perm_mathMax (hs g p)]

theorem CodeQualityAnalyzer.analyzeNaming_perm {l l' : List FileEntry} (h : l.Perm l') :
    analyzeNaming l = analyzeNaming l' := by
  unfold analyzeNaming
  have hfold : ∀ init : ℚ,
      l.foldl (fun score file =>
        let filename := path.basename file.path
        let score := if badNamePattern filename then score - 0.5 else score
        let score := if numberedFilePattern filename then score - 0.5 else score
        score) init =
      l'.foldl (fun score file =>
        let filename := path.basename file.path
        let score := if badNamePattern filename then score - 0.5 else score
        let score := if numberedFilePattern filename then score - 0.5 else score
        score) init := by
    intro init
    apply List.Perm.foldl_eq' h
    intro x _ y _ z
    simp only []
    split_ifs <;> ring
  simp only [h.length_eq, fun p => (h.filter p).length_eq, hfold]

theorem CodeQualityAnalyzer.analyzeDuplication_perm {l l' : List FileEntry} (h : l.Perm l') :
    analyzeDuplication l = analyzeDuplication l' := by
  unfold analyzeDuplication
  simp only [fun (g : FileEntry → Str) => (h.map g).length_eq,
    fun (g : FileEntry → Str) => (perm_setOf (h.map g)).length_eq]

theorem CodeQualityAnalyzer.codeQualityScore_perm {l l' : List FileEntry} (h : l.Perm l')
    (hsum : (l.map fun f => f.size.getD 0).sum ≤ 2 ^ 53) :
    (analyze l).score = (analyze l').score := by
  have hc := h.filter fun f => isCodeFile f.path
  have hcs := le_trans
    (sum_filter_le (fun f : FileEntry => f.size.getD 0) (fun f => isCodeFile f.path) l) hsum
  unfold analyze totalScore
  simp only [hc.length_eq, analyzeComplexity_perm hc hcs, analyzeFileSizes_perm hc hcs,
    analyzeNaming_perm hc, analyzeDuplication_perm hc]

theorem ProjectStructureAnalyzer.analyzeFolderOrganization_perm {l l' : List FileEntry}
    (h : l.Perm l') (hsum : (l.map fun f => splitDepth f.path).sum ≤ 2 ^ 53) :
    analyzeFolderOrganization l = analyzeFolderOrganization l' := by
  unfold analyzeFolderOrganization
  simp only [h.length_eq, fun p => (h.filter p).length_eq, perm_any h,
    fun (g : FileEntry → Str) => (perm_setOf (h.map g)).length_eq,
    fun (g : FileEntry → ℚ) => (h.map g).length_eq,
    perm_foldl_depths h hsum,
    fun (g : FileEntry → ℚ) => perm_mathMax (h.map g)]

theorem ProjectStructureAnalyzer.analyzeConfigFiles_perm {l l' : List FileEntry}
    (h : l.Perm l') : analyzeConfigFiles l = analyzeConfigFiles l' := by
  unfold analyzeConfigFiles
  simp only [fun p => (h.filter p).length_eq, perm_any h]

theorem ProjectStructureAnalyzer.analyzeSeparationOfConcerns_perm {l l' : List FileEntry}
    (h : l.Perm l') : analyzeSeparationOfConcerns l = analyzeSeparationOfConcerns l' := by
  unfold analyzeSeparationOfConcerns
  simp only [presentPatterns_eq, fun p => (h.filter p).length_eq,
    fun p q => ((h.filter p).filter q).length_eq, perm_any h]

theorem ProjectStructureAnalyzer.structureScore_perm {l l' : List FileEntry} (h : l.Perm l')
    (hsum : (l.map fun f => splitDepth f.path).sum ≤ 2 ^ 53) :
    (analyze l).score = (analyze l').score := by
  unfold analyze totalScore
  simp only [h.length_eq, analyzeFolderOrganization_perm h hsum, analyzeConfigFiles_perm h,
    analyzeSeparationOfConcerns_perm h]

theorem DocumentationAnalyzer.documentationScore_perm {l l' : List FileEntry} (h : l.Perm l')
    (readme : Option Readme) : (analyze readme l).score = (analyze readme l').score := by
  have h1 : analyzeCodeComments l = analyzeCodeComments l' := by
    unfold analyzeCodeComments
    simp only [fun p => (h.filter p).length_eq, perm_any h]
  have h2 : analyzeAdditionalDocs l = analyzeAdditionalDocs l' := by
    unfold analyzeAdditionalDocs checkLicense checkContributing
    simp only [fun p => (h.filter p).length_eq, perm_any h]
  unfold analyze totalScore
  simp only [h1, h2]

theorem SecurityAnalyzer.securityScore_perm {l l' : List FileEntry} (h : l.Perm l')
    (readme : Option Readme) : (analyze l readme).score = (analyze l' readme).score := by
  unfold analyze totalScore detectHardcodedSecrets analyzeGitignore analyzeDependencySecurity
  simp only [fun p => (h.filter p).length_eq, perm_any h]

theorem CICDAnalyzer.cicdScore_perm {l l' : List FileEntry} (h : l.Perm l') :
    (analyze l).score = (analyze l').score := by
  unfold analyze detectCICDPlatforms
  simp only [perm_any h]

theorem DependenciesAnalyzer.dependenciesScore_perm {l l' : List FileEntry} (h : l.Perm l') :
    (analyze l).score = (analyze l').score := by
  unfold analyze detectPackageManagers detectFrameworks
  simp only [perm_any h]

theorem ContainerizationAnalyzer.containerizationScore_perm {l l' : List FileEntry}
    (h : l.Perm l') : (analyze l).score = (analyze l').score := by
  unfold analyze rawScore hasDockerfile hasDockerCompose
  simp only [perm_any h]

theorem TestingAnalyzer.findTestFiles_perm {l l' : List FileEntry} (h : l.Perm l') :
    (findTestFiles l).Perm (findTestFiles l') :=
  h.filter _

theorem TestingAnalyzer.findCodeFiles_perm {l l' : List FileEntry} (h : l.Perm l') :
    (findCodeFiles l).Perm (findCodeFiles l') := by
  unfold findCodeFiles
  simp only [perm_setOf_contains ((findTestFiles_perm h).map fun f => f.path)]
  exact h.filter _

theorem TestingAnalyzer.getTestingFrameworks_perm {l l' : List FileEntry} (h : l.Perm l') :
    getTestingFrameworks l = getTestingFrameworks l' := by
  have hm := h.map fun f => toLowerCase f.path
  unfold getTestingFrameworks
  simp only [perm_any hm,
    perm_includes_join hm "jest".toList (by decide) (by decide),
    perm_includes_join hm "mocha".toList (by decide) (by decide),
    perm_includes_join hm "cypress".toList (by decide) (by decide),
    perm_includes_join hm "playwright".toList (by decide) (by decide),
    perm_includes_join hm "@testing-library".toList (by decide) (by decide),
    perm_includes_join hm "pytest".toList (by decide) (by decide),
    perm_includes_join hm "unittest".toList (by decide) (by decide),
    perm_includes_join hm "junit".toList (by decide) (by decide),
    perm_includes_join hm "testng".toList (by decide) (by decide),
    perm_includes_join hm "mockito".toList (by decide) (by decide),
    perm_includes_join hm "nunit".toList (by decide) (by decide),
    perm_includes_join hm "xunit".toList (by decide) (by decide)]

theorem TestingAnalyzer.testingScore_perm {l l' : List FileEntry} (h : l.Perm l')
    (hsum : (l.map fun f => f.size.getD 0).sum ≤ 2 ^ 53) :
    (analyze l).score = (analyze l').score := by
  have ht := findTestFiles_perm h
  have hc := findCodeFiles_perm h
  have hts : ((findTestFiles l).map fun f => f.size.getD 0).sum ≤ 2 ^ 53 :=
    le_trans (sum_filter_le _ _ l) hsum
  have hcs : ((findCodeFiles l).map fun f => f.size.getD 0).sum ≤ 2 ^ 53 :=
    le_trans (sum_filter_le _ _ l) hsum
  have h1 : analyzeTestPresence (findTestFiles l) (findCodeFiles l) =
      analyzeTestPresence (findTestFiles l') (findCodeFiles l') := by
    unfold analyzeTestPresence
    simp only [ht.length_eq, perm_any ht]
  have h2 : estimateTestCoverage (findTestFiles l) (findCodeFiles l) =
      estimateTestCoverage (findTestFiles l') (findCodeFiles l') := by
    unfold estimateTestCoverage
    simp only [ht.length_eq, hc.length_eq, perm_foldl_sizes ht hts, perm_foldl_sizes hc hcs]
  have h3 : analyzeTestOrganization (findTestFiles l) =
      analyzeTestOrganization (findTestFiles l') := by
    unfold analyzeTestOrganization
    simp only [ht.length_eq, fun p => (ht.filter p).length_eq, perm_any ht]
  have h4 : detectTestingFramework l = detectTestingFramework l' := by
    unfold detectTestingFramework
    rw [getTestingFrameworks_perm h]
  unfold analyze totalScore
  simp only [hc.length_eq, h1, h2, h3, h4]
  split_ifs <;> rfl

/-- C30: for each of the eight analyzers that take the file list (code quality,
project structure, documentation, testing, security, CI/CD, dependencies,
containerization) and for every file list and every reordering of it, the score
on the reordered list equals the score on the list.  The file list is one whose
sums are exact in doubles: the sizes add up to at most `2^53` bytes, and so do
the path depths. -/
theorem scores_invariant_under_reordering (files files' : List FileEntry)
    (readme : Option Readme) (h : files.Perm files')
    (hsizes : (files.map fun f => f.size.getD 0).sum ≤ 2 ^ 53)
    (hdepths : (files.map fun f => splitDepth f.path).sum ≤ 2 ^ 53) :
    (CodeQualityAnalyzer.analyze files').score = (CodeQualityAnalyzer.analyze files).score ∧
    (ProjectStructureAnalyzer.analyze files').score =
      (ProjectStructureAnalyzer.analyze files).score ∧
    (DocumentationAnalyzer.analyze readme files').score =
      (DocumentationAnalyzer.analyze readme files).score ∧
    (TestingAnalyzer.analyze files').score = (TestingAnalyzer.analyze files).score ∧
    (SecurityAnalyzer.analyze files' readme).score = (SecurityAnalyzer.analyze files readme).score ∧
    (CICDAnalyzer.analyze files').score = (CICDAnalyzer.analyze files).score ∧
    (DependenciesAnalyzer.analyze files').score = (DependenciesAnalyzer.analyze files).score ∧
    (ContainerizationAnalyzer.analyze files').score =
      (ContainerizationAnalyzer.analyze files).score :=
  ⟨(CodeQualityAnalyzer.codeQualityScore_perm h hsizes).symm,
    (ProjectStructureAnalyzer.structureScore_perm h hdepths).symm,
    (DocumentationAnalyzer.documentationScore_perm h readme).symm,
    (TestingAnalyzer.testingScore_perm h hsizes).symm,
    (SecurityAnalyzer.securityScore_perm h readme).symm,
    (CICDAnalyzer.cicdScore_perm h).symm,
    (DependenciesAnalyzer.dependenciesScore_perm h).symm,
    (ContainerizationAnalyzer.containerizationScore_perm h).symm⟩

/-- Witness of C30: `smallProject`, whose sizes add up to 1341 bytes, and its
reverse get the same eight scores. -/
theorem scores_invariant_under_reordering_witness :
    smallProject.Perm smallProject.reverse ∧
      smallProject.reverse ≠ smallProject ∧
      (smallProject.map fun f => f.size.getD 0).sum = 1341 ∧
      (CodeQualityAnalyzer.analyze smallProject.reverse).score =
        (CodeQualityAnalyzer.analyze smallProject).score ∧
      (TestingAnalyzer.analyze smallProject.reverse).score =
        (TestingAnalyzer.analyze smallProject).score :=
  have h := scores_invariant_under_reordering smallProject smallProject.reverse none
    (List.reverse_perm smallProject).symm (by decide) (by decide)
  ⟨(List.reverse_perm smallProject).symm, by decide, by decide, h.1, h.2.2.2.1⟩

end GitGrade
